import Mathlib

/-!
# DynamO: sleep/wake system and simulation life cycle

A shallow embedding of `SSleep` (src/dynamics/systems/sleep.cpp) and of
`CSimulation` (src/simulation/simulation.cpp), followed by the reverse-event
check, replica exchange, event prediction, the video encoder of
test/ffmpeg-example.c, `coil::Attribute` and `magnet::radixSort`.

Conventions of the embedding

* `double` values are exact rationals; `unsigned long long` counters and
  `size_t` values are natural numbers reduced modulo `2^64` where the code
  computes them.
* A C++ exception is an `Outcome.thrown` next to the state reached when it
  was raised; a function whose C++ behaviour is undefined on an input
  (indexing past the end of the particle vector) returns `none` there.
* Code of the repository that is declared in headers outside `src/`
  (ranges, species, the Liouvillean, the scheduler, the output plugins) is a
  field of an environment structure.
* `std::sort` of the standard library is a field of the environment too,
  together with what the C++ standard promises of it: a sorted permutation,
  with no promise on the order of elements that compare equal.
-/

namespace DynamO

/-! ## Vectors -/

/-- Three-component `Vector` of `double`s. -/
structure Vector where
  x : ℚ
  y : ℚ
  z : ℚ
deriving DecidableEq

namespace Vector

/-- The vector `Vector(0,0,0)`. -/
def zero : Vector := ⟨0, 0, 0⟩

/-- Sum `a + b`, component by component. -/
def add (a b : Vector) : Vector := ⟨a.x + b.x, a.y + b.y, a.z + b.z⟩

/-- Unary minus `-a`. -/
def neg (a : Vector) : Vector := ⟨-a.x, -a.y, -a.z⟩

/-- Product with a scalar, `k * a` or `a * k`. -/
def scale (k : ℚ) (a : Vector) : Vector := ⟨k * a.x, k * a.y, k * a.z⟩

/-- Quotient by a scalar, `a / k`. -/
def divScalar (a : Vector) (k : ℚ) : Vector := ⟨a.x / k, a.y / k, a.z / k⟩

/-- Squared Euclidean norm `nrm2()`. -/
def nrm2 (a : Vector) : ℚ := a.x * a.x + a.y * a.y + a.z * a.z

/-- The comparison `a.nrm() < s` of the Euclidean norm with a scalar, written
without the square root: `sqrt q < s` holds exactly when `0 < s` and
`q < s * s`. -/
def nrmLt (a : Vector) (s : ℚ) : Bool := decide (0 < s ∧ a.nrm2 < s * s)

/-- The test `(J[0] == 0) && (J[1] == 0) && (J[2] == 0)` of `runEvent`. -/
def isZero (a : Vector) : Bool := a.x == 0 && a.y == 0 && a.z == 0

end Vector

/-! ## Particles and event data -/

/-- Modelled from the spec: the `Particle` class (simulation/particle.hpp is
not among the sources): identity, position, velocity and the `DYNAMIC` state
flag. -/
structure Particle where
  ID : Nat
  pos : Vector
  vel : Vector
  dynamic : Bool
deriving DecidableEq

namespace Particle

/-- Method `testState(Particle::DYNAMIC)`. -/
def testStateDynamic (p : Particle) : Bool := p.dynamic

/-- Method `setState(Particle::DYNAMIC)`. -/
def setStateDynamic (p : Particle) : Particle := { p with dynamic := true }

/-- Method `clearState(Particle::DYNAMIC)`. -/
def clearStateDynamic (p : Particle) : Particle := { p with dynamic := false }

/-- Assignment to `getVelocity()`. -/
def setVelocity (p : Particle) (v : Vector) : Particle := { p with vel := v }

end Particle

/-- The members of `EEventType` that the sleep system uses. -/
inductive EEventType where
  | NONE
  | SLEEP
  | RESLEEP
  | WAKEUP
  | CORRECT
deriving DecidableEq

/-- Class `ParticleEventData`: the particle it refers to (as read through the
reference when the data is used), the velocity before the event, the event
type and the change of kinetic energy. -/
structure ParticleEventData where
  particle : Particle
  oldVel : Vector
  type : EEventType
  deltaKE : ℚ
deriving DecidableEq

/-- Class `PairEventData`: the data of the two particles of a pair event. -/
structure PairEventData where
  particle1_ : ParticleEventData
  particle2_ : ParticleEventData
deriving DecidableEq

/-- Class `NEventData`: the single-particle and the pair changes of one event. -/
structure NEventData where
  L1partChanges : List ParticleEventData
  L2partChanges : List PairEventData
deriving DecidableEq

/-- How a call ended: it returned, or it threw with a message. -/
inductive Outcome where
  | ok
  | thrown (msg : String)
deriving DecidableEq

/-! ## The pending state changes, a `std::map<size_t, Vector>` -/

/-- The map as the list of its entries in increasing key order. -/
abbrev StateMap := List (Nat × Vector)

namespace StateMap

/-- Lookup `m.find(k)`: the value stored under `k`, if any. -/
def find : StateMap → Nat → Option Vector
  | [], _ => none
  | e :: rest, k => if e.1 = k then some e.2 else find rest k

/-- Assignment `m[k] = v`: insert or overwrite, keeping the entries ordered by key. -/
def assign : StateMap → Nat → Vector → StateMap
  | [], k, v => [(k, v)]
  | e :: rest, k, v =>
    if k < e.1 then (k, v) :: e :: rest
    else if k = e.1 then (k, v) :: rest
    else e :: assign rest k v

/-- Reading `m[k]` for a key that is present (a missing key reads as the
zero vector; the code only reads keys it has just written). -/
def read (m : StateMap) (k : Nat) : Vector := (find m k).getD Vector.zero

/-- The entries are in strictly increasing key order. -/
def Ordered (m : StateMap) : Prop := List.Pairwise (fun a b => a.1 < b.1) m

end StateMap

/-! ## The sleep system -/

/-- Time of a system event: a finite `double` or `HUGE_VAL`. -/
inductive SysTime where
  | finite (t : ℚ)
  | HUGE_VAL
deriving DecidableEq

/-- The constant `std::numeric_limits<float>::max()`, that is `(2^24 - 1) * 2^104`. -/
def FLT_MAX : ℚ := 340282346638528859811704183484516925440

/-- What the sleep system uses from the rest of the simulator. -/
structure SleepEnv where
  /-- Whether the build defines `DYNAMO_DEBUG`. -/
  DYNAMO_DEBUG : Bool
  /-- The test `_range->isInRange(p)`. -/
  isInRange : Particle → Bool
  /-- The mass `Sim->dynamics.getSpecies(p).getMass()`. -/
  getMass : Particle → ℚ
  /-- The value of `getGravityVector()` of the Liouvillean. -/
  getGravityVector : Vector
  /-- The call `Sim->dynamics.getLiouvillean().updateParticle(p)`: the particle
  brought up to the current time. -/
  updateParticle : Particle → Particle

/-- The members of `SSleep` together with the parts of `SimData` that
`SSleep` reads or writes. Calls into the scheduler and the output plugins are
recorded in the last three fields. -/
structure SleepSim where
  sleepVelocity : ℚ
  stateChange : StateMap
  dt : SysTime
  type : EEventType
  particleList : List Particle
  dSysTime : ℚ
  freestreamAcc : ℚ
  /-- Number of calls of `ptrScheduler->rebuildSystemEvents()`. -/
  rebuildSystemEvents : Nat
  /-- Particle ids passed to `ptrScheduler->fullUpdate`, in call order. -/
  fullUpdates : List Nat
  /-- Arguments of the plugins' `eventUpdate(*this, SDat, locdt)`, in call
  order. -/
  pluginUpdates : List (NEventData × ℚ)

/-- Method `SSleep::recalculateTime`. -/
def recalculateTime (s : SleepSim) : SleepSim :=
  { s with
    dt := if s.stateChange.isEmpty then SysTime.HUGE_VAL else SysTime.finite (-FLT_MAX)
    type := if s.stateChange.isEmpty then EEventType.NONE else EEventType.SLEEP }

/-- Method `SSleep::sleepCondition(vel, g)`: `vel.nrm() < _sleepVelocity`; the
argument `g` is not used. -/
def sleepCondition (sleepVelocity : ℚ) (vel : Vector) (_g : Vector) : Bool :=
  vel.nrmLt sleepVelocity

/-- How the body of the loop over the pairs ends for one pair: by reaching
the end of the body, by `break`, or by throwing. -/
inductive Flow where
  | next
  | brk
  | thrown (msg : String)
deriving DecidableEq

/-- The body of the `BOOST_FOREACH` loop of `SSleep::particlesUpdated` for one
pair, acting on `stateChange`. -/
def pairStep (E : SleepEnv) (sleepVelocity : ℚ) (pdat : PairEventData)
    (m : StateMap) : StateMap × Flow :=
  let p1 := pdat.particle1_.particle
  let p2 := pdat.particle2_.particle
  if !E.isInRange p1 && !E.isInRange p2 then (m, Flow.brk)
  else if p1.testStateDynamic && p2.testStateDynamic then (m, Flow.brk)
  else if E.DYNAMO_DEBUG && (!p1.testStateDynamic && !p2.testStateDynamic) then
    (m, Flow.thrown "Static particles colliding!")
  else
    let dp := if p1.testStateDynamic then p1 else p2
    let sp := if p1.testStateDynamic then p2 else p1
    let g := E.getGravityVector
    if !E.isInRange sp then
      ((if sleepCondition sleepVelocity dp.vel g then m.assign dp.ID Vector.zero else m),
        Flow.brk)
    else if !E.isInRange dp then (m, Flow.brk)
    else if sleepCondition sleepVelocity (Vector.scale (1 / 10) sp.vel) g then
      let m1 := m.assign sp.ID Vector.zero
      let m2 := m1.assign dp.ID (Vector.scale (E.getMass sp) (Vector.neg sp.vel))
      let m3 :=
        if sleepCondition sleepVelocity
            (Vector.add dp.vel (Vector.divScalar (m2.read dp.ID) (E.getMass dp))) g
        then m2.assign dp.ID Vector.zero else m2
      (m3, Flow.brk)
    else (m.assign sp.ID ⟨1, 1, 1⟩, Flow.next)

/-- The `BOOST_FOREACH` loop of `SSleep::particlesUpdated` over
`PDat.L2partChanges`. -/
def pairLoop (E : SleepEnv) (sleepVelocity : ℚ) :
    List PairEventData → StateMap → StateMap × Outcome
  | [], m => (m, Outcome.ok)
  | pdat :: rest, m =>
    match pairStep E sleepVelocity pdat m with
    | (m', Flow.next) => pairLoop E sleepVelocity rest m'
    | (m', Flow.brk) => (m', Outcome.ok)
    | (m', Flow.thrown msg) => (m', Outcome.thrown msg)

/-- Method `SSleep::particlesUpdated`. -/
def particlesUpdated (E : SleepEnv) (PDat : NEventData) (s : SleepSim) :
    SleepSim × Outcome :=
  match pairLoop E s.sleepVelocity PDat.L2partChanges s.stateChange with
  | (m, Outcome.thrown msg) => ({ s with stateChange := m }, Outcome.thrown msg)
  | (m, Outcome.ok) =>
    let s1 := { s with stateChange := m }
    if !s1.stateChange.isEmpty then
      let s2 := recalculateTime s1
      ({ s2 with rebuildSystemEvents := s2.rebuildSystemEvents + 1 }, Outcome.ok)
    else (s1, Outcome.ok)

/-- The event type `runEvent` chooses for a particle with pending change
`J`. -/
def classify (J : Vector) (part : Particle) : EEventType :=
  if J.isZero then
    (if part.testStateDynamic then EEventType.SLEEP else EEventType.RESLEEP)
  else
    (if part.testStateDynamic then EEventType.CORRECT else EEventType.WAKEUP)

/-- The `switch (type)` of `runEvent`, with its fall-through from `SLEEP`
into `RESLEEP` and from `CORRECT` into `WAKEUP`; `none` is the `default`
branch, which throws. -/
def applyType (type : EEventType) (J : Vector) (mass : ℚ) (part : Particle) :
    Option Particle :=
  match type with
  | EEventType.SLEEP => some (part.clearStateDynamic.setVelocity Vector.zero)
  | EEventType.RESLEEP => some (part.setVelocity Vector.zero)
  | EEventType.CORRECT =>
    some ((part.setVelocity (Vector.add part.vel (Vector.divScalar J mass))).setStateDynamic)
  | EEventType.WAKEUP => some part.setStateDynamic
  | EEventType.NONE => none

/-- The event data `runEvent` pushes for a particle: `part` is the particle
after `updateParticle`, `part'` the particle after the switch. -/
def eventData (E : SleepEnv) (type : EEventType) (part part' : Particle) :
    ParticleEventData :=
  { particle := part'
    oldVel := part.vel
    type := type
    deltaKE := (1 / 2) * E.getMass part * (part'.vel.nrm2 - part.vel.nrm2) }

/-- The loop of `runEvent` over the entries of `stateChange` (first
argument: the whole map, second: the entries still to visit). The result is
`none` when an entry's key is not an index of the particle list, or when the
release build would insert into the map while iterating over it. -/
def runEventLoop (E : SleepEnv) (m : StateMap) :
    List (Nat × Vector) → List Particle → List ParticleEventData →
    Option (List Particle × List ParticleEventData × Outcome)
  | [], pl, sdat => some (pl, sdat, Outcome.ok)
  | p :: rest, pl, sdat =>
    match pl[p.1]? with
    | none => none
    | some part0 =>
      let part := E.updateParticle part0
      match m.find part.ID with
      | none =>
        if E.DYNAMO_DEBUG then
          some (pl.set p.1 part, sdat,
            Outcome.thrown "Running an event for a particle with no state change!")
        else none
      | some J =>
        let type := classify J part
        match applyType type J (E.getMass part) part with
        | none => some (pl.set p.1 part, sdat, Outcome.thrown "Bad event type!")
        | some part' =>
          runEventLoop E m rest (pl.set p.1 part') (sdat ++ [eventData E type part part'])

/-- The particle that one pass of the loop of `runEvent` leaves in the
particle list, for the pending change `J` and the stored particle `part0`. -/
def runEventParticle (E : SleepEnv) (J : Vector) (part0 : Particle) : Particle :=
  let part := E.updateParticle part0
  (applyType (classify J part) J (E.getMass part) part).getD part

/-- The event data that one pass of the loop of `runEvent` pushes. -/
def runEventData (E : SleepEnv) (J : Vector) (part0 : Particle) : ParticleEventData :=
  let part := E.updateParticle part0
  eventData E (classify J part) part (runEventParticle E J part0)

/-- Method `SSleep::runEvent`. `Sim->signalParticleUpdate(SDat)` reaches
`SSleep::particlesUpdated`, the callback registered by `initialise`. The
scheduler and the dynamics are streamed by `locdt = 0`, which moves nothing
and is not recorded; the plugins' `eventUpdate` is recorded once. -/
def runEvent (E : SleepEnv) (s : SleepSim) : Option (SleepSim × Outcome) :=
  let locdt : ℚ := 0
  let s0 := { s with dt := SysTime.HUGE_VAL, dSysTime := s.dSysTime + locdt }
  match runEventLoop E s0.stateChange s0.stateChange s0.particleList [] with
  | none => none
  | some (pl, _, Outcome.thrown msg) => some ({ s0 with particleList := pl }, Outcome.thrown msg)
  | some (pl, sdat, Outcome.ok) =>
    let SDat : NEventData := { L1partChanges := sdat, L2partChanges := [] }
    match particlesUpdated E SDat { s0 with particleList := pl } with
    | (s1, Outcome.thrown msg) => some (s1, Outcome.thrown msg)
    | (s1, Outcome.ok) =>
      let s2 := { s1 with
        fullUpdates := s1.fullUpdates ++ sdat.map (fun (d : ParticleEventData) => d.particle.ID) }
      let s3 := { s2 with stateChange := [] }
      let locdt' := locdt + s3.freestreamAcc
      let s4 := { s3 with freestreamAcc := 0 }
      some ({ s4 with pluginUpdates := s4.pluginUpdates ++ [(SDat, locdt')] }, Outcome.ok)

/-- The event data `runEvent` hands to the output plugins for the pending map
`m` and the particle list `pl`. -/
def collectedData (E : SleepEnv) (m : StateMap) (pl : List Particle) :
    List ParticleEventData :=
  m.filterMap (fun e => (pl[e.1]?).map (runEventData E e.2))

/-- Well-formed sleep data: the pending map is a `std::map` (keys strictly
increasing) and every pending id is the index of a particle carrying that
id. -/
def SleepSim.WF (s : SleepSim) : Prop :=
  s.stateChange.Ordered ∧
    ∀ e ∈ s.stateChange, ∃ p, s.particleList[e.1]? = some p ∧ p.ID = e.1

/-- The Liouvillean keeps the identity and the `DYNAMIC` flag of a particle
it brings up to date. -/
def SleepEnv.KeepsState (E : SleepEnv) : Prop :=
  ∀ p, (E.updateParticle p).ID = p.ID ∧ (E.updateParticle p).dynamic = p.dynamic

/-! ## Example data -/

/-- A build without `DYNAMO_DEBUG`: particles 0 and 1 are in the monitored
range, every particle has mass 2, gravity points down and every particle is
already up to date. -/
def exampleEnv : SleepEnv :=
  { DYNAMO_DEBUG := false
    isInRange := fun p => decide (p.ID < 2)
    getMass := fun _ => 2
    getGravityVector := ⟨0, 0, -1⟩
    updateParticle := fun p => p }

/-- The same environment in a build with `DYNAMO_DEBUG`. -/
def exampleEnvDebug : SleepEnv := { exampleEnv with DYNAMO_DEBUG := true }

/-- A resting particle 0 that a collision has left with a small velocity. -/
def restingSlow : Particle := ⟨0, ⟨0, 0, 0⟩, ⟨1, 0, 0⟩, false⟩

/-- A resting particle 0 that a collision has left with a large velocity. -/
def restingFast : Particle := ⟨0, ⟨0, 0, 0⟩, ⟨30, 0, 0⟩, false⟩

/-- A dynamic particle 1. -/
def dynamicOne : Particle := ⟨1, ⟨1, 0, 0⟩, ⟨3, 4, 0⟩, true⟩

/-- A dynamic particle 1 that moves slowly. -/
def dynamicSlow : Particle := ⟨1, ⟨1, 0, 0⟩, ⟨1, 0, 0⟩, true⟩

/-- A resting particle 1. -/
def restingOne : Particle := ⟨1, ⟨1, 0, 0⟩, ⟨0, 0, 0⟩, false⟩

/-- A dynamic particle 2, outside the monitored range. -/
def dynamicTwo : Particle := ⟨2, ⟨2, 0, 0⟩, ⟨0, 0, 1⟩, true⟩

/-- A resting particle 2, outside the monitored range (a fixed collider). -/
def fixedTwo : Particle := ⟨2, ⟨2, 0, 0⟩, ⟨0, 0, 0⟩, false⟩

/-- Sleep data with sleep velocity 2, the given particles and pending map,
and nothing else recorded. -/
def exampleSim (pl : List Particle) (m : StateMap) : SleepSim :=
  { sleepVelocity := 2
    stateChange := m
    dt := SysTime.HUGE_VAL
    type := EEventType.NONE
    particleList := pl
    dSysTime := 0
    freestreamAcc := 0
    rebuildSystemEvents := 0
    fullUpdates := []
    pluginUpdates := [] }

/-- The event data of a particle as a pair partner. -/
def pairData (p : Particle) : ParticleEventData :=
  { particle := p, oldVel := p.vel, type := EEventType.NONE, deltaKE := 0 }

/-! ## The simulation life cycle (`CSimulation`) -/

/-- The values of `ESimulationStatus` that `simulation.cpp` names; the header
that declares the type is not among the sources. -/
inductive ESimulationStatus where
  | START
  | CONFIG_LOADED
  | INITIALISED
  | PRODUCTION
  | ERROR
deriving DecidableEq

/-- What `CSimulation` sees of an output plugin: the key its `operator<`
compares, whether it is a `COPTicker`, and how often `initialise()` and
`periodicOutput()` have been called on it. -/
structure OutputPlugin where
  updateOrder : Nat
  isTicker : Bool
  initCalls : Nat
  periodicCalls : Nat
deriving DecidableEq

/-- What `CSimulation` sees of the scheduler: how often `initialise()` has
been called on it. -/
structure Scheduler where
  initCalls : Nat
deriving DecidableEq

/-- The members of `CSimulation` that `simulation.cpp` reads or writes.
The last three fields record calls into other components. -/
structure CSimulation where
  status : ESimulationStatus
  lNColl : Nat
  lMaxNColl : Nat
  lNPrint : Nat
  lPrintLimiter : Nat
  lN : Nat
  vParticleList : List Particle
  /-- The scheduler pointer; `none` is `NULL`. -/
  ptrScheduler : Option Scheduler
  outputPlugins : List OutputPlugin
  /-- Names of the system events of `Dynamics`. -/
  systemEvents : List String
  /-- Number of calls of `Dynamics.initialise()`. -/
  dynamicsInitCalls : Nat
  /-- Number of calls of `Ensemble->initialise()`. -/
  ensembleInitCalls : Nat
  /-- Number of calls of `ptrScheduler->runNextEvent()`. -/
  eventsRun : Nat
deriving DecidableEq

/-- The components `CSimulation` calls into. A component's `initialise` either
throws or returns; `addSystemTicker` yields the new list of system events;
`runNextEvent` executes one event on the simulation. `stdSort` is `std::sort`
of the standard library on the plugin list, with what the C++ standard
promises of it: the result holds the same plugins and is ordered by their
`operator<`; the order in which it leaves plugins that compare equal is not
fixed by the standard. -/
structure SimEnv where
  addSystemTicker : CSimulation → List String × Outcome
  dynamicsInitialise : CSimulation → Outcome
  ensembleInitialise : CSimulation → Outcome
  schedulerInitialise : CSimulation → Outcome
  pluginInitialise : CSimulation → OutputPlugin → Outcome
  runNextEvent : CSimulation → CSimulation × Outcome
  stdSort : List OutputPlugin → List OutputPlugin
  stdSort_perm : ∀ l, List.Perm (stdSort l) l
  stdSort_sorted : ∀ l, List.Sorted (fun a b => a.updateOrder ≤ b.updateOrder) (stdSort l)

/-- Wrap-around of an `unsigned long long`. -/
def u64 (n : Nat) : Nat := n % 2 ^ 64

/-- The call `std::sort(outputPlugins.begin(), outputPlugins.end())`, ordering
by the plugins' `operator<`. -/
def sortPlugins (X : SimEnv) (l : List OutputPlugin) : List OutputPlugin :=
  X.stdSort l

/-- A sort that keeps plugins that compare equal in the order they had. -/
def stableSort (l : List OutputPlugin) : List OutputPlugin :=
  l.insertionSort (fun a b => a.updateOrder ≤ b.updateOrder)

/-- What the sort of the GNU standard library does to a range of more than 16
elements that all compare equal before its closing insertion pass: the
median of three, here the middle element, is swapped to the front, and the
partition then swaps the elements behind the front pairwise from both
ends. -/
def partitionEqual : List OutputPlugin → List OutputPlugin
  | [] => []
  | a :: t =>
    match t.drop ((t.length + 1) / 2 - 1) with
    | [] => a :: t
    | b :: post => b :: (t.take ((t.length + 1) / 2 - 1) ++ a :: post).reverse

/-- A sort that does not keep plugins that compare equal in the order they
had: up to 16 plugins are sorted by insertion, more than 16 are first
rearranged by `partitionEqual`. On 17 plugins of one update order it gives
the order that `std::sort` of the GNU standard library gives. -/
def reorderingSort (l : List OutputPlugin) : List OutputPlugin :=
  stableSort (if 16 < l.length then partitionEqual l else l)

/-- The loop of `initialise` that calls `Ptr->initialise()` on every output
plugin in turn, stopping at the first that throws. -/
def initialisePlugins (X : SimEnv) (s : CSimulation) :
    List OutputPlugin → List OutputPlugin × Outcome
  | [] => ([], Outcome.ok)
  | p :: rest =>
    match X.pluginInitialise s p with
    | Outcome.thrown msg => (p :: rest, Outcome.thrown msg)
    | Outcome.ok =>
      let r := initialisePlugins X s rest
      ({ p with initCalls := p.initCalls + 1 } :: r.1, r.2)

/-- Method `CSimulation::initialise`. -/
def initialise (X : SimEnv) (s : CSimulation) : CSimulation × Outcome :=
  let s1 := { s with outputPlugins := sortPlugins X s.outputPlugins }
  let needTicker := s1.outputPlugins.any (fun p => p.isTicker)
  let t := if needTicker then X.addSystemTicker s1 else (s1.systemEvents, Outcome.ok)
  let s2 := { s1 with systemEvents := t.1 }
  match t.2 with
  | Outcome.thrown msg => (s2, Outcome.thrown msg)
  | Outcome.ok =>
    if s2.status ≠ ESimulationStatus.CONFIG_LOADED then
      (s2, Outcome.thrown "Sim initialised at wrong time")
    else
      let s3 := { s2 with lN := s2.vParticleList.length }
      match s3.ptrScheduler with
      | none => (s3, Outcome.thrown "The scheduler has not been set!")
      | some sch =>
        match X.dynamicsInitialise s3 with
        | Outcome.thrown msg => (s3, Outcome.thrown msg)
        | Outcome.ok =>
          let s4 := { s3 with dynamicsInitCalls := s3.dynamicsInitCalls + 1 }
          match X.ensembleInitialise s4 with
          | Outcome.thrown msg => (s4, Outcome.thrown msg)
          | Outcome.ok =>
            let s5 := { s4 with ensembleInitCalls := s4.ensembleInitCalls + 1 }
            let r :=
              if s5.lMaxNColl ≠ 0 then
                match X.schedulerInitialise s5 with
                | Outcome.thrown msg => (s5, Outcome.thrown msg)
                | Outcome.ok =>
                  ({ s5 with ptrScheduler := some { sch with initCalls := sch.initCalls + 1 } },
                    Outcome.ok)
              else (s5, Outcome.ok)
            match r with
            | (s6, Outcome.thrown msg) => (s6, Outcome.thrown msg)
            | (s6, Outcome.ok) =>
              match initialisePlugins X s6 s6.outputPlugins with
              | (ps, Outcome.thrown msg) => ({ s6 with outputPlugins := ps }, Outcome.thrown msg)
              | (ps, Outcome.ok) =>
                ({ s6 with outputPlugins := ps, status := ESimulationStatus.INITIALISED },
                  Outcome.ok)

/-- One call `ptrScheduler->runNextEvent()`, recorded in `eventsRun`. -/
def callRunNextEvent (X : SimEnv) (s : CSimulation) : CSimulation × Outcome :=
  let r := X.runNextEvent s
  ({ r.1 with eventsRun := s.eventsRun + 1 }, r.2)

/-- The message of the error `runSimulation` throws for a caught exception. -/
def collisionMessage (lNColl : Nat) (what : String) : String :=
  "\nWhile executing collision " ++ toString lNColl ++ what

/-- The loop `for (; lNColl < lMaxNColl;) ptrScheduler->runNextEvent();` of the
silent mode; `none` when the fuel runs out. -/
def silentLoop (X : SimEnv) : Nat → CSimulation → Option (CSimulation × Outcome)
  | 0, _ => none
  | fuel + 1, s =>
    if s.lNColl < s.lMaxNColl then
      match callRunNextEvent X s with
      | (s', Outcome.thrown what) => some (s', Outcome.thrown what)
      | (s', Outcome.ok) => silentLoop X fuel s'
    else some (s, Outcome.ok)

/-- The inner loop `for (; lNColl < lPrintLimiter;) ptrScheduler->runNextEvent();`
of the periodic-output mode; `none` when the fuel runs out. -/
def printLoop (X : SimEnv) : Nat → CSimulation → Option (CSimulation × Outcome)
  | 0, _ => none
  | fuel + 1, s =>
    if s.lNColl < s.lPrintLimiter then
      match callRunNextEvent X s with
      | (s', Outcome.thrown what) => some (s', Outcome.thrown what)
      | (s', Outcome.ok) => printLoop X fuel s'
    else some (s, Outcome.ok)

/-- The periodic work: `periodicOutput()` on every output plugin. -/
def periodicWork (s : CSimulation) : CSimulation :=
  { s with outputPlugins :=
      s.outputPlugins.map (fun p => { p with periodicCalls := p.periodicCalls + 1 }) }

/-- The outer loop of the periodic-output mode, from its test
`lNColl < lMaxNColl` on; a caught exception is thrown again with the event
count in front. -/
def outputLoop (X : SimEnv) : Nat → CSimulation → Option (CSimulation × Outcome)
  | 0, _ => none
  | fuel + 1, s =>
    if s.lNColl < s.lMaxNColl then
      match printLoop X fuel s with
      | none => none
      | some (s1, Outcome.thrown what) =>
        some (s1, Outcome.thrown (collisionMessage s1.lNColl what))
      | some (s1, Outcome.ok) =>
        let s2 := periodicWork s1
        outputLoop X fuel { s2 with lPrintLimiter := u64 (s2.lPrintLimiter + s2.lNPrint) }
    else some (s, Outcome.ok)

/-- Method `CSimulation::runSimulation(silentMode)`; `none` when the fuel runs
out before the loops end. -/
def runSimulation (X : SimEnv) (fuel : Nat) (silentMode : Bool) (s : CSimulation) :
    Option (CSimulation × Outcome) :=
  if s.status ≠ ESimulationStatus.INITIALISED ∧ s.status ≠ ESimulationStatus.PRODUCTION then
    some (s, Outcome.thrown "Bad state for runSimulation()")
  else
    let s0 := { s with status := ESimulationStatus.PRODUCTION }
    if silentMode then
      match silentLoop X fuel s0 with
      | none => none
      | some (s1, Outcome.thrown what) =>
        some (s1, Outcome.thrown (collisionMessage s1.lNColl what))
      | some (s1, Outcome.ok) => some (s1, Outcome.ok)
    else
      outputLoop X fuel { s0 with lPrintLimiter := u64 (s0.lNColl + s0.lNPrint) }

/-- Every event advances the event counter `lNColl` by exactly one, returns
normally and leaves the other counters and the status alone. -/
def SimEnv.CountsEvents (X : SimEnv) : Prop :=
  ∀ s : CSimulation, (X.runNextEvent s).2 = Outcome.ok ∧
    (X.runNextEvent s).1.lNColl = s.lNColl + 1 ∧
    (X.runNextEvent s).1.lMaxNColl = s.lMaxNColl ∧
    (X.runNextEvent s).1.lNPrint = s.lNPrint ∧
    (X.runNextEvent s).1.lPrintLimiter = s.lPrintLimiter ∧
    (X.runNextEvent s).1.status = s.status

/-- Components that never throw: the ticker is appended to the system events,
an event only advances the event counter, and the sort is stable. -/
def quietEnv : SimEnv :=
  { addSystemTicker := fun s => (s.systemEvents ++ ["SystemTicker"], Outcome.ok)
    dynamicsInitialise := fun _ => Outcome.ok
    ensembleInitialise := fun _ => Outcome.ok
    schedulerInitialise := fun _ => Outcome.ok
    pluginInitialise := fun _ _ => Outcome.ok
    runNextEvent := fun s => ({ s with lNColl := s.lNColl + 1 }, Outcome.ok)
    stdSort := stableSort
    stdSort_perm := fun l => List.perm_insertionSort _ l
    stdSort_sorted := fun l =>
      @List.sorted_insertionSort OutputPlugin (fun a b => a.updateOrder ≤ b.updateOrder) _
        ⟨fun a b => Nat.le_total a.updateOrder b.updateOrder⟩
        ⟨fun _ _ _ hab hbc => Nat.le_trans hab hbc⟩ l }

/-- The components of `quietEnv` with a sort that does not keep plugins that
compare equal in the order they had. -/
def reorderingEnv : SimEnv :=
  { quietEnv with
    stdSort := reorderingSort
    stdSort_perm := fun l => by
      have hp : ∀ l : List OutputPlugin, List.Perm (partitionEqual l) l := by
        intro l
        cases l with
        | nil => exact List.Perm.refl _
        | cons a t =>
          cases hd : t.drop ((t.length + 1) / 2 - 1) with
          | nil =>
            have he : partitionEqual (a :: t) = a :: t := by
              simp only [partitionEqual, hd]
            rw [he]
          | cons b post =>
            have he : partitionEqual (a :: t) =
                b :: (t.take ((t.length + 1) / 2 - 1) ++ a :: post).reverse := by
              simp only [partitionEqual, hd]
            rw [he]
            have ht : t = t.take ((t.length + 1) / 2 - 1) ++ b :: post := by
              rw [← hd, List.take_append_drop]
            have h1 : List.Perm (b :: (t.take ((t.length + 1) / 2 - 1) ++ a :: post).reverse)
                (b :: a :: (t.take ((t.length + 1) / 2 - 1) ++ post)) :=
              List.Perm.cons b ((List.reverse_perm _).trans List.perm_middle)
            have h2 : List.Perm (a :: t)
                (a :: b :: (t.take ((t.length + 1) / 2 - 1) ++ post)) := by
              refine List.Perm.cons a ?_
              nth_rewrite 1 [ht]
              exact List.perm_middle
            exact (h1.trans (List.Perm.swap a b _)).trans h2.symm
      unfold reorderingSort stableSort
      refine (List.perm_insertionSort _ _).trans ?_
      split
      · exact hp l
      · exact List.Perm.refl _
    stdSort_sorted := fun l =>
      @List.sorted_insertionSort OutputPlugin (fun a b => a.updateOrder ≤ b.updateOrder) _
        ⟨fun a b => Nat.le_total a.updateOrder b.updateOrder⟩
        ⟨fun _ _ _ hab hbc => Nat.le_trans hab hbc⟩ _ }

/-- Seventeen output plugins of one update order, none of them a ticker, told
apart by the number of periodic outputs they have made so far. -/
def seventeenPlugins : List OutputPlugin :=
  (List.range 17).map (fun i => ⟨0, false, 0, i⟩)

/-- A loaded configuration with one particle, a scheduler, and the seventeen
plugins of one update order as its output plugins. -/
def seventeenSimulation : CSimulation :=
  { status := ESimulationStatus.CONFIG_LOADED
    lNColl := 0
    lMaxNColl := 5
    lNPrint := 3
    lPrintLimiter := 0
    lN := 0
    vParticleList := [dynamicOne]
    ptrScheduler := some ⟨0⟩
    outputPlugins := seventeenPlugins
    systemEvents := []
    dynamicsInitCalls := 0
    ensembleInitCalls := 0
    eventsRun := 0 }

/-- A simulation with the given status, counters, particles and scheduler
pointer, one ticker plugin and one other plugin. -/
def exampleSimulation (st : ESimulationStatus) (lNColl lMaxNColl lNPrint : Nat)
    (parts : List Particle) (sch : Option Scheduler) : CSimulation :=
  { status := st
    lNColl := lNColl
    lMaxNColl := lMaxNColl
    lNPrint := lNPrint
    lPrintLimiter := 0
    lN := 0
    vParticleList := parts
    ptrScheduler := sch
    outputPlugins := [⟨5, true, 0, 0⟩, ⟨1, false, 0, 0⟩]
    systemEvents := []
    dynamicsInitCalls := 0
    ensembleInitCalls := 0
    eventsRun := 0 }

/-! ## The reverse-event check (`COPReverseEventsCheck`) -/

/-- The members of `COPReverseEventsCheck`: the counter of reverse events
(an unsigned 64-bit integer) and the tolerance `localeps`. -/
structure COPReverseEventsCheck where
  lReverseEvents : Nat
  localeps : ℚ
deriving DecidableEq

/-- An executed event as an output plugin observes it, one constructor per
overload of `eventUpdate`: an interaction, global or local event with its
`getdt()`, or a system event with the `dt` handed over beside it. -/
inductive ObservedEvent where
  | interaction (dt : ℚ)
  | globalEvent (dt : ℚ)
  | localEvent (dt : ℚ)
  | systemEvent (dt : ℚ)
deriving DecidableEq

/-- The time delta of an observed event. -/
def ObservedEvent.dt : ObservedEvent → ℚ
  | ObservedEvent.interaction dt => dt
  | ObservedEvent.globalEvent dt => dt
  | ObservedEvent.localEvent dt => dt
  | ObservedEvent.systemEvent dt => dt

namespace COPReverseEventsCheck

/-- The constructor: `lReverseEvents(0), localeps(0)`. -/
def construct : COPReverseEventsCheck := ⟨0, 0⟩

/-- Method `COPReverseEventsCheck::initialise`; the constant `eps` and the
unit of time are declared outside the sources and are arguments here. -/
def initialise (eps unitTime : ℚ) (p : COPReverseEventsCheck) : COPReverseEventsCheck :=
  { p with localeps := -eps * unitTime }

/-- The overload `eventUpdate(const CIntEvent&, const C2ParticleData&)`. -/
def eventUpdateInt (p : COPReverseEventsCheck) (dt : ℚ) : COPReverseEventsCheck × Outcome :=
  ((if dt < p.localeps then { p with lReverseEvents := u64 (p.lReverseEvents + 1) } else p),
    Outcome.ok)

/-- The overload `eventUpdate(const CGlobEvent&, const CNParticleData&)`. -/
def eventUpdateGlob (p : COPReverseEventsCheck) (dt : ℚ) : COPReverseEventsCheck × Outcome :=
  ((if dt < p.localeps then { p with lReverseEvents := u64 (p.lReverseEvents + 1) } else p),
    Outcome.ok)

/-- The overload `eventUpdate(const CLocalEvent&, const CNParticleData&)`. -/
def eventUpdateLocal (p : COPReverseEventsCheck) (dt : ℚ) : COPReverseEventsCheck × Outcome :=
  ((if dt < p.localeps then { p with lReverseEvents := u64 (p.lReverseEvents + 1) } else p),
    Outcome.ok)

/-- The overload `eventUpdate(const CSystem&, const CNParticleData&, const Iflt& dt)`. -/
def eventUpdateSystem (p : COPReverseEventsCheck) (dt : ℚ) : COPReverseEventsCheck × Outcome :=
  ((if dt < p.localeps then { p with lReverseEvents := u64 (p.lReverseEvents + 1) } else p),
    Outcome.ok)

/-- Overload resolution of `eventUpdate` by the kind of the event. -/
def eventUpdate (p : COPReverseEventsCheck) : ObservedEvent → COPReverseEventsCheck × Outcome
  | ObservedEvent.interaction dt => eventUpdateInt p dt
  | ObservedEvent.globalEvent dt => eventUpdateGlob p dt
  | ObservedEvent.localEvent dt => eventUpdateLocal p dt
  | ObservedEvent.systemEvent dt => eventUpdateSystem p dt

/-- The plugin observing a sequence of executed events, one `eventUpdate`
after the other; an `eventUpdate` that throws ends the run. -/
def observe (p : COPReverseEventsCheck) : List ObservedEvent → COPReverseEventsCheck × Outcome
  | [] => (p, Outcome.ok)
  | e :: rest =>
    match eventUpdate p e with
    | (p', Outcome.ok) => observe p' rest
    | (p', Outcome.thrown msg) => (p', Outcome.thrown msg)

end COPReverseEventsCheck

/-- The number of events of a sequence whose `dt` is strictly below `tol`. -/
def reverseCount (tol : ℚ) (evs : List ObservedEvent) : Nat :=
  (evs.filter (fun e => decide (e.dt < tol))).length

/-- Components whose third event fails: `runNextEvent` throws, leaving the
simulation as it is, when `lNColl` is 2, and otherwise advances `lNColl`. -/
def failingEnv : SimEnv :=
  { quietEnv with
    runNextEvent := fun s =>
      if s.lNColl = 2 then (s, Outcome.thrown " reverse time")
      else ({ s with lNColl := s.lNColl + 1 }, Outcome.ok) }

/-- Method `CSimulation::simShutdown`: `lPrintLimiter = lMaxNColl = lNColl`. -/
def simShutdown (s : CSimulation) : CSimulation :=
  { s with lMaxNColl := s.lNColl, lPrintLimiter := s.lNColl }

/-! ## Replica exchange (`CEReplexer`) -/

/-- Modelled from the spec: the scalar function `f(t)` of event prediction,
a polynomial in `t` given by its `double` coefficients, constant term first,
as the class `Polynomial` of magnet/math/polynomial.hpp, which the test
stable_alg_test.cpp uses and which is not among the sources. -/
abbrev Poly := List ℚ

namespace Poly

/-- The value `eval(f, t == x)`. -/
def eval : Poly → ℚ → ℚ
  | [], _ => 0
  | c :: cs, x => c + x * eval cs x

/-- The sum of two polynomials. -/
def add : Poly → Poly → Poly
  | [], q => q
  | a :: as, [] => a :: as
  | a :: as, b :: bs => (a + b) :: add as bs

/-- The product of a polynomial with a scalar, as in `poly * sign`. -/
def scale (k : ℚ) (p : Poly) : Poly := p.map (fun c => k * c)

/-- The product of two polynomials. -/
def mul : Poly → Poly → Poly
  | [], _ => []
  | a :: as, q => add (scale a q) (0 :: mul as q)

/-- The coefficients `n c_0, (n+1) c_1, ...` of the derivative of
`c_0 t^n + c_1 t^(n+1) + ...` divided by `t^(n-1)`. -/
def derivativeFrom : ℚ → Poly → Poly
  | _, [] => []
  | n, c :: cs => (n * c) :: derivativeFrom (n + 1) cs

/-- The derivative `derivative(f, t)`. -/
def derivative : Poly → Poly
  | [] => []
  | _ :: cs => derivativeFrom 1 cs

/-- The shifted function `shift_function(f, s)`, that is `f(t + s)`. -/
def shift_function : Poly → ℚ → Poly
  | [], _ => []
  | c :: cs, s => add [c] (mul [s, 1] (shift_function cs s))

/-- The polynomial `(t - r1) * (t - r2) * ... * sign` of the tests. -/
def fromRoots (sign : ℚ) : List ℚ → Poly
  | [] => [sign]
  | r :: rs => mul [-r, 1] (fromRoots sign rs)

/-- The test for a root that must be detected, as in `test_solution`:
`f' < 0`, or `f' = 0` and `f'' < 0`, at `r`. -/
def approaching (f : Poly) (r : ℚ) : Bool :=
  decide (f.derivative.eval r < 0 ∨
    (f.derivative.eval r = 0 ∧ f.derivative.derivative.eval r < 0))

end Poly

/-- The smallest entry of a list of times, `HUGE_VAL` for the empty list: the
loop `nextroot = std::min(nextroot, root)` of `test_solution`. -/
def earliest : List ℚ → SysTime
  | [] => SysTime.HUGE_VAL
  | r :: rs =>
    match earliest rs with
    | SysTime.HUGE_VAL => SysTime.finite r
    | SysTime.finite m => SysTime.finite (min r m)

/-- The smallest strictly positive root among the known roots: `nextroot` of
`test_solution`. -/
def nextroot (roots : List ℚ) : SysTime :=
  earliest (roots.filter (fun r => decide (0 < r)))

/-- Modelled from the spec: `magnet::intersection::nextEvent(f)` of
magnet/intersection/stable_poly.hpp, which is not among the sources, for a
start that is not overlapping (`f(0) >= 0`) and a function whose real roots
are known. When `f` has a strictly positive root at which it is decreasing
(by the test of `test_solution`: `f' < 0`, or `f' = 0` and `f'' < 0`), the
result is the smallest strictly positive root of `f`, the value that
`test_solution` compares a finite result with; when `f` has no such root the
result is "no root" (`HUGE_VAL`), never an error. The overlapping start
(`f(0) < 0`), whose event can be a turning point, is outside this model
(`none`). -/
def nextEvent (f : Poly) (roots : List ℚ) : Option SysTime :=
  if f.eval 0 < 0 then none
  else if roots.any (fun r => decide (0 < r ∧ f.eval r = 0) && f.approaching r) then
    some (earliest (roots.filter (fun r => decide (0 < r ∧ f.eval r = 0))))
  else some SysTime.HUGE_VAL

/-- The check `boost::test_tools::check_is_close(a, b, percent_tolerance(tol))`
of Boost.Test: the difference of the two values is within `tol` percent of
each of them. -/
def check_is_close (a b tol : ℚ) : Bool :=
  decide (|a - b| ≤ tol / 100 * |a| ∧ |a - b| ≤ tol / 100 * |b|)

/-- The check `check_is_close` for a finite solution and a time that can be
`HUGE_VAL`, which is close to no finite value. -/
def closeTo (solution : ℚ) (t : SysTime) (tol : ℚ) : Bool :=
  match t with
  | SysTime.HUGE_VAL => false
  | SysTime.finite x => check_is_close solution x tol

/-- Function `test_solution(f, solution, tol, actual_roots)` of
stable_alg_test.cpp, the test of `nextEvent`. `roots` and `droots` stand for
`solve_roots(f)` and `solve_roots(df)`, and `precision` for the function of
that name; none of the three is among the sources. The result is `true` when
the test reports no error: no exception reaches the `catch` block and no
`BOOST_CHECK` fails. -/
def test_solution (precision : Poly → ℚ → ℚ) (f : Poly) (roots droots : List ℚ)
    (solution : SysTime) (tol : ℚ) : Bool :=
  let df := f.derivative
  match solution with
  | SysTime.HUGE_VAL =>
    roots.all (fun root => !(decide (0 < root) && f.approaching root))
  | SysTime.finite sol =>
    if sol = 0 then decide (f.eval 0 ≤ tol) && decide (df.eval 0 ≤ tol)
    else if 0 ≤ f.eval 0 then
      match nextroot roots with
      | SysTime.HUGE_VAL => true
      | SysTime.finite nr => check_is_close sol nr tol
    else if closeTo sol (nextroot droots) tol then
      decide (f.eval sol ≤ 4 * precision f sol) &&
        decide (df.eval sol ≤ 4 * precision df sol)
    else
      (match nextroot roots with
        | SysTime.HUGE_VAL => false
        | SysTime.finite nr => decide (nr ≤ sol)) &&
        decide (|f.eval sol| ≤ 4 * precision f sol) &&
        (match earliest (roots.map (fun root => |root - sol|)) with
          | SysTime.HUGE_VAL => false
          | SysTime.finite err => decide (|err| < tol))

/-! ## The sleep system: every pair, momentum and the event time -/

/-- The reading of the loop over the pairs in which every pair of the list is
examined: the per-pair rules of `pairStep` are applied to each pair in order,
and a `break` ends the work on its own pair only. An exception still ends
the loop. To be compared with `pairLoop`. -/
def pairLoopEveryPair (E : SleepEnv) (sleepVelocity : ℚ) :
    List PairEventData → StateMap → StateMap × Outcome
  | [], m => (m, Outcome.ok)
  | pdat :: rest, m =>
    match pairStep E sleepVelocity pdat m with
    | (m', Flow.next) => pairLoopEveryPair E sleepVelocity rest m'
    | (m', Flow.brk) => pairLoopEveryPair E sleepVelocity rest m'
    | (m', Flow.thrown msg) => (m', Outcome.thrown msg)

/-- The total momentum `m1 * v1 + m2 * v2` of a pair of particles. -/
def pairMomentum (m1 m2 : ℚ) (v1 v2 : Vector) : Vector :=
  Vector.add (Vector.scale m1 v1) (Vector.scale m2 v2)

/-- Method `SSleep::initialise(nID)`. The id of the system is not part of the
model; the registration of `particlesUpdated` as the particle-update callback
is what makes `Sim->signalParticleUpdate` in `runEvent` reach
`particlesUpdated`; what remains is the call of `recalculateTime()`. -/
def SleepSim.initialise (_nID : Nat) (s : SleepSim) : SleepSim := recalculateTime s

/-- The scheduling invariant of the sleep event: `dt` is `HUGE_VAL` exactly
when the pending map is empty, and is `-FLT_MAX` when the map is not empty. -/
def SleepSim.Scheduled (s : SleepSim) : Prop :=
  (s.dt = SysTime.HUGE_VAL ↔ s.stateChange = []) ∧
    (s.stateChange ≠ [] → s.dt = SysTime.finite (-FLT_MAX))

/-- A resting particle 0 that a hit has left with velocity exactly zero. -/
def restingStill : Particle := ⟨0, ⟨0, 0, 0⟩, ⟨0, 0, 0⟩, false⟩

/-- A resting particle 3, outside the monitored range. -/
def fixedThree : Particle := ⟨3, ⟨3, 0, 0⟩, ⟨0, 0, 0⟩, false⟩

/-- A resting particle 0 that a hit has left with the velocity `(5,0,0)`:
faster than the sleep velocity 2 of the examples, slower than ten times
it. -/
def restingModerate : Particle := ⟨0, ⟨0, 0, 0⟩, ⟨5, 0, 0⟩, false⟩

/-- The pairs for which the loop body of `particlesUpdated` runs to its end,
the only way in which it does not leave the loop: both particles are in the
monitored range, exactly one of them is Dynamic, and the sleep condition
fails for one tenth of the velocity of the other. -/
def wakes (E : SleepEnv) (sleepVelocity : ℚ) (pdat : PairEventData) : Bool :=
  let p1 := pdat.particle1_.particle
  let p2 := pdat.particle2_.particle
  let sp := if p1.testStateDynamic then p2 else p1
  E.isInRange p1 && E.isInRange p2 && (p1.testStateDynamic != p2.testStateDynamic) &&
    !sleepCondition sleepVelocity (Vector.scale (1 / 10) sp.vel) E.getGravityVector

/-! ## The public operations of `CSimulation` -/

/-- What the public operations of `CSimulation` use from outside
simulation.cpp. -/
structure LifeEnv where
  /-- The integer value of each member of the enumeration `ESimulationStatus`,
  which is declared in a header outside the sources; `status >= INITIALISED`
  and `status < INITIALISED` compare these values. -/
  statusValue : ESimulationStatus → Nat
  /-- Whether the build defines `DYNAMO_CONDOR`. -/
  DYNAMO_CONDOR : Bool
  /-- The call `COutputPlugin::getPlugin(Name, this)`, for a plugin name or for
  a `Plugin` node of a plugin file: the plugin, or the message of the
  exception. -/
  getPlugin : String → CSimulation → Except String OutputPlugin
  /-- The statements `CIPConfig XMLconfig(fileName, this); XMLconfig.initialise();`:
  the simulation with the configuration loaded, or as it is left when this
  throws. -/
  loadConfig : String → CSimulation → CSimulation × Outcome
  /-- The test `boost::filesystem::exists(pluginFileName)`. -/
  fileExists : String → Bool
  /-- The `Plugin` child nodes of a plugin file. -/
  pluginNodes : String → List String
  /-- The configuration output of `COPConfig` to a file (with the rounding and
  uncompressed flags): it returns or throws. -/
  configOutput : CSimulation → String → Bool → Bool → Outcome

/-- A simulation together with what its public operations change outside the
members kept in `CSimulation`: the global events of `Dynamics` and the names
of the files written, in order. -/
structure SimWorld where
  sim : CSimulation
  globals : List String
  files : List String
deriving DecidableEq

namespace SimWorld

/-- Method `CSimulation::addGlobal`; `none` is the `NULL` pointer, and
`Dynamics.addGlobal` appends the event. -/
def addGlobal (tmp : Option String) (w : SimWorld) : SimWorld × Outcome :=
  match tmp with
  | none => (w, Outcome.thrown "Adding a NULL global")
  | some g =>
    if w.sim.status ≠ ESimulationStatus.CONFIG_LOADED then
      (w, Outcome.thrown "Cannot add global events now its initialised")
    else ({ w with globals := w.globals ++ [g] }, Outcome.ok)

/-- Method `CSimulation::addSystem`; `none` is the `NULL` pointer, and
`Dynamics.addSystem` appends the event. -/
def addSystem (tmp : Option String) (w : SimWorld) : SimWorld × Outcome :=
  match tmp with
  | none => (w, Outcome.thrown "Adding a NULL systemEvent")
  | some g =>
    if w.sim.status ≠ ESimulationStatus.CONFIG_LOADED then
      (w, Outcome.thrown "Cannot add system events now it is initialised")
    else
      ({ w with sim := { w.sim with systemEvents := w.sim.systemEvents ++ [g] } }, Outcome.ok)

/-- Method `CSimulation::addOutputPlugin`. -/
def addOutputPlugin (L : LifeEnv) (Name : String) (w : SimWorld) : SimWorld × Outcome :=
  if L.statusValue ESimulationStatus.INITIALISED ≤ L.statusValue w.sim.status then
    (w, Outcome.thrown "Cannot add plugins now")
  else
    match L.getPlugin Name w.sim with
    | Except.error msg => (w, Outcome.thrown msg)
    | Except.ok p =>
      ({ w with sim := { w.sim with outputPlugins := w.sim.outputPlugins ++ [p] } }, Outcome.ok)

/-- The loop of `loadPlugins` over the `Plugin` nodes of the file. -/
def loadPluginNodes (L : LifeEnv) : List String → SimWorld → SimWorld × Outcome
  | [], w => (w, Outcome.ok)
  | n :: rest, w =>
    match L.getPlugin n w.sim with
    | Except.error msg => (w, Outcome.thrown msg)
    | Except.ok p =>
      loadPluginNodes L rest
        { w with sim := { w.sim with outputPlugins := w.sim.outputPlugins ++ [p] } }

/-- Method `CSimulation::loadPlugins`. Taking the last four characters of a
name shorter than four characters is undefined (`none`). -/
def loadPlugins (L : LifeEnv) (pluginFileName : String) (w : SimWorld) :
    Option (SimWorld × Outcome) :=
  if L.statusValue ESimulationStatus.INITIALISED ≤ L.statusValue w.sim.status then
    some (w, Outcome.thrown "Cannot add plugins now")
  else if !L.fileExists pluginFileName then
    some (w, Outcome.thrown ("Plugin file \x22" ++ pluginFileName ++ "\x22 doesn\x27t exist"))
  else if pluginFileName.length < 4 then none
  else if pluginFileName.toList.drop (pluginFileName.length - 4) = ".xml".toList then
    some (loadPluginNodes L (L.pluginNodes pluginFileName) w)
  else some (w, Outcome.thrown "plugin filename should end in .xml and be xml")

/-- Method `CSimulation::configLoaded`. -/
def configLoaded (w : SimWorld) : SimWorld × Outcome :=
  if w.sim.status ≠ ESimulationStatus.START then
    (w, Outcome.thrown "Loading config at wrong time")
  else ({ w with sim := { w.sim with status := ESimulationStatus.CONFIG_LOADED } }, Outcome.ok)

/-- Method `CSimulation::loadXMLfile`. -/
def loadXMLfile (L : LifeEnv) (fileName : String) (w : SimWorld) : SimWorld × Outcome :=
  if w.sim.status ≠ ESimulationStatus.START then
    (w, Outcome.thrown "Loading config at wrong time")
  else
    match L.loadConfig fileName w.sim with
    | (s1, Outcome.thrown msg) => ({ w with sim := s1 }, Outcome.thrown msg)
    | (s1, Outcome.ok) =>
      ({ w with sim := { s1 with status := ESimulationStatus.CONFIG_LOADED } }, Outcome.ok)

/-- Method `CSimulation::writeXMLfile`. -/
def writeXMLfile (L : LifeEnv) (fileName : String) (round uncompressed : Bool)
    (w : SimWorld) : SimWorld × Outcome :=
  if L.statusValue w.sim.status < L.statusValue ESimulationStatus.INITIALISED ∨
      w.sim.status = ESimulationStatus.ERROR then
    (w, Outcome.thrown "Cannot write out configuration in this state")
  else
    match L.configOutput w.sim fileName round uncompressed with
    | Outcome.thrown msg => (w, Outcome.thrown msg)
    | Outcome.ok => ({ w with files := w.files ++ [fileName] }, Outcome.ok)

/-- Method `CSimulation::outputData`: after the test of the status the data
of the plugins are written to the file, compressed or not; a build with
`DYNAMO_CONDOR` throws instead of writing compressed data. -/
def outputData (L : LifeEnv) (filename : String) (uncompressed : Bool) (w : SimWorld) :
    SimWorld × Outcome :=
  if L.statusValue w.sim.status < L.statusValue ESimulationStatus.INITIALISED ∨
      w.sim.status = ESimulationStatus.ERROR then
    (w, Outcome.thrown "Cannot output data when not initialised!")
  else if L.DYNAMO_CONDOR && !uncompressed then
    (w, Outcome.thrown "Cannot output compressed data when compiled for Condor ")
  else ({ w with files := w.files ++ [filename] }, Outcome.ok)

end SimWorld

/-- A call of one of the public operations of `CSimulation`, with its
arguments. -/
inductive Call where
  | configLoaded
  | loadXMLfile (fileName : String)
  | addGlobal (tmp : Option String)
  | addSystem (tmp : Option String)
  | addOutputPlugin (Name : String)
  | loadPlugins (pluginFileName : String)
  | initialise
  | runSimulation (silentMode : Bool)
  | writeXMLfile (fileName : String) (round uncompressed : Bool)
  | outputData (filename : String) (uncompressed : Bool)
  | simShutdown
deriving DecidableEq

/-- One call of a public operation; `none` when its behaviour is undefined
or the loops of `runSimulation` run out of fuel. -/
def perform (X : SimEnv) (L : LifeEnv) (fuel : Nat) (c : Call) (w : SimWorld) :
    Option (SimWorld × Outcome) :=
  match c with
  | Call.configLoaded => some (SimWorld.configLoaded w)
  | Call.loadXMLfile fileName => some (SimWorld.loadXMLfile L fileName w)
  | Call.addGlobal tmp => some (SimWorld.addGlobal tmp w)
  | Call.addSystem tmp => some (SimWorld.addSystem tmp w)
  | Call.addOutputPlugin Name => some (SimWorld.addOutputPlugin L Name w)
  | Call.loadPlugins pluginFileName => SimWorld.loadPlugins L pluginFileName w
  | Call.initialise =>
    some ({ w with sim := (initialise X w.sim).1 }, (initialise X w.sim).2)
  | Call.runSimulation silentMode =>
    (runSimulation X fuel silentMode w.sim).map (fun r => ({ w with sim := r.1 }, r.2))
  | Call.writeXMLfile fileName round uncompressed =>
    some (SimWorld.writeXMLfile L fileName round uncompressed w)
  | Call.outputData filename uncompressed => some (SimWorld.outputData L filename uncompressed w)
  | Call.simShutdown => some ({ w with sim := simShutdown w.sim }, Outcome.ok)

/-- A sequence of calls, one after the other, the caller catching the
exception of a call that throws and going on with the next call. -/
def performAll (X : SimEnv) (L : LifeEnv) (fuel : Nat) : List Call → SimWorld → Option SimWorld
  | [], w => some w
  | c :: cs, w =>
    match perform X L fuel c w with
    | none => none
    | some (w', _) => performAll X L fuel cs w'

/-- The events leave the status of the simulation alone. -/
def SimEnv.KeepsStatus (X : SimEnv) : Prop :=
  ∀ s : CSimulation, (X.runNextEvent s).1.status = s.status

/-- Loading a configuration leaves the status of the simulation alone, and
the values of the enumeration increase from `START` to `PRODUCTION`. -/
def LifeEnv.WF (L : LifeEnv) : Prop :=
  (∀ (f : String) (s : CSimulation), (L.loadConfig f s).1.status = s.status) ∧
    L.statusValue ESimulationStatus.START < L.statusValue ESimulationStatus.CONFIG_LOADED ∧
    L.statusValue ESimulationStatus.CONFIG_LOADED <
      L.statusValue ESimulationStatus.INITIALISED ∧
    L.statusValue ESimulationStatus.INITIALISED < L.statusValue ESimulationStatus.PRODUCTION

/-- The enumeration in the order in which simulation.cpp goes through it, a
plugin for every name, configurations that load and files that can be
written. -/
def quietLife : LifeEnv :=
  { statusValue := fun st =>
      match st with
      | ESimulationStatus.START => 0
      | ESimulationStatus.CONFIG_LOADED => 1
      | ESimulationStatus.INITIALISED => 2
      | ESimulationStatus.PRODUCTION => 3
      | ESimulationStatus.ERROR => 4
    DYNAMO_CONDOR := false
    getPlugin := fun _ _ => Except.ok ⟨0, false, 0, 0⟩
    loadConfig := fun _ s => (s, Outcome.ok)
    fileExists := fun _ => true
    pluginNodes := fun _ => ["Misc"]
    configOutput := fun _ _ _ _ => Outcome.ok }

/-- A world around a simulation, with no global event and no file written. -/
def exampleWorld (s : CSimulation) : SimWorld := { sim := s, globals := [], files := [] }

/-! ## The video encoder of test/ffmpeg-example.c -/

/-- The value of a `size_t` expression: reduction modulo `2^64`. -/
def size_t (n : Nat) : Nat := n % 2 ^ 64

/-- Conversion of a `size_t` to `int`: the 32-bit two's complement value. -/
def toInt32 (n : Nat) : Int :=
  if n % 2 ^ 32 < 2 ^ 31 then ((n % 2 ^ 32 : Nat) : Int) else ((n % 2 ^ 32 : Nat) : Int) - 2 ^ 32

/-- Conversion of an `int` to `uint8_t`: the value modulo 256. -/
def toUint8 (x : Int) : Nat := (x % 256).toNat

/-- The luma byte `(uint8_t)((66 R + 129 G + 25 B + 128) >> 8) + 16`, stored
into a `uint8_t`. -/
def lumaByte (R G B : Nat) : Nat :=
  toUint8 ((toUint8 ((66 * (R : Int) + 129 * (G : Int) + 25 * (B : Int) + 128) >>> (8 : Nat)) : Int)
    + 16)

/-- The chroma byte `(uint8_t)((-38 R - 74 G + 112 B + 128) >> 8) + 128`,
stored into a `uint8_t`. -/
def chromaUByte (R G B : Nat) : Nat :=
  toUint8 ((toUint8
    ((-38 * (R : Int) - 74 * (G : Int) + 112 * (B : Int) + 128) >>> (8 : Nat)) : Int) + 128)

/-- The chroma byte `(uint8_t)((112 R - 94 G - 18 B + 128) >> 8) + 128`,
stored into a `uint8_t`. -/
def chromaVByte (R G B : Nat) : Nat :=
  toUint8 ((toUint8
    ((112 * (R : Int) - 94 * (G : Int) - 18 * (B : Int) + 128) >>> (8 : Nat)) : Int) + 128)

/-- The members of `VideoEncoder` that the conversion uses; `contextWidth` and
`contextHeight` are the `int` fields `_context->width` and `_context->height`. -/
structure VideoEncoder where
  _inputWidth : Nat
  _videoWidth : Nat
  _videoHeight : Nat
  contextWidth : Int
  contextHeight : Int
  _pictureBuffer : List Nat
  _frameCounter : Nat
  _fps : Nat
deriving DecidableEq

/-- The variables of the conversion loop of `addFrame`, the picture buffer,
and, for the record, the indices of the picture buffer written for luma, for
U and for V, in the order of the writes. -/
structure FrameLoop where
  i : Nat
  ui : Nat
  vi : Nat
  _pictureBuffer : List Nat
  lumaWrites : List Nat
  uWrites : List Nat
  vWrites : List Nat
deriving DecidableEq

/-- The constructor of `VideoEncoder`, as far as the sizes go. Whether the
codec is found, whether it opens and whether the output file opens are
results of the library and are arguments. -/
def VideoEncoder.construct (width height fps : Nat) (codecFound codecOpened fileOpened : Bool) :
    Except String VideoEncoder :=
  let videoWidth := width - (width % 2)
  let videoHeight := height - (height % 2)
  if videoWidth = 0 ∨ videoHeight = 0 then
    Except.error "Can only encode images with a size of at least 2x2 pixels"
  else
    let size := size_t (videoWidth * videoHeight)
    if !codecFound then Except.error "Could not find the MPEG2 video codec"
    else if !codecOpened then Except.error "Could not open the MPEG1 video codec context"
    else if !fileOpened then Except.error "Could not open the movie file for output"
    else
      Except.ok
        { _inputWidth := width
          _videoWidth := videoWidth
          _videoHeight := videoHeight
          contextWidth := toInt32 videoWidth
          contextHeight := toInt32 videoHeight
          _pictureBuffer := List.replicate (size_t (size * 3) / 2) 0
          _frameCounter := 0
          _fps := fps }

/-- The body of the two loops of `addFrame` for the pixel in row `j` and
column `k`; `none` when an index is outside the frame or the picture buffer
(the accesses are unchecked). -/
def pixelBody (inputWidth : Nat) (RGB24Frame : List Nat) (j k : Nat) (st : FrameLoop) :
    Option FrameLoop :=
  let s := size_t (size_t (k + size_t (j * inputWidth)) * 3)
  match RGB24Frame[s]?, RGB24Frame[size_t (s + 1)]?, RGB24Frame[size_t (s + 2)]? with
  | some R, some G, some B =>
    if st.i < st._pictureBuffer.length then
      let st1 : FrameLoop :=
        { st with
          _pictureBuffer := st._pictureBuffer.set st.i (lumaByte R G B)
          lumaWrites := st.lumaWrites ++ [st.i] }
      if j % 2 = 0 ∧ k % 2 = 0 then
        if st1.ui < st1._pictureBuffer.length ∧ st1.vi < st1._pictureBuffer.length then
          some
            { st1 with
              _pictureBuffer :=
                (st1._pictureBuffer.set st1.ui (chromaUByte R G B)).set st1.vi
                  (chromaVByte R G B)
              uWrites := st1.uWrites ++ [st1.ui]
              vWrites := st1.vWrites ++ [st1.vi]
              ui := size_t (st1.ui + 1)
              vi := size_t (st1.vi + 1)
              i := size_t (st1.i + 1) }
        else none
      else some { st1 with i := size_t (st1.i + 1) }
    else none
  | _, _, _ => none

/-- The block of `addFrame` that converts the RGB image to YUV420p and copies
it into the picture buffer; `none` when the `int` product
`_context->height * _context->width` overflows or an access is out of
bounds. -/
def VideoEncoder.convert (enc : VideoEncoder) (RGB24Frame : List Nat) : Option FrameLoop :=
  let prod := enc.contextHeight * enc.contextWidth
  if prod < -(2 ^ 31) ∨ 2 ^ 31 ≤ prod then none
  else
    let numpixels := (prod % 2 ^ 64).toNat
    let st0 : FrameLoop :=
      { i := 0
        ui := numpixels
        vi := size_t (numpixels + numpixels / 4)
        _pictureBuffer := enc._pictureBuffer
        lumaWrites := []
        uWrites := []
        vWrites := [] }
    (List.range enc.contextHeight.toNat).foldlM
      (fun st j =>
        (List.range enc.contextWidth.toNat).foldlM
          (fun st k => pixelBody enc._inputWidth RGB24Frame j k st) st)
      st0

/-- Method `VideoEncoder::addFrame`, up to the call of the encoder: the test
of the frame size, the conversion, and the presentation time, whose
computation divides by `_fps`. -/
def VideoEncoder.addFrame (enc : VideoEncoder) (RGB24Frame : List Nat) :
    Option (VideoEncoder × Outcome) :=
  if RGB24Frame.length < size_t (size_t (3 * enc._inputWidth) * enc._videoHeight) then
    some (enc, Outcome.thrown "The image is too small for the video size!")
  else
    match enc.convert RGB24Frame with
    | none => none
    | some st =>
      if enc._fps = 0 then none
      else
        some ({ enc with
          _pictureBuffer := st._pictureBuffer
          _frameCounter := size_t (enc._frameCounter + 1) }, Outcome.ok)

/-- The invariant of the loop over the columns of row `j`, after `k` columns,
from the state `st0` at the start of the row, for a buffer of length `L`. -/
def RowInv (j L : Nat) (st0 : FrameLoop) (k : Nat) (st : FrameLoop) : Prop :=
  st.i = st0.i + k ∧ st._pictureBuffer.length = L ∧
    st.lumaWrites = st0.lumaWrites ++ List.range' st0.i k ∧
    st.ui = st0.ui + (if j % 2 = 0 then (k + 1) / 2 else 0) ∧
    st.uWrites = st0.uWrites ++ List.range' st0.ui (if j % 2 = 0 then (k + 1) / 2 else 0) ∧
    st.vi = st0.vi + (if j % 2 = 0 then (k + 1) / 2 else 0) ∧
    st.vWrites = st0.vWrites ++ List.range' st0.vi (if j % 2 = 0 then (k + 1) / 2 else 0)

/-- The invariant of the loop over the rows, after `m` rows, for a video of
`2 a` columns and `2 b` rows and a buffer of length `L`. -/
def FrameInv (a b L : Nat) (m : Nat) (st : FrameLoop) : Prop :=
  st.i = m * (2 * a) ∧ st._pictureBuffer.length = L ∧
    st.lumaWrites = List.range' 0 (m * (2 * a)) ∧
    st.ui = 4 * (a * b) + ((m + 1) / 2) * a ∧
    st.uWrites = List.range' (4 * (a * b)) (((m + 1) / 2) * a) ∧
    st.vi = 4 * (a * b) + a * b + ((m + 1) / 2) * a ∧
    st.vWrites = List.range' (4 * (a * b) + a * b) (((m + 1) / 2) * a)

/-! ## Attributes of the visualiser (`coil::Attribute`) -/

/-- The enumeration `Attribute::AttributeType`. -/
inductive AttributeType where
  | INTENSIVE
  | EXTENSIVE
  | COORDINATE
deriving DecidableEq

/-- The data members of `coil::Attribute` apart from the GL objects; the
`GLfloat` values of the host data are rationals. -/
structure Attribute where
  _dataUpdates : Nat
  _hostData : List ℚ
  _components : Nat
  _type : AttributeType
  _references : Nat
deriving DecidableEq

namespace Attribute

/-- The constructor `Attribute(N, type, components, context)`. The host data
are a vector of `N * components` zeros, the product being computed in
`size_t`; `canAllocate n` tells whether a vector of `n` values can be
allocated, and the vector throws when it cannot. The test of the number of
components comes after the members are built. -/
def construct (canAllocate : Nat → Bool) (N : Nat) (type : AttributeType) (components : Nat) :
    Except String Attribute :=
  if !canAllocate (size_t (N * components)) then Except.error "std::bad_alloc"
  else if components > 4 then
    Except.error ("We don\x27t support greater than 4 component attributes due to the way "
      ++ "data is sometimes directly passed to the shaders (e.g. positional data)")
  else
    Except.ok
      { _dataUpdates := 0
        _hostData := List.replicate (size_t (N * components)) 0
        _components := components
        _type := type
        _references := 0 }

/-- Method `Attribute::getData`. -/
def getData (A : Attribute) : List ℚ := A._hostData

/-- Method `Attribute::size`: `_hostData.size() / _components`; a division by
zero is undefined. -/
def size (A : Attribute) : Option Nat :=
  if A._components = 0 then none else some (A._hostData.length / A._components)

/-- Method `Attribute::components`. -/
def components (A : Attribute) : Nat := A._components

end Attribute

/-- One pass of the loop of the particle example over the elements
`i = 0 .. N-1` of an attribute with `c` components: the writes
`data[c * i + j] = value` for `j = 0 .. c-1`; `none` when an index is outside
the data (the accesses are unchecked). -/
def writeComponents (c N : Nat) (value : Nat → Nat → ℚ) (data : List ℚ) : Option (List ℚ) :=
  (List.range N).foldlM
    (fun d i =>
      (List.range c).foldlM
        (fun d j => if c * i + j < d.length then some (d.set (c * i + j) (value i j)) else none)
        d)
    data

/-! ## Radix sort (`magnet::radixSort`) -/

/-- The digit of `bitsPerPass` bits of a key that starts at the bit
`startBit`. -/
def radixDigit (startBit bitsPerPass key : Nat) : Nat :=
  (key >>> startBit) % 2 ^ bitsPerPass

/-- Modelled from the spec: one pass of `radixSort<T>::operator()`, that is
the three kernels `radixBlockSortKernel`, `findRadixOffsetsKernel` and
`reorderKeys` of radixsort.clh and the scan of the bucket counts, none of
which is among the sources. Their joint effect is taken to be a stable sort of
the source buffer by the digit at `startBit`: bucket after bucket in the order
of the digits, the keys of a bucket in the order of the source. -/
def radixPass (startBit bitsPerPass : Nat) (src : List Nat) : List Nat :=
  (List.range (2 ^ bitsPerPass)).flatMap
    (fun d => src.filter (fun key => radixDigit startBit bitsPerPass key = d))

/-- The key buffers of a call of `operator()(input, output, size)`: whether
`input` and `output` are one and the same `cl::Buffer`, and the keys that the
two hold. -/
structure RadixBuffers where
  sameBuffer : Bool
  input : List Nat
  output : List Nat
deriving DecidableEq

/-- The body of the loop of `operator()` for one `startBit`: the block sort
reads `input`, and the reorder writes `output`; what is written to `output`
is written to `input` when the two are the same buffer. -/
def radixIteration (startBit bitsPerPass : Nat) (b : RadixBuffers) : RadixBuffers :=
  { b with
    output := radixPass startBit bitsPerPass b.input
    input := if b.sameBuffer then radixPass startBit bitsPerPass b.input else b.input }

/-- The loop `for (startBit = 0; startBit < sizeof(T) * 8; startBit += bitsPerPass)`
with `bitsPerPass = 4`, from a given `startBit` on; `none` when the fuel runs
out. -/
def radixLoop (sizeofT : Nat) : Nat → Nat → RadixBuffers → Option RadixBuffers
  | 0, _, _ => none
  | fuel + 1, startBit, b =>
    if startBit < sizeofT * 8 then
      radixLoop sizeofT fuel (startBit + 4) (radixIteration startBit 4 b)
    else some b

/-- Method `radixSort<T>::operator()(input, output, size)` for keys of
`sizeofT` bytes; `none` when the fuel runs out. -/
def radixSort (sizeofT fuel : Nat) (b : RadixBuffers) : Option RadixBuffers :=
  radixLoop sizeofT fuel 0 b

/-- A key array of 1024 keys: the key 1 followed by 1023 keys 0. -/
def unsortedKeys : List Nat := 1 :: 0 :: List.replicate 1022 0

/-! # Properties -/

/-! ## Lemmas on the pending map -/

theorem StateMap.find_assign_self (m : StateMap) (k : Nat) (v : Vector) :
    (m.assign k v).find k = some v := by
  induction m with
  | nil => simp [StateMap.assign, StateMap.find]
  | cons e rest ih =>
    unfold StateMap.assign
    by_cases h1 : k < e.1
    · simp [h1, StateMap.find]
    · by_cases h2 : k = e.1
      · simp [h1, h2, StateMap.find]
      · have h3 : e.1 ≠ k := fun h => h2 h.symm
        simp [h1, h2, h3, StateMap.find, ih]

theorem StateMap.find_assign_ne (m : StateMap) (k k' : Nat) (v : Vector) (h : k' ≠ k) :
    (m.assign k v).find k' = m.find k' := by
  induction m with
  | nil => simp [StateMap.assign, StateMap.find, h.symm]
  | cons e rest ih =>
    unfold StateMap.assign
    by_cases h1 : k < e.1
    · simp [h1, StateMap.find, h.symm]
    · by_cases h2 : k = e.1
      · have h3 : e.1 ≠ k' := fun h4 => h (by omega)
        simp [h1, h2, StateMap.find, h.symm, h3]
      · simp [h1, h2, StateMap.find, ih]

theorem StateMap.mem_assign (m : StateMap) (k : Nat) (v : Vector) (e : Nat × Vector)
    (h : e ∈ m.assign k v) : e = (k, v) ∨ e ∈ m := by
  induction m with
  | nil => simp [StateMap.assign] at h; exact Or.inl h
  | cons a rest ih =>
    unfold StateMap.assign at h
    by_cases h1 : k < a.1
    · simp only [h1, if_true, List.mem_cons] at h
      rcases h with h | h | h
      · exact Or.inl h
      · exact Or.inr (by simp [h])
      · exact Or.inr (by simp [h])
    · by_cases h2 : k = a.1
      · rw [if_neg h1, if_pos h2, List.mem_cons] at h
        rcases h with h | h
        · exact Or.inl h
        · exact Or.inr (by simp [h])
      · rw [if_neg h1, if_neg h2, List.mem_cons] at h
        rcases h with h | h
        · exact Or.inr (by simp [h])
        · rcases ih h with h3 | h3
          · exact Or.inl h3
          · exact Or.inr (by simp [h3])

theorem StateMap.ordered_assign (m : StateMap) (k : Nat) (v : Vector) (h : m.Ordered) :
    (m.assign k v).Ordered := by
  induction m with
  | nil => simp [StateMap.assign, StateMap.Ordered]
  | cons a rest ih =>
    unfold StateMap.Ordered at h ih ⊢
    rw [List.pairwise_cons] at h
    unfold StateMap.assign
    by_cases h1 : k < a.1
    · simp only [h1, if_true]
      refine List.pairwise_cons.mpr ⟨?_, List.pairwise_cons.mpr h⟩
      intro b hb
      rcases List.mem_cons.mp hb with hb | hb
      · rw [hb]; exact h1
      · exact lt_trans h1 (h.1 b hb)
    · by_cases h2 : k = a.1
      · rw [if_neg h1, if_pos h2]
        refine List.pairwise_cons.mpr ⟨?_, h.2⟩
        intro b hb
        show k < b.1
        rw [h2]
        exact h.1 b hb
      · rw [if_neg h1, if_neg h2]
        refine List.pairwise_cons.mpr ⟨?_, ih h.2⟩
        intro b hb
        rcases StateMap.mem_assign rest k v b hb with hb | hb
        · rw [hb]; show a.1 < k; omega
        · exact h.1 b hb

theorem StateMap.find_of_mem (m : StateMap) (h : m.Ordered) (e : Nat × Vector)
    (he : e ∈ m) : m.find e.1 = some e.2 := by
  induction m with
  | nil => simp at he
  | cons a rest ih =>
    unfold StateMap.Ordered at h ih
    rw [List.pairwise_cons] at h
    rcases List.mem_cons.mp he with he | he
    · simp [StateMap.find, he]
    · have h3 : a.1 ≠ e.1 := ne_of_lt (h.1 e he)
      simp [StateMap.find, h3, ih h.2 he]

theorem StateMap.assign_ne_nil (m : StateMap) (k : Nat) (v : Vector) :
    (m.assign k v).isEmpty = false := by
  cases m with
  | nil => simp [StateMap.assign]
  | cons a rest =>
    unfold StateMap.assign
    by_cases h1 : k < a.1
    · simp [h1]
    · by_cases h2 : k = a.1 <;> simp [h1, h2]

theorem StateMap.mem_assign_self (m : StateMap) (k : Nat) (v : Vector) :
    (k, v) ∈ m.assign k v := by
  induction m with
  | nil => simp [StateMap.assign]
  | cons a rest ih =>
    unfold StateMap.assign
    by_cases h1 : k < a.1
    · rw [if_pos h1]; exact List.mem_cons_self _ _
    · by_cases h2 : k = a.1
      · rw [if_neg h1, if_pos h2]; exact List.mem_cons_self _ _
      · rw [if_neg h1, if_neg h2]; exact List.mem_cons_of_mem _ ih

/-! ## Lemmas on `runEvent` -/

theorem applyType_classify (J : Vector) (mass : ℚ) (part : Particle) :
    ∃ part', applyType (classify J part) J mass part = some part' := by
  unfold classify
  by_cases h1 : J.isZero <;> by_cases h2 : part.testStateDynamic <;>
    simp [h1, h2, applyType]

/-- The loop of `runEvent` on well-formed data: it does not throw, it visits
every pending entry once, replaces the particle of each entry by
`runEventParticle`, leaves the other particles alone, and appends one event
datum per entry. -/
theorem runEventLoop_spec (E : SleepEnv) (hE : E.KeepsState) (m : StateMap)
    (rest : List (Nat × Vector)) :
    ∀ (pl : List Particle) (sdat : List ParticleEventData),
      List.Pairwise (fun a b => a.1 < b.1) rest →
      (∀ e ∈ rest, m.find e.1 = some e.2) →
      (∀ e ∈ rest, ∃ p, pl[e.1]? = some p ∧ p.ID = e.1) →
      ∃ pl',
        runEventLoop E m rest pl sdat =
          some (pl', sdat ++ rest.filterMap (fun e => (pl[e.1]?).map (runEventData E e.2)),
            Outcome.ok) ∧
        pl'.length = pl.length ∧
        (∀ i, (∀ e ∈ rest, e.1 ≠ i) → pl'[i]? = pl[i]?) ∧
        (∀ e ∈ rest, ∀ p, pl[e.1]? = some p → pl'[e.1]? = some (runEventParticle E e.2 p)) := by
  induction rest with
  | nil =>
    intro pl sdat _ _ _
    exact ⟨pl, by simp [runEventLoop], rfl, fun _ _ => rfl, by simp⟩
  | cons a rest ih =>
    intro pl sdat hord hfind hidx
    obtain ⟨p0, hp0, hid⟩ := hidx a (List.mem_cons_self _ _)
    have hJ := hfind a (List.mem_cons_self _ _)
    obtain ⟨part', hpart'⟩ :=
      applyType_classify a.2 (E.getMass (E.updateParticle p0)) (E.updateParticle p0)
    have hID : (E.updateParticle p0).ID = a.1 := by rw [(hE p0).1, hid]
    rw [List.pairwise_cons] at hord
    have hne : ∀ e ∈ rest, a.1 ≠ e.1 := fun e he => ne_of_lt (hord.1 e he)
    have hlt : a.1 < pl.length := by
      rcases Nat.lt_or_ge a.1 pl.length with h | h
      · exact h
      · rw [List.getElem?_eq_none h] at hp0; cases hp0
    have hrp : runEventParticle E a.2 p0 = part' := by
      simp [runEventParticle, hpart']
    obtain ⟨pl', h1, h2, h3, h4⟩ :=
      ih (pl.set a.1 part')
        (sdat ++ [eventData E (classify a.2 (E.updateParticle p0)) (E.updateParticle p0) part'])
        hord.2 (fun e he => hfind e (List.mem_cons_of_mem _ he))
        (fun e he => by
          rw [List.getElem?_set_ne (hne e he)]
          exact hidx e (List.mem_cons_of_mem _ he))
    refine ⟨pl', ?_, ?_, ?_, ?_⟩
    · unfold runEventLoop
      simp only [hp0, hID, hJ, hpart']
      rw [h1]
      have hc : rest.filterMap
            (fun e => ((pl.set a.1 part')[e.1]?).map (runEventData E e.2)) =
          rest.filterMap (fun e => (pl[e.1]?).map (runEventData E e.2)) := by
        apply List.filterMap_congr
        intro e he
        rw [List.getElem?_set_ne (hne e he)]
      rw [hc, List.filterMap_cons]
      simp only [hp0, Option.map_some', runEventData, hrp, List.append_assoc,
        List.singleton_append]
    · rw [h2, List.length_set]
    · intro i hi
      rw [h3 i (fun e he => hi e (List.mem_cons_of_mem _ he))]
      exact List.getElem?_set_ne (hi a (List.mem_cons_self _ _))
    · intro e he p hp
      rcases List.mem_cons.mp he with he | he
      · subst he
        rw [h3 e.1 (fun e' he' => (hne e' he').symm), List.getElem?_set_self hlt]
        rw [hp0] at hp
        cases hp
        rw [hrp]
      · exact h4 e he p (by rw [List.getElem?_set_ne (hne e he)]; exact hp)

/-- On well-formed data `runEvent` returns without throwing; it empties the
pending map, replaces the particle of every pending entry by
`runEventParticle`, leaves every other particle alone, does not move the
system time and hands the collected data to the plugins once. -/
theorem runEvent_spec (E : SleepEnv) (hE : E.KeepsState) (s : SleepSim) (hs : s.WF) :
    ∃ s', runEvent E s = some (s', Outcome.ok) ∧
      s'.stateChange = [] ∧
      s'.particleList.length = s.particleList.length ∧
      (∀ e ∈ s.stateChange, ∀ p, s.particleList[e.1]? = some p →
        s'.particleList[e.1]? = some (runEventParticle E e.2 p)) ∧
      (∀ i, (∀ e ∈ s.stateChange, e.1 ≠ i) → s'.particleList[i]? = s.particleList[i]?) ∧
      s'.pluginUpdates = s.pluginUpdates ++
        [(⟨collectedData E s.stateChange s.particleList, []⟩, 0 + s.freestreamAcc)] ∧
      s'.dSysTime = s.dSysTime + 0 ∧
      s'.freestreamAcc = 0 ∧
      s'.sleepVelocity = s.sleepVelocity := by
  obtain ⟨pl', h1, h2, h3, h4⟩ :=
    runEventLoop_spec E hE s.stateChange s.stateChange s.particleList [] hs.1
      (fun e he => StateMap.find_of_mem s.stateChange hs.1 e he) hs.2
  by_cases hem : s.stateChange.isEmpty = true
  · simp only [runEvent, h1, particlesUpdated, pairLoop, hem, Bool.not_true,
      Bool.false_eq_true, if_false]
    exact ⟨_, rfl, rfl, h2, h4, h3, rfl, rfl, rfl, rfl⟩
  · simp only [runEvent, h1, particlesUpdated, pairLoop, hem, Bool.not_false, if_true]
    exact ⟨_, rfl, rfl, h2, h4, h3, rfl, rfl, rfl, rfl⟩

theorem Vector.isZero_iff (a : Vector) : a.isZero = true ↔ a = Vector.zero := by
  cases a with
  | mk x y z => simp [Vector.isZero, Vector.zero, and_assoc]

theorem mem_collectedData (E : SleepEnv) (m : StateMap) (pl : List Particle)
    (e : Nat × Vector) (he : e ∈ m) (p : Particle) (hp : pl[e.1]? = some p) :
    runEventData E e.2 p ∈ collectedData E m pl := by
  unfold collectedData
  rw [List.mem_filterMap]
  exact ⟨e, he, by rw [hp]; rfl⟩

theorem exampleEnv_keepsState : exampleEnv.KeepsState := fun _ => ⟨rfl, rfl⟩

/-! ## The transitions of `runEvent` -/

/-- C1. Re-sleep: for a well-formed sleep system in which the pending change
of a resting (not Dynamic) particle is the zero vector, `runEvent` returns,
the event datum handed to the plugins for that particle has type `RESLEEP`,
and the particle is left with velocity exactly `(0,0,0)` and with its
Dynamic flag cleared. When the Liouvillean leaves a resting particle of zero
velocity where it is, applying the transition `n >= 1` times gives the same
particle as applying it once. -/
theorem resleep_idempotent (E : SleepEnv) (hE : E.KeepsState)
    (hstill : ∀ q : Particle, q.dynamic = false → q.vel = Vector.zero →
      E.updateParticle q = q)
    (s : SleepSim) (hs : s.WF) (id : Nat) (p : Particle)
    (hpend : (id, Vector.zero) ∈ s.stateChange)
    (hp : s.particleList[id]? = some p) (hdyn : p.testStateDynamic = false) :
    ∃ s' sdat p' d,
      runEvent E s = some (s', Outcome.ok) ∧
      s'.pluginUpdates = s.pluginUpdates ++ [(⟨sdat, []⟩, 0 + s.freestreamAcc)] ∧
      d ∈ sdat ∧ d.particle = p' ∧ d.type = EEventType.RESLEEP ∧
      s'.particleList[id]? = some p' ∧
      p' = runEventParticle E Vector.zero p ∧
      p'.ID = id ∧ p'.vel = Vector.zero ∧ p'.testStateDynamic = false ∧
      ∀ n, 1 ≤ n → (runEventParticle E Vector.zero)^[n] p = p' := by
  obtain ⟨s', h1, _, _, h4, _, h6, _⟩ := runEvent_spec E hE s hs
  have hu : (E.updateParticle p).dynamic = false := by rw [(hE p).2]; exact hdyn
  obtain ⟨q, hq, hqid⟩ := hs.2 _ hpend
  have hpid : p.ID = id := by
    have : q = p := by
      have h := hq.symm.trans hp
      exact Option.some.inj h
    rw [← this]; exact hqid
  have hcl : classify Vector.zero (E.updateParticle p) = EEventType.RESLEEP := by
    simp [classify, Vector.isZero, Vector.zero, Particle.testStateDynamic, hu]
  have hfix : ∀ q : Particle, q.dynamic = false → q.vel = Vector.zero →
      runEventParticle E Vector.zero q = q := by
    intro q hq1 hq2
    have hc : classify Vector.zero q = EEventType.RESLEEP := by
      simp [classify, Vector.isZero, Vector.zero, Particle.testStateDynamic, hq1]
    simp only [runEventParticle, hstill q hq1 hq2, hc, applyType, Option.getD_some,
      Particle.setVelocity]
    rw [← hq2]
  have hone : runEventParticle E Vector.zero p =
      (E.updateParticle p).setVelocity Vector.zero := by
    simp [runEventParticle, hcl, applyType]
  refine ⟨s', collectedData E s.stateChange s.particleList,
    runEventParticle E Vector.zero p, runEventData E Vector.zero p, h1, h6,
    mem_collectedData E s.stateChange s.particleList (id, Vector.zero) hpend p hp, rfl,
    ?_, h4 _ hpend p hp, rfl, ?_, ?_, ?_, ?_⟩
  · simp [runEventData, eventData, hcl]
  · rw [hone]; simp [Particle.setVelocity, (hE p).1, hpid]
  · rw [hone]; rfl
  · rw [hone]; exact hu
  · intro n hn
    induction n with
    | zero => omega
    | succ k ih =>
      rcases Nat.eq_zero_or_pos k with hk | hk
      · subst hk; rfl
      · rw [Function.iterate_succ_apply', ih hk]
        apply hfix
        · rw [hone]; exact hu
        · rw [hone]; rfl

theorem exampleSim_wf_single (p : Particle) (J : Vector) (h : p.ID = 0) :
    (exampleSim [p] [(0, J)]).WF := by
  refine ⟨by simp [exampleSim, StateMap.Ordered], ?_⟩
  intro e he
  simp only [exampleSim, List.mem_singleton] at he
  subst he
  exact ⟨p, rfl, h⟩

/-- Witness of C1: a resting particle that a contact left with velocity
`(1,0,0)` and whose pending change is the zero vector. -/
theorem resleep_idempotent_witness :
    exampleEnv.KeepsState ∧ (exampleSim [restingSlow] [(0, Vector.zero)]).WF ∧
      restingSlow.testStateDynamic = false ∧
      ∃ s', runEvent exampleEnv (exampleSim [restingSlow] [(0, Vector.zero)]) =
          some (s', Outcome.ok) ∧
        s'.particleList[0]? = some ⟨0, ⟨0, 0, 0⟩, ⟨0, 0, 0⟩, false⟩ ∧
        (runEventParticle exampleEnv Vector.zero)^[5] restingSlow =
          ⟨0, ⟨0, 0, 0⟩, ⟨0, 0, 0⟩, false⟩ := by
  refine ⟨exampleEnv_keepsState, exampleSim_wf_single restingSlow Vector.zero rfl, rfl, ?_⟩
  obtain ⟨s', _, p', _, h1, _, _, _, _, h6, h7, _, _, _, h11⟩ :=
    resleep_idempotent exampleEnv exampleEnv_keepsState (fun _ _ _ => rfl)
      (exampleSim [restingSlow] [(0, Vector.zero)])
      (exampleSim_wf_single restingSlow Vector.zero rfl) 0 restingSlow
      (by simp [exampleSim]) rfl rfl
  have hp' : p' = ⟨0, ⟨0, 0, 0⟩, ⟨0, 0, 0⟩, false⟩ := by
    rw [h7]
    simp [runEventParticle, exampleEnv, classify, Vector.isZero, Vector.zero, restingSlow,
      Particle.testStateDynamic, applyType, Particle.setVelocity]
  refine ⟨s', h1, ?_, ?_⟩
  · rw [h6, hp']
  · rw [h11 5 (by decide), hp']

/-- C5. Sleep execution: for a well-formed sleep system in which the pending
change of a Dynamic particle is the zero vector, `runEvent` returns, the
event datum handed to the plugins for that particle has type `SLEEP`, the
particle's Dynamic flag is cleared and its velocity is exactly `(0,0,0)`. -/
theorem sleep_execution (E : SleepEnv) (hE : E.KeepsState)
    (s : SleepSim) (hs : s.WF) (id : Nat) (p : Particle)
    (hpend : (id, Vector.zero) ∈ s.stateChange)
    (hp : s.particleList[id]? = some p) (hdyn : p.testStateDynamic = true) :
    ∃ s' sdat p' d,
      runEvent E s = some (s', Outcome.ok) ∧
      s'.pluginUpdates = s.pluginUpdates ++ [(⟨sdat, []⟩, 0 + s.freestreamAcc)] ∧
      d ∈ sdat ∧ d.particle = p' ∧ d.type = EEventType.SLEEP ∧
      s'.particleList[id]? = some p' ∧
      p'.testStateDynamic = false ∧ p'.vel = Vector.zero ∧
      p'.ID = p.ID ∧ p'.pos = (E.updateParticle p).pos := by
  obtain ⟨s', h1, _, _, h4, _, h6, _⟩ := runEvent_spec E hE s hs
  have hu : (E.updateParticle p).dynamic = true := by rw [(hE p).2]; exact hdyn
  have hcl : classify Vector.zero (E.updateParticle p) = EEventType.SLEEP := by
    simp [classify, Vector.isZero, Vector.zero, Particle.testStateDynamic, hu]
  have hone : runEventParticle E Vector.zero p =
      (E.updateParticle p).clearStateDynamic.setVelocity Vector.zero := by
    simp [runEventParticle, hcl, applyType]
  refine ⟨s', collectedData E s.stateChange s.particleList,
    runEventParticle E Vector.zero p, runEventData E Vector.zero p, h1, h6,
    mem_collectedData E s.stateChange s.particleList (id, Vector.zero) hpend p hp, rfl,
    ?_, h4 _ hpend p hp, ?_, ?_, ?_, ?_⟩
  · simp [runEventData, eventData, hcl]
  · rw [hone]; rfl
  · rw [hone]; rfl
  · rw [hone]; exact (hE p).1
  · rw [hone]; rfl

/-- Witness of C5: the dynamic particle 1 of the example with a zero pending
change. -/
theorem sleep_execution_witness :
    (exampleSim [restingSlow, dynamicOne] [(1, Vector.zero)]).WF ∧
      dynamicOne.testStateDynamic = true ∧
      ∃ s' p', runEvent exampleEnv (exampleSim [restingSlow, dynamicOne] [(1, Vector.zero)]) =
          some (s', Outcome.ok) ∧
        s'.particleList[1]? = some p' ∧ p'.testStateDynamic = false ∧
        p'.vel = Vector.zero := by
  have hwf : (exampleSim [restingSlow, dynamicOne] [(1, Vector.zero)]).WF := by
    refine ⟨by simp [exampleSim, StateMap.Ordered], ?_⟩
    intro e he
    simp only [exampleSim, List.mem_singleton] at he
    subst he
    exact ⟨dynamicOne, rfl, rfl⟩
  refine ⟨hwf, rfl, ?_⟩
  obtain ⟨s', _, p', _, h1, _, _, _, _, h6, h7, h8, _⟩ :=
    sleep_execution exampleEnv exampleEnv_keepsState
      (exampleSim [restingSlow, dynamicOne] [(1, Vector.zero)]) hwf 1 dynamicOne
      (by simp [exampleSim]) rfl rfl
  exact ⟨s', p', h1, h6, h7, h8⟩

/-- C7. Correct: for a well-formed sleep system in which a Dynamic particle
has a non-zero pending impulse `J`, and with `m` the non-zero mass of the
particle's species and `v` the velocity of the particle brought up to the
event time, `runEvent` returns, the event datum handed to the plugins for that
particle has type `CORRECT`, the particle's velocity becomes `v + J / m`
and the particle is still Dynamic. -/
theorem correct_execution (E : SleepEnv) (hE : E.KeepsState)
    (s : SleepSim) (hs : s.WF) (id : Nat) (p : Particle) (J : Vector)
    (hpend : (id, J) ∈ s.stateChange) (hJ : J ≠ Vector.zero)
    (hp : s.particleList[id]? = some p) (hdyn : p.testStateDynamic = true)
    (_hm : E.getMass (E.updateParticle p) ≠ 0) :
    ∃ s' sdat p' d,
      runEvent E s = some (s', Outcome.ok) ∧
      s'.pluginUpdates = s.pluginUpdates ++ [(⟨sdat, []⟩, 0 + s.freestreamAcc)] ∧
      d ∈ sdat ∧ d.particle = p' ∧ d.type = EEventType.CORRECT ∧
      s'.particleList[id]? = some p' ∧
      p'.vel = Vector.add (E.updateParticle p).vel
        (Vector.divScalar J (E.getMass (E.updateParticle p))) ∧
      p'.testStateDynamic = true ∧
      p'.ID = p.ID ∧ p'.pos = (E.updateParticle p).pos := by
  obtain ⟨s', h1, _, _, h4, _, h6, _⟩ := runEvent_spec E hE s hs
  have hu : (E.updateParticle p).dynamic = true := by rw [(hE p).2]; exact hdyn
  have hz : J.isZero = false := by
    cases h : J.isZero with
    | false => rfl
    | true => exact absurd ((Vector.isZero_iff J).mp h) hJ
  have hcl : classify J (E.updateParticle p) = EEventType.CORRECT := by
    simp [classify, hz, Particle.testStateDynamic, hu]
  have hone : runEventParticle E J p =
      ((E.updateParticle p).setVelocity (Vector.add (E.updateParticle p).vel
        (Vector.divScalar J (E.getMass (E.updateParticle p))))).setStateDynamic := by
    simp [runEventParticle, hcl, applyType]
  refine ⟨s', collectedData E s.stateChange s.particleList,
    runEventParticle E J p, runEventData E J p, h1, h6,
    mem_collectedData E s.stateChange s.particleList (id, J) hpend p hp, rfl,
    ?_, h4 _ hpend p hp, ?_, ?_, ?_, ?_⟩
  · simp [runEventData, eventData, hcl]
  · rw [hone]; rfl
  · rw [hone]; rfl
  · rw [hone]; exact (hE p).1
  · rw [hone]; rfl

/-- Witness of C7: the dynamic particle 1 (velocity `(3,4,0)`, mass 2) with
the pending impulse `(2,0,-4)` ends with velocity `(4,4,-2)`. -/
theorem correct_execution_witness :
    (exampleSim [restingSlow, dynamicOne] [(1, ⟨2, 0, -4⟩)]).WF ∧
      dynamicOne.testStateDynamic = true ∧
      ∃ s' p', runEvent exampleEnv (exampleSim [restingSlow, dynamicOne] [(1, ⟨2, 0, -4⟩)]) =
          some (s', Outcome.ok) ∧
        s'.particleList[1]? = some p' ∧ p'.testStateDynamic = true ∧
        p'.vel = ⟨4, 4, -2⟩ := by
  have hwf : (exampleSim [restingSlow, dynamicOne] [(1, ⟨2, 0, -4⟩)]).WF := by
    refine ⟨by simp [exampleSim, StateMap.Ordered], ?_⟩
    intro e he
    simp only [exampleSim, List.mem_singleton] at he
    subst he
    exact ⟨dynamicOne, rfl, rfl⟩
  refine ⟨hwf, rfl, ?_⟩
  obtain ⟨s', _, p', _, h1, _, _, _, _, h6, h7, h8, _⟩ :=
    correct_execution exampleEnv exampleEnv_keepsState
      (exampleSim [restingSlow, dynamicOne] [(1, ⟨2, 0, -4⟩)]) hwf 1 dynamicOne ⟨2, 0, -4⟩
      (by simp [exampleSim]) (by simp [Vector.zero]) rfl rfl
      (by simp [exampleEnv])
  refine ⟨s', p', h1, h6, h8, ?_⟩
  rw [h7]
  simp [exampleEnv, dynamicOne, Vector.add, Vector.divScalar]
  norm_num

/-! ## The decisions of `particlesUpdated` -/

/-- The comparison `nrmLt` is the comparison of the Euclidean norm, the real
square root of `nrm2`, with the scalar. -/
theorem Vector.nrmLt_iff_sqrt (a : Vector) (s : ℚ) :
    a.nrmLt s = true ↔ Real.sqrt ((a.nrm2 : ℚ) : ℝ) < ((s : ℚ) : ℝ) := by
  unfold Vector.nrmLt
  rw [decide_eq_true_iff]
  constructor
  · rintro ⟨hs, hlt⟩
    have hs' : (0 : ℝ) < (s : ℝ) := by exact_mod_cast hs
    rw [Real.sqrt_lt' hs']
    have : ((a.nrm2 : ℚ) : ℝ) < ((s * s : ℚ) : ℝ) := by exact_mod_cast hlt
    rw [pow_two]
    exact_mod_cast this
  · intro h
    have hs' : (0 : ℝ) < (s : ℝ) := lt_of_le_of_lt (Real.sqrt_nonneg _) h
    rw [Real.sqrt_lt' hs', pow_two] at h
    exact ⟨by exact_mod_cast hs', by exact_mod_cast h⟩

/-- When the loop over the pairs ends without throwing, `particlesUpdated`
returns with the map the loop produced and with the particles untouched. -/
theorem particlesUpdated_of_loop (E : SleepEnv) (PDat : NEventData) (s : SleepSim)
    (m : StateMap)
    (h : pairLoop E s.sleepVelocity PDat.L2partChanges s.stateChange = (m, Outcome.ok)) :
    (particlesUpdated E PDat s).2 = Outcome.ok ∧
      (particlesUpdated E PDat s).1.stateChange = m ∧
      (particlesUpdated E PDat s).1.particleList = s.particleList ∧
      (particlesUpdated E PDat s).1.sleepVelocity = s.sleepVelocity ∧
      (particlesUpdated E PDat s).1.pluginUpdates = s.pluginUpdates ∧
      (particlesUpdated E PDat s).1.freestreamAcc = s.freestreamAcc := by
  unfold particlesUpdated
  simp only [h]
  by_cases hem : m.isEmpty = true
  · simp [hem]
  · simp [hem, recalculateTime]

/-- C3. A pair of two Dynamic particles at the head of the pair list: the
loop body leaves the pending map as it is and breaks, so `particlesUpdated`
returns with the pending map unchanged (no entry added or changed, for these
two particles or any other), whatever the velocities and the range
membership of the two particles and whatever pairs follow in the list. -/
theorem dynamic_pair_bypasses (E : SleepEnv) (s : SleepSim)
    (l1 : List ParticleEventData) (pdat : PairEventData) (rest : List PairEventData)
    (h1 : pdat.particle1_.particle.testStateDynamic = true)
    (h2 : pdat.particle2_.particle.testStateDynamic = true) :
    pairStep E s.sleepVelocity pdat s.stateChange = (s.stateChange, Flow.brk) ∧
      (particlesUpdated E ⟨l1, pdat :: rest⟩ s).1.stateChange = s.stateChange ∧
      (particlesUpdated E ⟨l1, pdat :: rest⟩ s).2 = Outcome.ok ∧
      (particlesUpdated E ⟨l1, pdat :: rest⟩ s).1.stateChange.find pdat.particle1_.particle.ID =
        s.stateChange.find pdat.particle1_.particle.ID ∧
      (particlesUpdated E ⟨l1, pdat :: rest⟩ s).1.stateChange.find pdat.particle2_.particle.ID =
        s.stateChange.find pdat.particle2_.particle.ID := by
  have hstep : pairStep E s.sleepVelocity pdat s.stateChange = (s.stateChange, Flow.brk) := by
    unfold pairStep
    by_cases hr : (!E.isInRange pdat.particle1_.particle &&
        !E.isInRange pdat.particle2_.particle) = true
    · simp only [hr, if_true]
    · simp [hr, h1, h2]
  have hloop : pairLoop E s.sleepVelocity (pdat :: rest) s.stateChange =
      (s.stateChange, Outcome.ok) := by
    simp only [pairLoop, hstep]
  have hpu : (particlesUpdated E ⟨l1, pdat :: rest⟩ s).1.stateChange = s.stateChange ∧
      (particlesUpdated E ⟨l1, pdat :: rest⟩ s).2 = Outcome.ok := by
    unfold particlesUpdated
    simp only [hloop]
    by_cases hem : s.stateChange.isEmpty = true
    · simp [hem]
    · simp [hem, recalculateTime]
  exact ⟨hstep, hpu.1, hpu.2, by rw [hpu.1], by rw [hpu.1]⟩

/-- Witness of C3: two dynamic particles, one in and one out of the
monitored range, with a pending entry already recorded for the first. -/
theorem dynamic_pair_bypasses_witness :
    dynamicOne.testStateDynamic = true ∧ dynamicTwo.testStateDynamic = true ∧
      (particlesUpdated exampleEnv ⟨[], [⟨pairData dynamicOne, pairData dynamicTwo⟩]⟩
        (exampleSim [restingSlow, dynamicOne, dynamicTwo] [(1, ⟨5, 0, 0⟩)])).1.stateChange =
        [(1, ⟨5, 0, 0⟩)] :=
  ⟨rfl, rfl,
    (dynamic_pair_bypasses exampleEnv
      (exampleSim [restingSlow, dynamicOne, dynamicTwo] [(1, ⟨5, 0, 0⟩)]) []
      ⟨pairData dynamicOne, pairData dynamicTwo⟩ [] rfl rfl).2.1⟩

/-- C4. Sleep marking: a pair, at the head of the pair list and in either
order, of a Dynamic particle `dp` in the monitored range and a non-dynamic
partner `fc` outside it. `particlesUpdated` returns; the pending map is the
old one with `dp` assigned the zero vector when `sleepCondition` holds for
the velocity of `dp`, that is when its speed is below the sleep velocity
(whatever the field vector `g` is), and is the old map otherwise; the entry
of the partner is never touched. -/
theorem sleep_marking (E : SleepEnv) (s : SleepSim)
    (l1 : List ParticleEventData) (pdat : PairEventData) (rest : List PairEventData)
    (dp fc : Particle)
    (hpair : (pdat.particle1_.particle = dp ∧ pdat.particle2_.particle = fc) ∨
      (pdat.particle1_.particle = fc ∧ pdat.particle2_.particle = dp))
    (hdp : dp.testStateDynamic = true) (hdpr : E.isInRange dp = true)
    (hfc : fc.testStateDynamic = false) (hfcr : E.isInRange fc = false)
    (hid : fc.ID ≠ dp.ID) :
    (particlesUpdated E ⟨l1, pdat :: rest⟩ s).2 = Outcome.ok ∧
      (particlesUpdated E ⟨l1, pdat :: rest⟩ s).1.stateChange =
        (if sleepCondition s.sleepVelocity dp.vel E.getGravityVector = true
          then s.stateChange.assign dp.ID Vector.zero else s.stateChange) ∧
      (particlesUpdated E ⟨l1, pdat :: rest⟩ s).1.stateChange.find dp.ID =
        (if sleepCondition s.sleepVelocity dp.vel E.getGravityVector = true
          then some Vector.zero else s.stateChange.find dp.ID) ∧
      (particlesUpdated E ⟨l1, pdat :: rest⟩ s).1.stateChange.find fc.ID =
        s.stateChange.find fc.ID ∧
      (∀ g : Vector, sleepCondition s.sleepVelocity dp.vel g =
        decide (0 < s.sleepVelocity ∧ dp.vel.nrm2 < s.sleepVelocity * s.sleepVelocity)) := by
  have hstep : pairStep E s.sleepVelocity pdat s.stateChange =
      ((if sleepCondition s.sleepVelocity dp.vel E.getGravityVector = true
          then s.stateChange.assign dp.ID Vector.zero else s.stateChange), Flow.brk) := by
    unfold pairStep
    rcases hpair with ⟨ha, hb⟩ | ⟨ha, hb⟩
    · simp [ha, hb, hdp, hdpr, hfc, hfcr]
    · simp [ha, hb, hdp, hdpr, hfc, hfcr]
  have hloop : pairLoop E s.sleepVelocity (pdat :: rest) s.stateChange =
      ((if sleepCondition s.sleepVelocity dp.vel E.getGravityVector = true
          then s.stateChange.assign dp.ID Vector.zero else s.stateChange), Outcome.ok) := by
    simp only [pairLoop, hstep]
  obtain ⟨h1, h2, _⟩ := particlesUpdated_of_loop E ⟨l1, pdat :: rest⟩ s _ hloop
  refine ⟨h1, h2, ?_, ?_, fun _ => rfl⟩
  · rw [h2]
    by_cases hc : sleepCondition s.sleepVelocity dp.vel E.getGravityVector = true
    · rw [if_pos hc, if_pos hc]
      exact StateMap.find_assign_self _ _ _
    · rw [if_neg hc, if_neg hc]
  · rw [h2]
    by_cases hc : sleepCondition s.sleepVelocity dp.vel E.getGravityVector = true
    · rw [if_pos hc]
      exact StateMap.find_assign_ne _ _ _ _ hid
    · rw [if_neg hc]

/-- Witness of C4: the slow dynamic particle 1 (speed 1, sleep velocity 2)
against the fixed collider 2. -/
theorem sleep_marking_witness :
    dynamicSlow.testStateDynamic = true ∧ exampleEnv.isInRange dynamicSlow = true ∧
      fixedTwo.testStateDynamic = false ∧ exampleEnv.isInRange fixedTwo = false ∧
      (particlesUpdated exampleEnv ⟨[], [⟨pairData fixedTwo, pairData dynamicSlow⟩]⟩
        (exampleSim [restingSlow, dynamicSlow, fixedTwo] [])).1.stateChange =
        [(1, Vector.zero)] := by
  refine ⟨rfl, by simp [exampleEnv, dynamicSlow], rfl, by simp [exampleEnv, fixedTwo], ?_⟩
  have h := (sleep_marking exampleEnv (exampleSim [restingSlow, dynamicSlow, fixedTwo] []) []
    ⟨pairData fixedTwo, pairData dynamicSlow⟩ [] dynamicSlow fixedTwo
    (Or.inr ⟨rfl, rfl⟩) rfl (by simp [exampleEnv, dynamicSlow]) rfl
    (by simp [exampleEnv, fixedTwo]) (by simp [fixedTwo, dynamicSlow])).2.1
  have hc : sleepCondition (exampleSim [restingSlow, dynamicSlow, fixedTwo] []).sleepVelocity
      dynamicSlow.vel exampleEnv.getGravityVector = true := by
    simp [sleepCondition, Vector.nrmLt, Vector.nrm2, exampleSim, dynamicSlow]
    norm_num
  rw [if_pos hc] at h
  exact h

/-- C2, as the code has it. In a build with `DYNAMO_DEBUG`, a pair at the
head of the pair list in which neither particle is Dynamic and at least one
is in the monitored range is rejected: `particlesUpdated` throws
"Static particles colliding!" and leaves the whole state, the pending map
included, as it was. -/
theorem static_pair_rejected_in_debug (E : SleepEnv) (hdbg : E.DYNAMO_DEBUG = true)
    (s : SleepSim) (l1 : List ParticleEventData) (pdat : PairEventData)
    (rest : List PairEventData)
    (h1 : pdat.particle1_.particle.testStateDynamic = false)
    (h2 : pdat.particle2_.particle.testStateDynamic = false)
    (hr : E.isInRange pdat.particle1_.particle = true ∨
      E.isInRange pdat.particle2_.particle = true) :
    particlesUpdated E ⟨l1, pdat :: rest⟩ s =
      (s, Outcome.thrown "Static particles colliding!") := by
  have hstep : pairStep E s.sleepVelocity pdat s.stateChange =
      (s.stateChange, Flow.thrown "Static particles colliding!") := by
    unfold pairStep
    rcases hr with hr | hr <;> simp [hr, h1, h2, hdbg]
  unfold particlesUpdated
  simp only [pairLoop, hstep]

/-- Witness of C2 as amended: two resting particles of the monitored range in
the debug build. -/
theorem static_pair_rejected_in_debug_witness :
    exampleEnvDebug.DYNAMO_DEBUG = true ∧ restingFast.testStateDynamic = false ∧
      restingOne.testStateDynamic = false ∧ exampleEnvDebug.isInRange restingFast = true ∧
      particlesUpdated exampleEnvDebug ⟨[], [⟨pairData restingFast, pairData restingOne⟩]⟩
        (exampleSim [restingFast, restingOne] []) =
        (exampleSim [restingFast, restingOne] [],
          Outcome.thrown "Static particles colliding!") :=
  ⟨rfl, rfl, rfl, by simp [exampleEnvDebug, exampleEnv, restingFast],
    static_pair_rejected_in_debug exampleEnvDebug rfl (exampleSim [restingFast, restingOne] [])
      [] ⟨pairData restingFast, pairData restingOne⟩ [] rfl rfl
      (Or.inl (by simp [exampleEnvDebug, exampleEnv, restingFast, pairData]))⟩

/-- Counterexample to C2 as stated: in a build without `DYNAMO_DEBUG` the
pair of the resting particles 0 and 1, both in the monitored range, is not
rejected: `particlesUpdated` returns normally and records the state change
`(1,1,1)` for particle 0 in a pending map that was empty. -/
theorem static_pair_counterexample :
    restingFast.testStateDynamic = false ∧ restingOne.testStateDynamic = false ∧
      exampleEnv.isInRange restingFast = true ∧ exampleEnv.isInRange restingOne = true ∧
      (exampleSim [restingFast, restingOne] []).stateChange = [] ∧
      (particlesUpdated exampleEnv ⟨[], [⟨pairData restingFast, pairData restingOne⟩]⟩
        (exampleSim [restingFast, restingOne] [])).2 = Outcome.ok ∧
      (particlesUpdated exampleEnv ⟨[], [⟨pairData restingFast, pairData restingOne⟩]⟩
        (exampleSim [restingFast, restingOne] [])).1.stateChange = [(0, ⟨1, 1, 1⟩)] := by
  have hc : sleepCondition 2 (Vector.scale (1 / 10) restingFast.vel) ⟨0, 0, -1⟩ = false := by
    simp [sleepCondition, Vector.nrmLt, Vector.nrm2, Vector.scale, restingFast]
    norm_num
  have hstep : pairStep exampleEnv 2 ⟨pairData restingFast, pairData restingOne⟩ [] =
      ([(0, ⟨1, 1, 1⟩)], Flow.next) := by
    simp [pairStep, exampleEnv, pairData, restingFast, restingOne, Particle.testStateDynamic,
      StateMap.assign]
    simpa [restingFast] using hc
  have hloop : pairLoop exampleEnv
      (exampleSim [restingFast, restingOne] []).sleepVelocity
      (NEventData.mk [] [⟨pairData restingFast, pairData restingOne⟩]).L2partChanges
      (exampleSim [restingFast, restingOne] []).stateChange =
      ([(0, ⟨1, 1, 1⟩)], Outcome.ok) := by
    show pairLoop exampleEnv 2 [⟨pairData restingFast, pairData restingOne⟩] [] = _
    simp only [pairLoop, hstep]
  obtain ⟨h1, h2, _⟩ := particlesUpdated_of_loop exampleEnv
    ⟨[], [⟨pairData restingFast, pairData restingOne⟩]⟩
    (exampleSim [restingFast, restingOne] []) _ hloop
  exact ⟨rfl, rfl, by simp [exampleEnv, restingFast], by simp [exampleEnv, restingOne], rfl,
    h1, h2⟩

/-! ## The loops of `runSimulation` -/

theorem silentLoop_succ (X : SimEnv) :
    ∀ (fuel : Nat) (s : CSimulation) (r : CSimulation × Outcome),
      silentLoop X fuel s = some r → silentLoop X (fuel + 1) s = some r := by
  intro fuel
  induction fuel with
  | zero => intro s r h; simp [silentLoop] at h
  | succ n ih =>
    intro s r h
    rw [silentLoop] at h ⊢
    by_cases hlt : s.lNColl < s.lMaxNColl
    · rw [if_pos hlt] at h ⊢
      rcases hc : callRunNextEvent X s with ⟨s', o⟩
      rw [hc] at h
      cases o with
      | ok => exact ih s' r h
      | thrown what => exact h
    · rw [if_neg hlt] at h ⊢
      exact h

theorem printLoop_succ (X : SimEnv) :
    ∀ (fuel : Nat) (s : CSimulation) (r : CSimulation × Outcome),
      printLoop X fuel s = some r → printLoop X (fuel + 1) s = some r := by
  intro fuel
  induction fuel with
  | zero => intro s r h; simp [printLoop] at h
  | succ n ih =>
    intro s r h
    rw [printLoop] at h ⊢
    by_cases hlt : s.lNColl < s.lPrintLimiter
    · rw [if_pos hlt] at h ⊢
      rcases hc : callRunNextEvent X s with ⟨s', o⟩
      rw [hc] at h
      cases o with
      | ok => exact ih s' r h
      | thrown what => exact h
    · rw [if_neg hlt] at h ⊢
      exact h

theorem outputLoop_succ (X : SimEnv) :
    ∀ (fuel : Nat) (s : CSimulation) (r : CSimulation × Outcome),
      outputLoop X fuel s = some r → outputLoop X (fuel + 1) s = some r := by
  intro fuel
  induction fuel with
  | zero => intro s r h; simp [outputLoop] at h
  | succ n ih =>
    intro s r h
    rw [outputLoop] at h ⊢
    by_cases hlt : s.lNColl < s.lMaxNColl
    · rw [if_pos hlt] at h ⊢
      cases hc : printLoop X n s with
      | none => rw [hc] at h; simp at h
      | some q =>
        rw [hc] at h
        rw [printLoop_succ X n s q hc]
        rcases q with ⟨s1, o⟩
        cases o with
        | ok => exact ih _ r h
        | thrown what => exact h
    · rw [if_neg hlt] at h ⊢
      exact h

/-- More fuel does not change a result of `runSimulation`. -/
theorem runSimulation_fuel (X : SimEnv) (silentMode : Bool) (s : CSimulation)
    (r : CSimulation × Outcome) (fuel : Nat)
    (h : runSimulation X fuel silentMode s = some r) (k : Nat) :
    runSimulation X (fuel + k) silentMode s = some r := by
  induction k with
  | zero => exact h
  | succ k ih =>
    unfold runSimulation at ih ⊢
    by_cases hst : s.status ≠ ESimulationStatus.INITIALISED ∧
        s.status ≠ ESimulationStatus.PRODUCTION
    · rw [if_pos hst] at ih ⊢
      exact ih
    · rw [if_neg hst] at ih ⊢
      cases silentMode with
      | true =>
        simp only [if_true] at ih ⊢
        cases hc : silentLoop X (fuel + k) { s with status := ESimulationStatus.PRODUCTION } with
        | none => rw [hc] at ih; simp at ih
        | some q =>
          rw [hc] at ih
          have := silentLoop_succ X (fuel + k) _ q hc
          rw [show fuel + (k + 1) = fuel + k + 1 from rfl, this]
          exact ih
      | false =>
        simp only [Bool.false_eq_true, if_false] at ih ⊢
        exact outputLoop_succ X (fuel + k) _ r ih

/-- In silent mode the loop ends with `lNColl` equal to `lMaxNColl` after
exactly `lMaxNColl - lNColl` events. -/
theorem silentLoop_reaches (X : SimEnv) (hX : X.CountsEvents) :
    ∀ (d : Nat) (s : CSimulation), s.lNColl + d = s.lMaxNColl →
      ∃ s', (∀ fuel, d < fuel → silentLoop X fuel s = some (s', Outcome.ok)) ∧
        s'.lNColl = s.lMaxNColl ∧ s'.lMaxNColl = s.lMaxNColl ∧ s'.status = s.status ∧
        s'.eventsRun = s.eventsRun + d := by
  intro d
  induction d with
  | zero =>
    intro s hs
    refine ⟨s, ?_, by omega, rfl, rfl, rfl⟩
    intro fuel hf
    obtain ⟨n, rfl⟩ : ∃ n, fuel = n + 1 := ⟨fuel - 1, by omega⟩
    rw [silentLoop, if_neg (by omega)]
  | succ d ih =>
    intro s hs
    obtain ⟨h1, h2, h3, _, _, h6⟩ := hX s
    have hc : callRunNextEvent X s =
        ({ (X.runNextEvent s).1 with eventsRun := s.eventsRun + 1 }, Outcome.ok) := by
      simp [callRunNextEvent, h1]
    obtain ⟨s', g1, g2, g3, g4, g5⟩ :=
      ih { (X.runNextEvent s).1 with eventsRun := s.eventsRun + 1 }
        (by show (X.runNextEvent s).1.lNColl + d = (X.runNextEvent s).1.lMaxNColl
            rw [h2, h3]; omega)
    refine ⟨s', ?_, ?_, ?_, ?_, ?_⟩
    · intro fuel hf
      obtain ⟨n, rfl⟩ : ∃ n, fuel = n + 1 := ⟨fuel - 1, by omega⟩
      rw [silentLoop, if_pos (by omega), hc]
      exact g1 n (by omega)
    · rw [g2]; exact h3
    · rw [g3]; exact h3
    · rw [g4]; exact h6
    · rw [g5]; show s.eventsRun + 1 + d = s.eventsRun + (d + 1); omega

/-- In silent mode `runSimulation` returns with `lNColl` equal to `lMaxNColl`
after exactly `lMaxNColl - lNColl` events, in status `PRODUCTION`. -/
theorem runSimulation_silent_exact (X : SimEnv) (hX : X.CountsEvents) (s : CSimulation)
    (hst : s.status = ESimulationStatus.INITIALISED ∨ s.status = ESimulationStatus.PRODUCTION)
    (hle : s.lNColl ≤ s.lMaxNColl) :
    ∃ s', (∀ fuel, s.lMaxNColl - s.lNColl < fuel →
        runSimulation X fuel true s = some (s', Outcome.ok)) ∧
      s'.lNColl = s.lMaxNColl ∧ s'.lMaxNColl = s.lMaxNColl ∧
      s'.status = ESimulationStatus.PRODUCTION ∧
      s'.eventsRun = s.eventsRun + (s.lMaxNColl - s.lNColl) := by
  obtain ⟨s', g1, g2, g3, g4, g5⟩ :=
    silentLoop_reaches X hX (s.lMaxNColl - s.lNColl)
      { s with status := ESimulationStatus.PRODUCTION }
      (by show s.lNColl + (s.lMaxNColl - s.lNColl) = s.lMaxNColl; omega)
  refine ⟨s', ?_, g2, g3, g4, g5⟩
  intro fuel hf
  have hguard : ¬(s.status ≠ ESimulationStatus.INITIALISED ∧
      s.status ≠ ESimulationStatus.PRODUCTION) := by
    rcases hst with h | h <;> simp [h]
  unfold runSimulation
  rw [if_neg hguard]
  simp only [if_true]
  rw [g1 fuel hf]

theorem quietEnv_countsEvents : quietEnv.CountsEvents := fun _ =>
  ⟨rfl, rfl, rfl, rfl, rfl, rfl⟩

/-- With a print interval of zero and events left to run, the outer loop of
the periodic-output mode never ends: no amount of fuel gives a result. -/
theorem outputLoop_zero_interval (X : SimEnv) :
    ∀ (fuel : Nat) (s : CSimulation), s.lNColl < s.lMaxNColl → s.lPrintLimiter ≤ s.lNColl →
      s.lNPrint = 0 → s.lNColl < 2 ^ 64 → outputLoop X fuel s = none := by
  intro fuel
  induction fuel with
  | zero => intro s _ _ _ _; rfl
  | succ n ih =>
    intro s h1 h2 h3 h4
    rw [outputLoop, if_pos h1]
    cases n with
    | zero => rfl
    | succ m =>
      rw [printLoop, if_neg (by omega)]
      apply ih
      · exact h1
      · show u64 (s.lPrintLimiter + s.lNPrint) ≤ s.lNColl
        rw [h3, u64, Nat.add_zero]
        exact le_trans (Nat.mod_le _ _) h2
      · exact h3
      · exact h4

/-- C8, the code at the failing input. Every event advances `lNColl` by one,
the simulation is `INITIALISED` with `lNColl = 0`, `lMaxNColl = 5` and
`lNPrint = 3`. In periodic-output mode `runSimulation` returns with
`lNColl = 6` after 6 events, one more than `lMaxNColl`; in silent mode it
returns with `lNColl = 5` after 5 events; in both the status is
`PRODUCTION`. With `lNPrint = 0` the periodic-output mode does not return at
all. -/
theorem runSimulation_periodic_overshoot :
    quietEnv.CountsEvents ∧
      (∀ k, runSimulation quietEnv (8 + k) false
          (exampleSimulation ESimulationStatus.INITIALISED 0 5 3 [] (some ⟨0⟩)) =
        some ({ exampleSimulation ESimulationStatus.PRODUCTION 6 5 3 [] (some ⟨0⟩) with
                lPrintLimiter := 9
                eventsRun := 6
                outputPlugins := [⟨5, true, 0, 2⟩, ⟨1, false, 0, 2⟩] }, Outcome.ok)) ∧
      (∀ k, runSimulation quietEnv (8 + k) true
          (exampleSimulation ESimulationStatus.INITIALISED 0 5 3 [] (some ⟨0⟩)) =
        some ({ exampleSimulation ESimulationStatus.PRODUCTION 5 5 3 [] (some ⟨0⟩) with
                eventsRun := 5 }, Outcome.ok)) ∧
      (∀ fuel, runSimulation quietEnv fuel false
          (exampleSimulation ESimulationStatus.INITIALISED 0 5 0 [] (some ⟨0⟩)) = none) := by
  refine ⟨quietEnv_countsEvents, ?_, ?_, ?_⟩
  · intro k
    exact runSimulation_fuel quietEnv false _ _ 8 (by decide) k
  · intro k
    exact runSimulation_fuel quietEnv true _ _ 8 (by decide) k
  · intro fuel
    have h := outputLoop_zero_interval quietEnv fuel
      { exampleSimulation ESimulationStatus.PRODUCTION 0 5 0 [] (some ⟨0⟩) with
        lPrintLimiter := u64 (0 + 0) }
      (by decide) (by decide) rfl (by decide)
    simpa [runSimulation, exampleSimulation] using h

/-! ## Initialisation -/

theorem sortPlugins_perm (X : SimEnv) (l : List OutputPlugin) :
    List.Perm (sortPlugins X l) l :=
  X.stdSort_perm l

theorem sortPlugins_sorted (X : SimEnv) (l : List OutputPlugin) :
    List.Sorted (fun a b => a.updateOrder ≤ b.updateOrder) (sortPlugins X l) :=
  X.stdSort_sorted l

/-- C9. A missing scheduler: for a simulation in state `CONFIG_LOADED` whose
scheduler pointer is `NULL`, `initialise` throws; the status is still
`CONFIG_LOADED`, there is still no scheduler, the output plugins are the
plugins of before in sorted order (none has been initialised), the
dynamics and the ensemble have not been initialised, and no event has been
run. When adding the system ticker does not throw first, the message is
"The scheduler has not been set!". -/
theorem missing_scheduler_detected (X : SimEnv) (s : CSimulation)
    (hst : s.status = ESimulationStatus.CONFIG_LOADED) (hsch : s.ptrScheduler = none) :
    ∃ msg, (initialise X s).2 = Outcome.thrown msg ∧
      (initialise X s).1.status = ESimulationStatus.CONFIG_LOADED ∧
      (initialise X s).1.status ≠ ESimulationStatus.INITIALISED ∧
      (initialise X s).1.ptrScheduler = none ∧
      (initialise X s).1.outputPlugins = sortPlugins X s.outputPlugins ∧
      List.Perm (initialise X s).1.outputPlugins s.outputPlugins ∧
      List.Sorted (fun a b => a.updateOrder ≤ b.updateOrder)
        (initialise X s).1.outputPlugins ∧
      (initialise X s).1.dynamicsInitCalls = s.dynamicsInitCalls ∧
      (initialise X s).1.ensembleInitCalls = s.ensembleInitCalls ∧
      (initialise X s).1.lNColl = s.lNColl ∧
      (initialise X s).1.eventsRun = s.eventsRun ∧
      (((sortPlugins X s.outputPlugins).any (fun p => p.isTicker) = false ∨
        (X.addSystemTicker { s with outputPlugins := sortPlugins X s.outputPlugins }).2 =
          Outcome.ok) → msg = "The scheduler has not been set!") := by
  rcases s with ⟨st, a, b, c, d, e, pl, sch, ops, se, di, ei, er⟩
  simp only at hst hsch
  subst hst hsch
  by_cases hn : (sortPlugins X ops).any (fun p => p.isTicker) = true
  · cases ht : (X.addSystemTicker ⟨ESimulationStatus.CONFIG_LOADED, a, b, c, d, e, pl, none,
        sortPlugins X ops, se, di, ei, er⟩).2 with
    | thrown m =>
      refine ⟨m, ?_, ?_, ?_, ?_, ?_, ?_, ?_, ?_, ?_, ?_, ?_, ?_⟩
      all_goals simp [initialise, hn, ht, sortPlugins_perm, sortPlugins_sorted]
    | ok =>
      refine ⟨"The scheduler has not been set!", ?_, ?_, ?_, ?_, ?_, ?_, ?_, ?_, ?_, ?_, ?_, ?_⟩
      all_goals simp [initialise, hn, ht, sortPlugins_perm, sortPlugins_sorted]
  · refine ⟨"The scheduler has not been set!", ?_, ?_, ?_, ?_, ?_, ?_, ?_, ?_, ?_, ?_, ?_, ?_⟩
    all_goals simp [initialise, hn, sortPlugins_perm, sortPlugins_sorted]

/-- Witness of C9: a loaded configuration with one particle and no
scheduler. -/
theorem missing_scheduler_detected_witness :
    (exampleSimulation ESimulationStatus.CONFIG_LOADED 0 5 3 [dynamicOne] none).status =
        ESimulationStatus.CONFIG_LOADED ∧
      (exampleSimulation ESimulationStatus.CONFIG_LOADED 0 5 3 [dynamicOne] none).ptrScheduler =
        none ∧
      ∃ msg, (initialise quietEnv
          (exampleSimulation ESimulationStatus.CONFIG_LOADED 0 5 3 [dynamicOne] none)).2 =
          Outcome.thrown msg ∧
        (initialise quietEnv
          (exampleSimulation ESimulationStatus.CONFIG_LOADED 0 5 3 [dynamicOne] none)).1.status =
          ESimulationStatus.CONFIG_LOADED := by
  refine ⟨rfl, rfl, ?_⟩
  obtain ⟨msg, h1, h2, _⟩ := missing_scheduler_detected quietEnv
    (exampleSimulation ESimulationStatus.CONFIG_LOADED 0 5 3 [dynamicOne] none) rfl rfl
  exact ⟨msg, h1, h2⟩

theorem initialisePlugins_ok (X : SimEnv) (s : CSimulation)
    (h : ∀ t p, X.pluginInitialise t p = Outcome.ok) (l : List OutputPlugin) :
    initialisePlugins X s l =
      (l.map (fun p => { p with initCalls := p.initCalls + 1 }), Outcome.ok) := by
  induction l with
  | nil => rfl
  | cons p rest ih => simp [initialisePlugins, h, ih]

/-- Counterexample to C10 as stated: a loaded configuration with an empty
particle list and a scheduler, with components that do not throw, is
initialised without an error and reaches `INITIALISED` with `lN = 0`. -/
theorem empty_particles_counterexample :
    (exampleSimulation ESimulationStatus.CONFIG_LOADED 0 5 3 [] (some ⟨0⟩)).status =
        ESimulationStatus.CONFIG_LOADED ∧
      (exampleSimulation ESimulationStatus.CONFIG_LOADED 0 5 3 [] (some ⟨0⟩)).vParticleList = [] ∧
      (initialise quietEnv
        (exampleSimulation ESimulationStatus.CONFIG_LOADED 0 5 3 [] (some ⟨0⟩))).2 = Outcome.ok ∧
      (initialise quietEnv
        (exampleSimulation ESimulationStatus.CONFIG_LOADED 0 5 3 [] (some ⟨0⟩))).1.status =
        ESimulationStatus.INITIALISED ∧
      (initialise quietEnv
        (exampleSimulation ESimulationStatus.CONFIG_LOADED 0 5 3 [] (some ⟨0⟩))).1.lN = 0 := by
  decide

/-- C10, as the code has it. `initialise` makes no check of the particle
list: for a simulation in state `CONFIG_LOADED` with an empty particle list
and a scheduler, when none of the components it calls throws, `initialise`
returns normally with `lN = 0` and status `INITIALISED`. -/
theorem empty_particles_not_checked (X : SimEnv) (s : CSimulation) (sch : Scheduler)
    (hst : s.status = ESimulationStatus.CONFIG_LOADED) (hempty : s.vParticleList = [])
    (hsch : s.ptrScheduler = some sch)
    (hticker : ∀ t, (X.addSystemTicker t).2 = Outcome.ok)
    (hdyn : ∀ t, X.dynamicsInitialise t = Outcome.ok)
    (hens : ∀ t, X.ensembleInitialise t = Outcome.ok)
    (hsched : ∀ t, X.schedulerInitialise t = Outcome.ok)
    (hplug : ∀ t p, X.pluginInitialise t p = Outcome.ok) :
    (initialise X s).2 = Outcome.ok ∧
      (initialise X s).1.status = ESimulationStatus.INITIALISED ∧
      (initialise X s).1.lN = 0 ∧
      (initialise X s).1.vParticleList = [] := by
  rcases s with ⟨st, a, b, c, d, e, pl, sc, ops, se, di, ei, er⟩
  simp only at hst hempty hsch
  subst hst hempty hsch
  by_cases hn : (sortPlugins X ops).any (fun p => p.isTicker) = true <;>
    by_cases hb : b = 0 <;>
    simp [initialise, hn, hb, hticker, hdyn, hens, hsched, initialisePlugins_ok X _ hplug]

/-- Witness of C10 as amended: the components that never throw, on the empty
configuration of the counterexample. -/
theorem empty_particles_not_checked_witness :
    (exampleSimulation ESimulationStatus.CONFIG_LOADED 0 5 3 [] (some ⟨0⟩)).vParticleList = [] ∧
      (initialise quietEnv
        (exampleSimulation ESimulationStatus.CONFIG_LOADED 0 5 3 [] (some ⟨0⟩))).1.status =
        ESimulationStatus.INITIALISED :=
  ⟨rfl, (empty_particles_not_checked quietEnv
    (exampleSimulation ESimulationStatus.CONFIG_LOADED 0 5 3 [] (some ⟨0⟩)) ⟨0⟩ rfl rfl rfl
    (fun _ => rfl) (fun _ => rfl) (fun _ => rfl) (fun _ => rfl) (fun _ _ => rfl)).2.1⟩

/-! ## Consumption of the pending changes -/

theorem runEventParticle_ID (E : SleepEnv) (J : Vector) (p : Particle) :
    (runEventParticle E J p).ID = (E.updateParticle p).ID := by
  unfold runEventParticle classify
  by_cases h1 : J.isZero <;> by_cases h2 : (E.updateParticle p).testStateDynamic <;>
    simp [h1, h2, applyType, Particle.setVelocity, Particle.setStateDynamic,
      Particle.clearStateDynamic]

theorem collectedData_ids (E : SleepEnv) (hE : E.KeepsState) (pl : List Particle)
    (m : StateMap) (h : ∀ e ∈ m, ∃ p, pl[e.1]? = some p ∧ p.ID = e.1) :
    (collectedData E m pl).map (fun (d : ParticleEventData) => d.particle.ID) =
      m.map Prod.fst := by
  induction m with
  | nil => rfl
  | cons a rest ih =>
    obtain ⟨p, hp, hid⟩ := h a (List.mem_cons_self _ _)
    have ih' := ih (fun e he => h e (List.mem_cons_of_mem _ he))
    unfold collectedData at ih' ⊢
    rw [List.filterMap_cons]
    simp only [hp, Option.map_some', List.map_cons, ih']
    congr 1
    show (runEventParticle E a.2 p).ID = a.1
    rw [runEventParticle_ID, (hE p).1, hid]

/-- C20. Pending sleep changes are consumed exactly once: on well-formed
data `runEvent` returns; the event data it hands to the plugins have, in
order, exactly the particle ids that are the keys of the pending map, one
datum per key and in strictly increasing id order; afterwards the pending
map is empty; and the simulation time `dSysTime` is what it was (the system
is streamed by `locdt = 0`). -/
theorem pending_consumed_once (E : SleepEnv) (hE : E.KeepsState) (s : SleepSim)
    (hs : s.WF) :
    ∃ s' sdat,
      runEvent E s = some (s', Outcome.ok) ∧
      s'.pluginUpdates = s.pluginUpdates ++ [(⟨sdat, []⟩, 0 + s.freestreamAcc)] ∧
      sdat.map (fun (d : ParticleEventData) => d.particle.ID) = s.stateChange.map Prod.fst ∧
      sdat.length = s.stateChange.length ∧
      List.Pairwise (fun a b => a < b)
        (sdat.map (fun (d : ParticleEventData) => d.particle.ID)) ∧
      s'.stateChange = [] ∧
      s'.dSysTime = s.dSysTime := by
  obtain ⟨s', h1, h2, _, _, _, h6, h7, _⟩ := runEvent_spec E hE s hs
  have hids := collectedData_ids E hE s.particleList s.stateChange hs.2
  refine ⟨s', collectedData E s.stateChange s.particleList, h1, h6, hids, ?_, ?_, h2, ?_⟩
  · have := congrArg List.length hids
    simpa using this
  · rw [hids, List.pairwise_map]
    exact hs.1
  · rw [h7, add_zero]

/-- Witness of C20: two pending changes, for the particles 0 and 1. -/
theorem pending_consumed_once_witness :
    (exampleSim [restingSlow, dynamicOne] [(0, Vector.zero), (1, ⟨2, 0, -4⟩)]).WF ∧
      ∃ s' sdat,
        runEvent exampleEnv
            (exampleSim [restingSlow, dynamicOne] [(0, Vector.zero), (1, ⟨2, 0, -4⟩)]) =
          some (s', Outcome.ok) ∧
        s'.pluginUpdates = [(⟨sdat, []⟩, 0 + 0)] ∧
        sdat.map (fun (d : ParticleEventData) => d.particle.ID) = [0, 1] ∧
        s'.stateChange = [] ∧ s'.dSysTime = 0 := by
  have hwf : (exampleSim [restingSlow, dynamicOne]
      [(0, Vector.zero), (1, ⟨2, 0, -4⟩)]).WF := by
    refine ⟨by simp [exampleSim, StateMap.Ordered], ?_⟩
    intro e he
    simp only [exampleSim, List.mem_cons, List.mem_singleton, List.not_mem_nil, or_false] at he
    rcases he with he | he
    · subst he; exact ⟨restingSlow, rfl, rfl⟩
    · subst he; exact ⟨dynamicOne, rfl, rfl⟩
  refine ⟨hwf, ?_⟩
  obtain ⟨s', sdat, h1, h2, h3, _, _, h6, h7⟩ :=
    pending_consumed_once exampleEnv exampleEnv_keepsState _ hwf
  exact ⟨s', sdat, h1, h2, h3, h6, h7⟩

/-! ## The reverse-event check -/

theorem COPReverseEventsCheck.eventUpdate_eq (p : COPReverseEventsCheck) (e : ObservedEvent) :
    COPReverseEventsCheck.eventUpdate p e =
      ((if e.dt < p.localeps then { p with lReverseEvents := u64 (p.lReverseEvents + 1) }
        else p), Outcome.ok) := by
  cases e <;> rfl

theorem reverseCount_le (tol : ℚ) (evs : List ObservedEvent) :
    reverseCount tol evs ≤ evs.length :=
  List.length_filter_le _ _

theorem COPReverseEventsCheck.observe_count (evs : List ObservedEvent) :
    ∀ p : COPReverseEventsCheck, p.lReverseEvents + evs.length < 2 ^ 64 →
      COPReverseEventsCheck.observe p evs =
        ({ p with lReverseEvents := p.lReverseEvents + reverseCount p.localeps evs },
          Outcome.ok) := by
  induction evs with
  | nil => intro p _; simp [COPReverseEventsCheck.observe, reverseCount]
  | cons e rest ih =>
    intro p hp
    simp only [List.length_cons] at hp
    rw [COPReverseEventsCheck.observe, COPReverseEventsCheck.eventUpdate_eq]
    by_cases hlt : e.dt < p.localeps
    · have hu : u64 (p.lReverseEvents + 1) = p.lReverseEvents + 1 :=
        Nat.mod_eq_of_lt (by omega)
      simp only [if_pos hlt, hu]
      rw [ih _ (by show p.lReverseEvents + 1 + rest.length < 2 ^ 64; omega)]
      simp only [reverseCount, List.filter_cons, hlt, decide_True, if_true, List.length_cons]
      congr 2
      omega
    · simp only [if_neg hlt]
      rw [ih p (by omega)]
      simp [reverseCount, List.filter_cons, hlt]

theorem COPReverseEventsCheck.observe_ok (evs : List ObservedEvent) :
    ∀ p : COPReverseEventsCheck, (COPReverseEventsCheck.observe p evs).2 = Outcome.ok := by
  induction evs with
  | nil => intro p; rfl
  | cons e rest ih =>
    intro p
    rw [COPReverseEventsCheck.observe, COPReverseEventsCheck.eventUpdate_eq]
    exact ih _

theorem COPReverseEventsCheck.observe_cons (p : COPReverseEventsCheck) (e : ObservedEvent)
    (rest : List ObservedEvent) :
    COPReverseEventsCheck.observe p (e :: rest) =
      COPReverseEventsCheck.observe (COPReverseEventsCheck.eventUpdate p e).1 rest := by
  rw [COPReverseEventsCheck.observe, COPReverseEventsCheck.eventUpdate_eq]

/-- C12. Monotonic-time check: after the constructor and `initialise`, for
every sequence of fewer than `2^64` observed events of the four kinds, the
plugin never throws; the counter `lReverseEvents` is the number of events of
the sequence whose `dt` is strictly below `localeps = -eps * unitTime`; it is
zero exactly when every event has `dt >= -(eps * unitTime)`; and an event
whose `dt` equals `-(eps * unitTime)` is not counted. -/
theorem reverse_events_counted (eps unitTime : ℚ) (evs : List ObservedEvent)
    (hlen : evs.length < 2 ^ 64) :
    (COPReverseEventsCheck.initialise eps unitTime COPReverseEventsCheck.construct).localeps =
        -eps * unitTime ∧
      (COPReverseEventsCheck.observe
        (COPReverseEventsCheck.initialise eps unitTime COPReverseEventsCheck.construct)
        evs).2 = Outcome.ok ∧
      (COPReverseEventsCheck.observe
        (COPReverseEventsCheck.initialise eps unitTime COPReverseEventsCheck.construct)
        evs).1.lReverseEvents = reverseCount (-eps * unitTime) evs ∧
      ((COPReverseEventsCheck.observe
        (COPReverseEventsCheck.initialise eps unitTime COPReverseEventsCheck.construct)
        evs).1.lReverseEvents = 0 ↔ ∀ e ∈ evs, -(eps * unitTime) ≤ e.dt) ∧
      (∀ e : ObservedEvent, e.dt = -(eps * unitTime) →
        COPReverseEventsCheck.eventUpdate
          (COPReverseEventsCheck.initialise eps unitTime COPReverseEventsCheck.construct) e =
        (COPReverseEventsCheck.initialise eps unitTime COPReverseEventsCheck.construct,
          Outcome.ok)) := by
  have hcount := COPReverseEventsCheck.observe_count evs
    (COPReverseEventsCheck.initialise eps unitTime COPReverseEventsCheck.construct)
    (by show 0 + evs.length < 2 ^ 64; omega)
  have hval : (COPReverseEventsCheck.observe
        (COPReverseEventsCheck.initialise eps unitTime COPReverseEventsCheck.construct)
        evs).1.lReverseEvents = reverseCount (-eps * unitTime) evs := by
    rw [hcount]
    show 0 + reverseCount (-eps * unitTime) evs = _
    omega
  refine ⟨rfl, COPReverseEventsCheck.observe_ok evs _, hval, ?_, ?_⟩
  · rw [hval, reverseCount, List.length_eq_zero, List.filter_eq_nil_iff]
    constructor
    · intro h e he
      have := h e he
      simp only [decide_eq_true_eq, not_lt] at this
      rw [neg_mul] at this
      exact this
    · intro h e he
      simp only [decide_eq_true_eq, not_lt]
      rw [neg_mul]
      exact h e he
  · intro e he
    rw [COPReverseEventsCheck.eventUpdate_eq]
    have : ¬ e.dt <
        (COPReverseEventsCheck.initialise eps unitTime
          COPReverseEventsCheck.construct).localeps := by
      show ¬ e.dt < -eps * unitTime
      rw [he, neg_mul]
      exact lt_irrefl _
    rw [if_neg this]

/-- Witness of C12: with `eps = 1/1000` and unit time 1, of four events only
the one with `dt = -1` is counted; the one with `dt = -1/1000` is not. -/
theorem reverse_events_counted_witness :
    (COPReverseEventsCheck.observe
      (COPReverseEventsCheck.initialise (1 / 1000) 1 COPReverseEventsCheck.construct)
      [ObservedEvent.interaction 2, ObservedEvent.systemEvent (-1),
        ObservedEvent.localEvent (-(1 / 1000)), ObservedEvent.globalEvent 0]).1.lReverseEvents =
      reverseCount (-(1 / 1000) * 1)
        [ObservedEvent.interaction 2, ObservedEvent.systemEvent (-1),
          ObservedEvent.localEvent (-(1 / 1000)), ObservedEvent.globalEvent 0] ∧
      reverseCount (-(1 / 1000) * 1)
        [ObservedEvent.interaction 2, ObservedEvent.systemEvent (-1),
          ObservedEvent.localEvent (-(1 / 1000)), ObservedEvent.globalEvent 0] = 1 :=
  ⟨(reverse_events_counted (1 / 1000) 1
      [ObservedEvent.interaction 2, ObservedEvent.systemEvent (-1),
        ObservedEvent.localEvent (-(1 / 1000)), ObservedEvent.globalEvent 0]
      (by decide)).2.2.1, by
    simp [reverseCount, List.filter_cons, ObservedEvent.dt]
    norm_num⟩

/-- C11, as the code has it. A reverse event is counted, not fatal: every
overload of `eventUpdate` returns normally, having added one to
`lReverseEvents` when the event's `dt` is below `localeps` and having changed
nothing otherwise, and the plugin goes on to observe every later event of the
run without ever throwing. -/
theorem reverse_event_counted_not_fatal (p : COPReverseEventsCheck) (e : ObservedEvent)
    (rest : List ObservedEvent) :
    COPReverseEventsCheck.eventUpdate p e =
        ((if e.dt < p.localeps then { p with lReverseEvents := u64 (p.lReverseEvents + 1) }
          else p), Outcome.ok) ∧
      COPReverseEventsCheck.observe p (e :: rest) =
        COPReverseEventsCheck.observe (COPReverseEventsCheck.eventUpdate p e).1 rest ∧
      (COPReverseEventsCheck.observe p (e :: rest)).2 = Outcome.ok := by
  exact ⟨COPReverseEventsCheck.eventUpdate_eq p e,
    COPReverseEventsCheck.observe_cons p e rest,
    COPReverseEventsCheck.observe_ok (e :: rest) p⟩

/-- Counterexample to C11 as stated: with `eps = 1/1000` and unit time 1, a
system event with `dt = -1`, earlier than the tolerance allows, does not abort
anything: `eventUpdate` returns normally with the counter at 1, and the
interaction event that follows is observed as well. -/
theorem reverse_event_counterexample :
    (ObservedEvent.systemEvent (-1)).dt <
        (COPReverseEventsCheck.initialise (1 / 1000) 1
          COPReverseEventsCheck.construct).localeps ∧
      COPReverseEventsCheck.eventUpdate
        (COPReverseEventsCheck.initialise (1 / 1000) 1 COPReverseEventsCheck.construct)
        (ObservedEvent.systemEvent (-1)) = (⟨1, -(1 / 1000) * 1⟩, Outcome.ok) ∧
      COPReverseEventsCheck.observe
        (COPReverseEventsCheck.initialise (1 / 1000) 1 COPReverseEventsCheck.construct)
        [ObservedEvent.systemEvent (-1), ObservedEvent.interaction 5] =
        (⟨1, -(1 / 1000) * 1⟩, Outcome.ok) := by
  have h1 : (ObservedEvent.systemEvent (-1)).dt <
      (COPReverseEventsCheck.initialise (1 / 1000) 1
        COPReverseEventsCheck.construct).localeps := by
    show (-1 : ℚ) < -(1 / 1000) * 1
    norm_num
  have h2 : ¬ (ObservedEvent.interaction 5).dt < (-(1 / 1000) * 1 : ℚ) := by
    show ¬ (5 : ℚ) < -(1 / 1000) * 1
    norm_num
  refine ⟨h1, ?_, ?_⟩
  · rw [COPReverseEventsCheck.eventUpdate_eq, if_pos h1]
    rfl
  · rw [COPReverseEventsCheck.observe_cons, COPReverseEventsCheck.eventUpdate_eq, if_pos h1,
      COPReverseEventsCheck.observe_cons, COPReverseEventsCheck.eventUpdate_eq]
    have h3 : ¬ (ObservedEvent.interaction 5).dt <
        ({ lReverseEvents := u64 ((COPReverseEventsCheck.initialise (1 / 1000) 1
              COPReverseEventsCheck.construct).lReverseEvents + 1),
            localeps := (COPReverseEventsCheck.initialise (1 / 1000) 1
              COPReverseEventsCheck.construct).localeps } : COPReverseEventsCheck).localeps :=
      h2
    rw [if_neg h3]
    rfl

/-! ## Exceptions of `runNextEvent` -/

theorem silentLoop_throw (X : SimEnv) (t : CSimulation) (what : String)
    (hthrow : (X.runNextEvent t).2 = Outcome.thrown what) (hg : t.lNColl < t.lMaxNColl)
    (fuel : Nat) :
    silentLoop X (fuel + 1) t = some ((callRunNextEvent X t).1, Outcome.thrown what) := by
  rw [silentLoop, if_pos hg]
  have hc : callRunNextEvent X t = ((callRunNextEvent X t).1, Outcome.thrown what) := by
    simp [callRunNextEvent, hthrow]
  rw [hc]

theorem printLoop_throw (X : SimEnv) (t : CSimulation) (what : String)
    (hthrow : (X.runNextEvent t).2 = Outcome.thrown what) (hg : t.lNColl < t.lPrintLimiter)
    (fuel : Nat) :
    printLoop X (fuel + 1) t = some ((callRunNextEvent X t).1, Outcome.thrown what) := by
  rw [printLoop, if_pos hg]
  have hc : callRunNextEvent X t = ((callRunNextEvent X t).1, Outcome.thrown what) := by
    simp [callRunNextEvent, hthrow]
  rw [hc]

theorem outputLoop_throw (X : SimEnv) (t : CSimulation) (what : String)
    (hthrow : (X.runNextEvent t).2 = Outcome.thrown what) (hg : t.lNColl < t.lMaxNColl)
    (hp : t.lNColl < t.lPrintLimiter) (fuel : Nat) :
    outputLoop X (fuel + 2) t =
      some ((callRunNextEvent X t).1,
        Outcome.thrown (collisionMessage (callRunNextEvent X t).1.lNColl what)) := by
  rw [outputLoop, if_pos hg, printLoop_throw X t what hthrow hp fuel]

theorem silentLoop_thrown_inv (X : SimEnv) :
    ∀ (fuel : Nat) (s s' : CSimulation) (what : String),
      silentLoop X fuel s = some (s', Outcome.thrown what) →
      ∃ t, t.lNColl < t.lMaxNColl ∧ (X.runNextEvent t).2 = Outcome.thrown what ∧
        s' = (callRunNextEvent X t).1 := by
  intro fuel
  induction fuel with
  | zero => intro s s' what h; simp [silentLoop] at h
  | succ n ih =>
    intro s s' what h
    rw [silentLoop] at h
    by_cases hg : s.lNColl < s.lMaxNColl
    · rw [if_pos hg] at h
      rcases hc : callRunNextEvent X s with ⟨s1, o⟩
      rw [hc] at h
      cases o with
      | ok => exact ih s1 s' what h
      | thrown w =>
        simp only [Option.some.injEq, Prod.mk.injEq, Outcome.thrown.injEq] at h
        refine ⟨s, hg, ?_, ?_⟩
        · have : (callRunNextEvent X s).2 = Outcome.thrown w := by rw [hc]
          rw [← h.2]; exact this
        · rw [hc]; exact h.1.symm
    · rw [if_neg hg] at h
      simp at h

theorem printLoop_thrown_inv (X : SimEnv) :
    ∀ (fuel : Nat) (s s' : CSimulation) (what : String),
      printLoop X fuel s = some (s', Outcome.thrown what) →
      ∃ t, t.lNColl < t.lPrintLimiter ∧ (X.runNextEvent t).2 = Outcome.thrown what ∧
        s' = (callRunNextEvent X t).1 := by
  intro fuel
  induction fuel with
  | zero => intro s s' what h; simp [printLoop] at h
  | succ n ih =>
    intro s s' what h
    rw [printLoop] at h
    by_cases hg : s.lNColl < s.lPrintLimiter
    · rw [if_pos hg] at h
      rcases hc : callRunNextEvent X s with ⟨s1, o⟩
      rw [hc] at h
      cases o with
      | ok => exact ih s1 s' what h
      | thrown w =>
        simp only [Option.some.injEq, Prod.mk.injEq, Outcome.thrown.injEq] at h
        refine ⟨s, hg, ?_, ?_⟩
        · have : (callRunNextEvent X s).2 = Outcome.thrown w := by rw [hc]
          rw [← h.2]; exact this
        · rw [hc]; exact h.1.symm
    · rw [if_neg hg] at h
      simp at h

theorem outputLoop_thrown_inv (X : SimEnv) :
    ∀ (fuel : Nat) (s s' : CSimulation) (msg : String),
      outputLoop X fuel s = some (s', Outcome.thrown msg) →
      ∃ t what, t.lNColl < t.lPrintLimiter ∧ (X.runNextEvent t).2 = Outcome.thrown what ∧
        s' = (callRunNextEvent X t).1 ∧ msg = collisionMessage s'.lNColl what := by
  intro fuel
  induction fuel with
  | zero => intro s s' msg h; simp [outputLoop] at h
  | succ n ih =>
    intro s s' msg h
    rw [outputLoop] at h
    by_cases hg : s.lNColl < s.lMaxNColl
    · rw [if_pos hg] at h
      cases hc : printLoop X n s with
      | none => rw [hc] at h; simp at h
      | some q =>
        rw [hc] at h
        rcases q with ⟨s1, o⟩
        cases o with
        | ok => exact ih _ s' msg h
        | thrown w =>
          simp only [Option.some.injEq, Prod.mk.injEq, Outcome.thrown.injEq] at h
          obtain ⟨t, ht1, ht2, ht3⟩ := printLoop_thrown_inv X n s s1 w hc
          refine ⟨t, w, ht1, ht2, ?_, ?_⟩
          · rw [← h.1]; exact ht3
          · rw [← h.2, ← h.1]
    · rw [if_neg hg] at h
      simp at h

/-- Every error `runSimulation` throws is either its own status error or the
error of a `runNextEvent` call, thrown again with the event count in front,
the state being the one that call left. -/
theorem runSimulation_thrown_inv (X : SimEnv) (fuel : Nat) (silentMode : Bool)
    (s s' : CSimulation) (msg : String)
    (h : runSimulation X fuel silentMode s = some (s', Outcome.thrown msg)) :
    (msg = "Bad state for runSimulation()" ∧ s' = s) ∨
      ∃ t what, (X.runNextEvent t).2 = Outcome.thrown what ∧
        s' = (callRunNextEvent X t).1 ∧ msg = collisionMessage s'.lNColl what := by
  unfold runSimulation at h
  by_cases hst : s.status ≠ ESimulationStatus.INITIALISED ∧
      s.status ≠ ESimulationStatus.PRODUCTION
  · rw [if_pos hst] at h
    simp only [Option.some.injEq, Prod.mk.injEq, Outcome.thrown.injEq] at h
    exact Or.inl ⟨h.2.symm, h.1.symm⟩
  · rw [if_neg hst] at h
    right
    cases silentMode with
    | true =>
      simp only [if_true] at h
      cases hc : silentLoop X fuel { s with status := ESimulationStatus.PRODUCTION } with
      | none => rw [hc] at h; simp at h
      | some q =>
        rw [hc] at h
        rcases q with ⟨s1, o⟩
        cases o with
        | ok => simp at h
        | thrown w =>
          simp only [Option.some.injEq, Prod.mk.injEq, Outcome.thrown.injEq] at h
          obtain ⟨t, _, ht2, ht3⟩ := silentLoop_thrown_inv X fuel _ s1 w hc
          refine ⟨t, w, ht2, ?_, ?_⟩
          · rw [← h.1]; exact ht3
          · rw [← h.2, ← h.1]
    | false =>
      simp only [Bool.false_eq_true, if_false] at h
      obtain ⟨t, w, _, ht2, ht3, ht4⟩ := outputLoop_thrown_inv X fuel _ s' msg h
      exact ⟨t, w, ht2, ht3, ht4⟩

/-- C13. Failures are surfaced: when `runNextEvent` throws `what` in a state
`t` of a run in production, the loop that called it runs no further event:
the silent loop and the inner loop of the periodic-output mode end at once
with the state that call left (one more call recorded, nothing else done),
`runSimulation` in silent mode and the outer loop of the periodic-output mode
end by throwing the message made of "While executing collision", the
current `lNColl` and `what`; and every error `runSimulation` throws in either
mode, other than its own status error, is such a message for a `runNextEvent`
call that threw, with the state that call left. -/
theorem exception_surfaced (X : SimEnv) (t : CSimulation) (what : String)
    (hthrow : (X.runNextEvent t).2 = Outcome.thrown what)
    (hst : t.status = ESimulationStatus.PRODUCTION) :
    (callRunNextEvent X t).1.eventsRun = t.eventsRun + 1 ∧
      (t.lNColl < t.lMaxNColl → ∀ fuel,
        silentLoop X (fuel + 1) t = some ((callRunNextEvent X t).1, Outcome.thrown what)) ∧
      (t.lNColl < t.lMaxNColl → ∀ fuel,
        runSimulation X (fuel + 1) true t =
          some ((callRunNextEvent X t).1,
            Outcome.thrown (collisionMessage (callRunNextEvent X t).1.lNColl what))) ∧
      (t.lNColl < t.lPrintLimiter → ∀ fuel,
        printLoop X (fuel + 1) t = some ((callRunNextEvent X t).1, Outcome.thrown what)) ∧
      (t.lNColl < t.lMaxNColl → t.lNColl < t.lPrintLimiter → ∀ fuel,
        outputLoop X (fuel + 2) t =
          some ((callRunNextEvent X t).1,
            Outcome.thrown (collisionMessage (callRunNextEvent X t).1.lNColl what))) ∧
      (t.lNColl < t.lMaxNColl → t.lPrintLimiter = u64 (t.lNColl + t.lNPrint) →
        t.lNColl < t.lPrintLimiter → ∀ fuel,
        runSimulation X (fuel + 2) false t =
          some ((callRunNextEvent X t).1,
            Outcome.thrown (collisionMessage (callRunNextEvent X t).1.lNColl what))) ∧
      (∀ (fuel : Nat) (silentMode : Bool) (s s' : CSimulation) (msg : String),
        runSimulation X fuel silentMode s = some (s', Outcome.thrown msg) →
        msg ≠ "Bad state for runSimulation()" →
        ∃ t0 what0, (X.runNextEvent t0).2 = Outcome.thrown what0 ∧
          s' = (callRunNextEvent X t0).1 ∧ msg = collisionMessage s'.lNColl what0) := by
  have hguard : ¬(t.status ≠ ESimulationStatus.INITIALISED ∧
      t.status ≠ ESimulationStatus.PRODUCTION) := by simp [hst]
  have hself : { t with status := ESimulationStatus.PRODUCTION } = t := by
    rcases t with ⟨st, a, b, c, d, e, pl, sch, ops, se, di, ei, er⟩
    simp only at hst
    subst hst
    rfl
  refine ⟨rfl, fun hg fuel => silentLoop_throw X t what hthrow hg fuel, ?_,
    fun hp fuel => printLoop_throw X t what hthrow hp fuel,
    fun hg hp fuel => outputLoop_throw X t what hthrow hg hp fuel, ?_, ?_⟩
  · intro hg fuel
    unfold runSimulation
    rw [if_neg hguard]
    simp only [if_true]
    rw [hself, silentLoop_throw X t what hthrow hg fuel]
  · intro hg hl hp fuel
    have hself2 : { ({ t with status := ESimulationStatus.PRODUCTION } : CSimulation) with
        lPrintLimiter := u64 (t.lNColl + t.lNPrint) } = t := by
      rw [← hl]
      rcases t with ⟨st, a, b, c, d, e, pl, sch, ops, se, di, ei, er⟩
      simp only at hst
      subst hst
      rfl
    unfold runSimulation
    rw [if_neg hguard]
    simp only [Bool.false_eq_true, if_false]
    rw [hself2, outputLoop_throw X t what hthrow hg hp fuel]
  · intro fuel silentMode s s' msg h hne
    rcases runSimulation_thrown_inv X fuel silentMode s s' msg h with h1 | h1
    · exact absurd h1.1 hne
    · exact h1

/-- Witness of C13: the third event of a run throws " reverse time"; in the
state with `lNColl = 2` the silent run ends at once with that state, one more
call recorded, and the message built from the count 2 and the original
message. -/
theorem exception_surfaced_witness :
    (failingEnv.runNextEvent
        (exampleSimulation ESimulationStatus.PRODUCTION 2 5 3 [] (some ⟨0⟩))).2 =
        Outcome.thrown " reverse time" ∧
      runSimulation failingEnv 1 true
          (exampleSimulation ESimulationStatus.PRODUCTION 2 5 3 [] (some ⟨0⟩)) =
        some ({ exampleSimulation ESimulationStatus.PRODUCTION 2 5 3 [] (some ⟨0⟩) with
                eventsRun := 1 },
          Outcome.thrown (collisionMessage 2 " reverse time")) :=
  ⟨rfl, (exception_surfaced failingEnv
    (exampleSimulation ESimulationStatus.PRODUCTION 2 5 3 [] (some ⟨0⟩)) " reverse time"
    rfl rfl).2.2.1 (by decide) 0⟩

/-- A whole run with the failing third event, in both modes: two events are
executed, the third throws, and `runSimulation` throws with three calls
recorded and no periodic output made. -/
theorem exception_surfaced_example :
    runSimulation failingEnv 10 true
        (exampleSimulation ESimulationStatus.INITIALISED 0 5 3 [] (some ⟨0⟩)) =
      some ({ exampleSimulation ESimulationStatus.PRODUCTION 2 5 3 [] (some ⟨0⟩) with
              eventsRun := 3 },
        Outcome.thrown (collisionMessage 2 " reverse time")) ∧
      runSimulation failingEnv 10 false
        (exampleSimulation ESimulationStatus.INITIALISED 0 5 3 [] (some ⟨0⟩)) =
      some ({ exampleSimulation ESimulationStatus.PRODUCTION 2 5 3 [] (some ⟨0⟩) with
              eventsRun := 3, lPrintLimiter := 3 },
        Outcome.thrown (collisionMessage 2 " reverse time")) := by
  constructor <;> rfl

/-! ## Shutdown -/

theorem simShutdown_guards (s : CSimulation) :
    (simShutdown s).lNColl = s.lNColl ∧ (simShutdown s).lMaxNColl = s.lNColl ∧
      (simShutdown s).lPrintLimiter = s.lNColl ∧
      ¬ (simShutdown s).lNColl < (simShutdown s).lMaxNColl ∧
      ¬ (simShutdown s).lNColl < (simShutdown s).lPrintLimiter :=
  ⟨rfl, rfl, rfl, lt_irrefl _, lt_irrefl _⟩

/-- C14. Cooperative shutdown. `simShutdown` sets `lPrintLimiter` and
`lMaxNColl` to `lNColl`, so both loop guards are false. Let `t` be the state
when the event that was executing has completed: the limits are those of the
shutdown and `lNColl` is not below them. Then, whatever the counters, `lNPrint`
and the mode are, the silent loop and the inner and outer loops of the
periodic-output mode started or resumed in `t` return without calling
`runNextEvent`, also after the periodic work that follows the inner loop, and
a later `runSimulation` call returns having executed zero events. -/
theorem cooperative_shutdown (X : SimEnv) (s t : CSimulation) (fuel : Nat)
    (silentMode : Bool) (hM : t.lMaxNColl ≤ t.lNColl) (hP : t.lPrintLimiter ≤ t.lNColl) :
    ((simShutdown s).lMaxNColl = s.lNColl ∧ (simShutdown s).lPrintLimiter = s.lNColl ∧
        (simShutdown s).lNColl = s.lNColl ∧
        ¬ (simShutdown s).lNColl < (simShutdown s).lMaxNColl ∧
        ¬ (simShutdown s).lNColl < (simShutdown s).lPrintLimiter) ∧
      silentLoop X (fuel + 1) t = some (t, Outcome.ok) ∧
      printLoop X (fuel + 1) t = some (t, Outcome.ok) ∧
      outputLoop X (fuel + 1) t = some (t, Outcome.ok) ∧
      outputLoop X (fuel + 1)
          { periodicWork t with
            lPrintLimiter := u64 ((periodicWork t).lPrintLimiter + (periodicWork t).lNPrint) } =
        some ({ periodicWork t with
            lPrintLimiter := u64 ((periodicWork t).lPrintLimiter + (periodicWork t).lNPrint) },
          Outcome.ok) ∧
      ∃ r, runSimulation X (fuel + 1) silentMode t = some r ∧
        r.1.eventsRun = t.eventsRun ∧ r.1.lNColl = t.lNColl ∧
        r.1.lMaxNColl = t.lMaxNColl := by
  have hg : ¬ t.lNColl < t.lMaxNColl := by omega
  have hp : ¬ t.lNColl < t.lPrintLimiter := by omega
  refine ⟨⟨rfl, rfl, rfl, lt_irrefl _, lt_irrefl _⟩, ?_, ?_, ?_, ?_, ?_⟩
  · rw [silentLoop, if_neg hg]
  · rw [printLoop, if_neg hp]
  · rw [outputLoop, if_neg hg]
  · rw [outputLoop, if_neg (by show ¬ t.lNColl < t.lMaxNColl; exact hg)]
  · unfold runSimulation
    by_cases hst : t.status ≠ ESimulationStatus.INITIALISED ∧
        t.status ≠ ESimulationStatus.PRODUCTION
    · rw [if_pos hst]
      exact ⟨_, rfl, rfl, rfl, rfl⟩
    · rw [if_neg hst]
      cases silentMode with
      | true =>
        simp only [if_true]
        rw [silentLoop, if_neg (by show ¬ t.lNColl < t.lMaxNColl; exact hg)]
        exact ⟨_, rfl, rfl, rfl, rfl⟩
      | false =>
        simp only [Bool.false_eq_true, if_false]
        rw [outputLoop, if_neg (by show ¬ t.lNColl < t.lMaxNColl; exact hg)]
        exact ⟨_, rfl, rfl, rfl, rfl⟩

/-- Witness of C14: a run of 5 events with print interval 3 is shut down
while its second event executes; the event completes (`lNColl = 2`, limits at
1) and neither mode runs another event. -/
theorem cooperative_shutdown_witness :
    (quietEnv.runNextEvent
        (simShutdown (exampleSimulation ESimulationStatus.PRODUCTION 1 5 3 [] (some ⟨0⟩)))).1 =
        { exampleSimulation ESimulationStatus.PRODUCTION 2 1 3 [] (some ⟨0⟩) with
          lPrintLimiter := 1 } ∧
      silentLoop quietEnv 1
          { exampleSimulation ESimulationStatus.PRODUCTION 2 1 3 [] (some ⟨0⟩) with
            lPrintLimiter := 1 } =
        some ({ exampleSimulation ESimulationStatus.PRODUCTION 2 1 3 [] (some ⟨0⟩) with
            lPrintLimiter := 1 }, Outcome.ok) ∧
      ∃ r, runSimulation quietEnv 1 false
          { exampleSimulation ESimulationStatus.PRODUCTION 2 1 3 [] (some ⟨0⟩) with
            lPrintLimiter := 1 } = some r ∧ r.1.eventsRun = 0 := by
  have h := cooperative_shutdown quietEnv
    (exampleSimulation ESimulationStatus.PRODUCTION 1 5 3 [] (some ⟨0⟩))
    { exampleSimulation ESimulationStatus.PRODUCTION 2 1 3 [] (some ⟨0⟩) with
      lPrintLimiter := 1 } 0 false (by decide) (by decide)
  obtain ⟨r, hr1, hr2, _⟩ := h.2.2.2.2.2
  exact ⟨rfl, h.2.1, r, hr1, hr2⟩

/-! ## A second initialisation -/

/-- C15. A call of `initialise` on a simulation that is not in state
`CONFIG_LOADED`, as every call after a first one that succeeded is. The call
throws: what `addSystemTicker` throws if it does, and otherwise
"Sim initialised at wrong time". The status and every other member are as
before, except for two that are written ahead of the test of the status:
the output plugins, which `std::sort` has sorted once more (the plugins of
before, ordered by update order, in the order `std::sort` leaves them), and
the system events, which are those `addSystemTicker` leaves when a ticker
plugin is loaded. The plugin order is that of before exactly when `std::sort`
gives the list back as it was. -/
theorem initialise_second_call (X : SimEnv) (s : CSimulation)
    (hst : s.status ≠ ESimulationStatus.CONFIG_LOADED) :
    (∃ msg, (initialise X s).2 = Outcome.thrown msg) ∧
      (initialise X s).1 =
        { s with
          outputPlugins := sortPlugins X s.outputPlugins
          systemEvents :=
            if (sortPlugins X s.outputPlugins).any (fun p => p.isTicker) = true
            then (X.addSystemTicker
              { s with outputPlugins := sortPlugins X s.outputPlugins }).1
            else s.systemEvents } ∧
      (initialise X s).1.status = s.status ∧
      List.Perm (initialise X s).1.outputPlugins s.outputPlugins ∧
      List.Sorted (fun a b => a.updateOrder ≤ b.updateOrder)
        (initialise X s).1.outputPlugins ∧
      (((sortPlugins X s.outputPlugins).any (fun p => p.isTicker) = false ∨
          (X.addSystemTicker { s with outputPlugins := sortPlugins X s.outputPlugins }).2 =
            Outcome.ok) →
        (initialise X s).2 = Outcome.thrown "Sim initialised at wrong time") ∧
      ((initialise X s).1.outputPlugins = s.outputPlugins ↔
        X.stdSort s.outputPlugins = s.outputPlugins) := by
  have hmain : (∃ msg, (initialise X s).2 = Outcome.thrown msg) ∧
      (initialise X s).1 =
        { s with
          outputPlugins := sortPlugins X s.outputPlugins
          systemEvents :=
            if (sortPlugins X s.outputPlugins).any (fun p => p.isTicker) = true
            then (X.addSystemTicker
              { s with outputPlugins := sortPlugins X s.outputPlugins }).1
            else s.systemEvents } ∧
      (((sortPlugins X s.outputPlugins).any (fun p => p.isTicker) = false ∨
          (X.addSystemTicker { s with outputPlugins := sortPlugins X s.outputPlugins }).2 =
            Outcome.ok) →
        (initialise X s).2 = Outcome.thrown "Sim initialised at wrong time") := by
    by_cases hn : (sortPlugins X s.outputPlugins).any (fun p => p.isTicker) = true
    · cases ht : (X.addSystemTicker
          { s with outputPlugins := sortPlugins X s.outputPlugins }).2 with
      | thrown m =>
        refine ⟨⟨m, by simp [initialise, hn, ht]⟩, by simp [initialise, hn, ht], ?_⟩
        rintro (h | h)
        · rw [hn] at h; cases h
        · cases h
      | ok =>
        exact ⟨⟨"Sim initialised at wrong time", by simp [initialise, hn, ht, hst]⟩,
          by simp [initialise, hn, ht, hst], fun _ => by simp [initialise, hn, ht, hst]⟩
    · exact ⟨⟨"Sim initialised at wrong time", by simp [initialise, hn, hst]⟩,
        by simp [initialise, hn, hst], fun _ => by simp [initialise, hn, hst]⟩
  obtain ⟨h1, h2, h3⟩ := hmain
  refine ⟨h1, h2, ?_, ?_, ?_, h3, ?_⟩
  · rw [h2]
  · rw [h2]; exact sortPlugins_perm X _
  · rw [h2]; exact sortPlugins_sorted X _
  · rw [h2]; exact Iff.rfl

/-- Witness of C15, the code at the failing input: seventeen output plugins
of one update order, no ticker among them, and a sort that, as the sort of
the GNU standard library, does not keep the order of plugins that compare
equal. The first call of `initialise` returns normally with status
`INITIALISED`. The second call throws "Sim initialised at wrong time" and
leaves the status and the system events as they were, but it has sorted the
plugins before testing the status: they are in another order than after the
first call. -/
theorem initialise_second_call_witness :
    (initialise reorderingEnv seventeenSimulation).2 = Outcome.ok ∧
      (initialise reorderingEnv seventeenSimulation).1.status =
        ESimulationStatus.INITIALISED ∧
      (initialise reorderingEnv seventeenSimulation).1.status ≠
        ESimulationStatus.CONFIG_LOADED ∧
      (initialise reorderingEnv seventeenSimulation).1.outputPlugins.map
          (fun p => p.periodicCalls) =
        [8, 16, 15, 14, 13, 12, 11, 10, 9, 0, 7, 6, 5, 4, 3, 2, 1] ∧
      (initialise reorderingEnv (initialise reorderingEnv seventeenSimulation).1).2 =
        Outcome.thrown "Sim initialised at wrong time" ∧
      (initialise reorderingEnv (initialise reorderingEnv seventeenSimulation).1).1.status =
        ESimulationStatus.INITIALISED ∧
      (initialise reorderingEnv
          (initialise reorderingEnv seventeenSimulation).1).1.systemEvents =
        (initialise reorderingEnv seventeenSimulation).1.systemEvents ∧
      (initialise reorderingEnv
          (initialise reorderingEnv seventeenSimulation).1).1.outputPlugins.map
          (fun p => p.periodicCalls) =
        [9, 1, 2, 3, 4, 5, 6, 7, 0, 8, 10, 11, 12, 13, 14, 15, 16] ∧
      (initialise reorderingEnv
          (initialise reorderingEnv seventeenSimulation).1).1.outputPlugins ≠
        (initialise reorderingEnv seventeenSimulation).1.outputPlugins := by
  have hne : (initialise reorderingEnv seventeenSimulation).1.status ≠
      ESimulationStatus.CONFIG_LOADED := by decide
  have hsort : reorderingEnv.stdSort
      (initialise reorderingEnv seventeenSimulation).1.outputPlugins ≠
      (initialise reorderingEnv seventeenSimulation).1.outputPlugins := by decide
  obtain ⟨_, _, h3, _, _, h6, h7⟩ := initialise_second_call reorderingEnv
    (initialise reorderingEnv seventeenSimulation).1 hne
  refine ⟨by decide, by decide, hne, by decide, h6 (Or.inl (by decide)), ?_, by decide,
    by decide, fun h => hsort (h7.mp h)⟩
  rw [h3]
  decide

/-! ## Replica exchange -/

theorem Poly.eval_add (p q : Poly) (x : ℚ) :
    Poly.eval (Poly.add p q) x = Poly.eval p x + Poly.eval q x := by
  induction p generalizing q with
  | nil => simp [Poly.add, Poly.eval]
  | cons a as ih =>
    cases q with
    | nil => simp [Poly.add, Poly.eval]
    | cons b bs =>
      simp only [Poly.add, Poly.eval, ih]
      ring

theorem Poly.eval_scale (k : ℚ) (p : Poly) (x : ℚ) :
    Poly.eval (Poly.scale k p) x = k * Poly.eval p x := by
  induction p with
  | nil => simp [Poly.scale, Poly.eval]
  | cons a as ih =>
    simp only [Poly.scale, List.map_cons, Poly.eval] at ih ⊢
    rw [ih]
    ring

theorem Poly.eval_mul (p q : Poly) (x : ℚ) :
    Poly.eval (Poly.mul p q) x = Poly.eval p x * Poly.eval q x := by
  induction p with
  | nil => simp [Poly.mul, Poly.eval]
  | cons a as ih =>
    simp only [Poly.mul, Poly.eval_add, Poly.eval_scale, Poly.eval, ih]
    ring

theorem Poly.eval_shift_function (p : Poly) (s x : ℚ) :
    Poly.eval (Poly.shift_function p s) x = Poly.eval p (x + s) := by
  induction p with
  | nil => simp [Poly.shift_function, Poly.eval]
  | cons c cs ih =>
    simp only [Poly.shift_function, Poly.eval_add, Poly.eval_mul, Poly.eval, ih]
    ring

theorem Poly.eval_fromRoots (sign : ℚ) (roots : List ℚ) (x : ℚ) :
    Poly.eval (Poly.fromRoots sign roots) x = sign * (roots.map (fun r => x - r)).prod := by
  induction roots with
  | nil => simp [Poly.fromRoots, Poly.eval]
  | cons r rs ih =>
    simp only [Poly.fromRoots, Poly.eval_mul, Poly.eval, ih, List.map_cons, List.prod_cons]
    ring

theorem Poly.eval_derivativeFrom (n : ℚ) (p : Poly) (x : ℚ) :
    Poly.eval (Poly.derivativeFrom n p) x =
      n * Poly.eval p x + x * Poly.eval (Poly.derivative p) x := by
  induction p generalizing n with
  | nil => simp [Poly.derivativeFrom, Poly.derivative, Poly.eval]
  | cons c cs ih =>
    simp only [Poly.derivativeFrom, Poly.derivative, Poly.eval, ih]
    ring

theorem Poly.eval_derivative_cons (c : ℚ) (cs : Poly) (x : ℚ) :
    Poly.eval (Poly.derivative (c :: cs)) x =
      Poly.eval cs x + x * Poly.eval (Poly.derivative cs) x := by
  simp only [Poly.derivative, Poly.eval_derivativeFrom]
  ring

theorem Poly.eval_derivative_add (p q : Poly) (x : ℚ) :
    Poly.eval (Poly.derivative (Poly.add p q)) x =
      Poly.eval (Poly.derivative p) x + Poly.eval (Poly.derivative q) x := by
  induction p generalizing q with
  | nil => simp [Poly.add, Poly.derivative, Poly.eval]
  | cons a as ih =>
    cases q with
    | nil => simp [Poly.add, Poly.derivative, Poly.eval]
    | cons b bs =>
      simp only [Poly.add, Poly.eval_derivative_cons, Poly.eval_add, ih]
      ring

theorem Poly.eval_derivative_scale (k : ℚ) (p : Poly) (x : ℚ) :
    Poly.eval (Poly.derivative (Poly.scale k p)) x =
      k * Poly.eval (Poly.derivative p) x := by
  induction p with
  | nil => simp [Poly.scale, Poly.derivative, Poly.eval]
  | cons a as ih =>
    have h : Poly.scale k (a :: as) = (k * a) :: Poly.scale k as := rfl
    rw [h, Poly.eval_derivative_cons, Poly.eval_derivative_cons, ih, Poly.eval_scale]
    ring

/-- The product rule. -/
theorem Poly.eval_derivative_mul (p q : Poly) (x : ℚ) :
    Poly.eval (Poly.derivative (Poly.mul p q)) x =
      Poly.eval (Poly.derivative p) x * Poly.eval q x +
        Poly.eval p x * Poly.eval (Poly.derivative q) x := by
  induction p with
  | nil => simp [Poly.mul, Poly.derivative, Poly.eval]
  | cons a as ih =>
    simp only [Poly.mul, Poly.eval_derivative_add, Poly.eval_derivative_scale,
      Poly.eval_derivative_cons, Poly.eval_mul, Poly.eval, ih]
    ring

theorem Poly.eval_derivative_shift_function (p : Poly) (s x : ℚ) :
    Poly.eval (Poly.derivative (Poly.shift_function p s)) x =
      Poly.eval (Poly.derivative p) (x + s) := by
  induction p with
  | nil => simp [Poly.shift_function, Poly.derivative, Poly.eval]
  | cons c cs ih =>
    have h1 : Poly.eval (Poly.derivative [c]) x = 0 := by
      simp [Poly.derivative, Poly.derivativeFrom, Poly.eval]
    have h2 : Poly.eval (Poly.derivative [s, 1]) x = 1 := by
      simp [Poly.derivative, Poly.derivativeFrom, Poly.eval]
    have h3 : Poly.eval [s, 1] x = s + x := by
      simp [Poly.eval]
    rw [Poly.shift_function, Poly.eval_derivative_add, Poly.eval_derivative_mul, h1, h2, h3,
      Poly.eval_shift_function, ih, Poly.eval_derivative_cons]
    ring

/-! ## The earliest of a list of times -/

theorem earliest_eq_HUGE_VAL (l : List ℚ) : earliest l = SysTime.HUGE_VAL ↔ l = [] := by
  cases l with
  | nil => simp [earliest]
  | cons r rs =>
    simp only [earliest]
    cases earliest rs <;> simp

theorem earliest_finite (l : List ℚ) :
    ∀ m, earliest l = SysTime.finite m → m ∈ l ∧ ∀ x ∈ l, m ≤ x := by
  induction l with
  | nil => intro m h; simp [earliest] at h
  | cons r rs ih =>
    intro m h
    simp only [earliest] at h
    cases hrs : earliest rs with
    | HUGE_VAL =>
      rw [hrs] at h
      simp only [SysTime.finite.injEq] at h
      have hnil := (earliest_eq_HUGE_VAL rs).mp hrs
      subst hnil
      subst h
      simp
    | finite k =>
      rw [hrs] at h
      simp only [SysTime.finite.injEq] at h
      obtain ⟨hk1, hk2⟩ := ih k hrs
      subst h
      constructor
      · rcases le_total r k with hle | hle
        · rw [min_eq_left hle]; exact List.mem_cons_self _ _
        · rw [min_eq_right hle]; exact List.mem_cons_of_mem _ hk1
      · intro x hx
        rcases List.mem_cons.mp hx with hx | hx
        · rw [hx]; exact min_le_left _ _
        · exact le_trans (min_le_right _ _) (hk2 x hx)

theorem earliest_of_mem (l : List ℚ) (x : ℚ) (hx : x ∈ l) :
    ∃ m, earliest l = SysTime.finite m := by
  cases h : earliest l with
  | HUGE_VAL =>
    rw [(earliest_eq_HUGE_VAL l).mp h] at hx
    simp at hx
  | finite m => exact ⟨m, rfl⟩

/-! ## The derivative at the first positive root -/

theorem Poly.eval_const (c x : ℚ) : Poly.eval [c] x = c := by
  simp [Poly.eval]

theorem Poly.eval_linear (c0 c1 x : ℚ) : Poly.eval [c0, c1] x = c0 + x * c1 := by
  simp [Poly.eval]

theorem Poly.eval_derivative_const (c x : ℚ) : Poly.eval (Poly.derivative [c]) x = 0 := by
  simp [Poly.derivative, Poly.derivativeFrom, Poly.eval]

theorem Poly.eval_derivative_linear (c0 c1 x : ℚ) :
    Poly.eval (Poly.derivative [c0, c1]) x = c1 := by
  simp [Poly.derivative, Poly.derivativeFrom, Poly.eval]

theorem same_side (s y x : ℚ) (hsy : s < y) (h : x < s ∨ y < x) :
    0 < (y - x) * (s - x) := by
  rcases h with h | h
  · exact mul_pos (by linarith) (by linarith)
  · exact mul_pos_of_neg_of_neg (by linarith) (by linarith)

theorem neg_of_pos_of_mul_neg (f d : ℚ) (hf : 0 < f) (h : f * d < 0) : d < 0 := by
  by_contra hd
  have := mul_nonneg hf.le (not_lt.mp hd)
  linarith

theorem deriv_sign1 (sign s a : ℚ) (hsa : s < a) (hf : 0 < sign * (s - a)) : sign < 0 := by
  by_contra h
  have h1 : sign * (s - a) ≤ 0 :=
    mul_nonpos_of_nonneg_of_nonpos (not_lt.mp h) (by linarith)
  linarith

theorem deriv_sign2 (sign s a b : ℚ) (hsa : s < a) (hb : b < s ∨ a < b)
    (hf : 0 < sign * ((s - a) * (s - b))) : sign * (a - b) < 0 := by
  have hp := same_side s a b hsa hb
  have hs : sign ≠ 0 := by
    rintro rfl
    simp at hf
  have hs2 : 0 < sign * sign := mul_self_pos.mpr hs
  apply neg_of_pos_of_mul_neg _ _ hf
  have key : sign * ((s - a) * (s - b)) * (sign * (a - b)) =
      (s - a) * (sign * sign) * ((a - b) * (s - b)) := by ring
  rw [key]
  exact mul_neg_of_neg_of_pos (mul_neg_of_neg_of_pos (by linarith) hs2) hp

theorem deriv_sign3 (sign s a b c : ℚ) (hsa : s < a) (hb : b < s ∨ a < b)
    (hc : c < s ∨ a < c) (hf : 0 < sign * ((s - a) * (s - b) * (s - c))) :
    sign * ((a - b) * (a - c)) < 0 := by
  have hp := same_side s a b hsa hb
  have hq := same_side s a c hsa hc
  have hs : sign ≠ 0 := by
    rintro rfl
    simp at hf
  have hs2 : 0 < sign * sign := mul_self_pos.mpr hs
  apply neg_of_pos_of_mul_neg _ _ hf
  have key : sign * ((s - a) * (s - b) * (s - c)) * (sign * ((a - b) * (a - c))) =
      (s - a) * (sign * sign) * (((a - b) * (s - b)) * ((a - c) * (s - c))) := by ring
  rw [key]
  exact mul_neg_of_neg_of_pos (mul_neg_of_neg_of_pos (by linarith) hs2) (mul_pos hp hq)

/-- A root `x` other than the first root `y` after `s` lies before `s` or
after `y`, when `s` itself is not a root. -/
theorem other_root_side (s y x : ℚ) (hmin : s < x → y ≤ x) (hne : x ≠ y) (hs : x ≠ s) :
    x < s ∨ y < x := by
  rcases lt_trichotomy x s with h | h | h
  · exact Or.inl h
  · exact absurd h hs
  · exact Or.inr (lt_of_le_of_ne (hmin h) (Ne.symm hne))

/-- At the first root after `s` of a polynomial with at most three roots, all
distinct, that is positive at `s`, the derivative is negative. -/
theorem first_root_derivative (sign s : ℚ) (roots : List ℚ) (hlen : roots.length ≤ 3)
    (hnd : roots.Nodup) (y : ℚ) (hy : y ∈ roots) (hsy : s < y)
    (hmin : ∀ x ∈ roots, s < x → y ≤ x)
    (hf : 0 < Poly.eval (Poly.fromRoots sign roots) s) :
    Poly.eval (Poly.derivative (Poly.fromRoots sign roots)) y < 0 := by
  match roots, hlen, hnd, hy, hmin, hf with
  | [], _, _, hy, _, _ => simp at hy
  | [a], _, _, hy, _, hf =>
    simp only [List.mem_singleton] at hy
    subst hy
    simp only [Poly.fromRoots, Poly.eval_derivative_mul, Poly.eval_mul, Poly.eval_const,
      Poly.eval_linear, Poly.eval_derivative_const, Poly.eval_derivative_linear] at hf ⊢
    convert deriv_sign1 sign s y hsy (by convert hf using 1; ring) using 1
    ring
  | [a, b], _, hnd, hy, hmin, hf =>
    simp only [Poly.fromRoots, Poly.eval_derivative_mul, Poly.eval_mul, Poly.eval_const,
      Poly.eval_linear, Poly.eval_derivative_const, Poly.eval_derivative_linear] at hf ⊢
    have hab : a ≠ b := by
      intro h; subst h; simp at hnd
    have has : a ≠ s := by
      intro h; subst h; simp at hf
    have hbs : b ≠ s := by
      intro h; subst h; simp at hf
    simp only [List.mem_cons, List.mem_singleton, List.not_mem_nil, or_false] at hy
    rcases hy with hy | hy
    · subst hy
      have hb := other_root_side s y b (hmin b (by simp)) (Ne.symm hab) hbs
      convert deriv_sign2 sign s y b hsy hb (by convert hf using 1; ring) using 1
      ring
    · subst hy
      have ha := other_root_side s y a (hmin a (by simp)) hab has
      convert deriv_sign2 sign s y a hsy ha (by convert hf using 1; ring) using 1
      ring
  | [a, b, c], _, hnd, hy, hmin, hf =>
    simp only [Poly.fromRoots, Poly.eval_derivative_mul, Poly.eval_mul, Poly.eval_const,
      Poly.eval_linear, Poly.eval_derivative_const, Poly.eval_derivative_linear] at hf ⊢
    have hab : a ≠ b := by
      intro h; subst h; simp at hnd
    have hac : a ≠ c := by
      intro h; subst h; simp at hnd
    have hbc : b ≠ c := by
      intro h; subst h; simp at hnd
    have has : a ≠ s := by
      intro h; subst h; simp at hf
    have hbs : b ≠ s := by
      intro h; subst h; simp at hf
    have hcs : c ≠ s := by
      intro h; subst h; simp at hf
    simp only [List.mem_cons, List.mem_singleton, List.not_mem_nil, or_false] at hy
    rcases hy with hy | hy | hy
    · subst hy
      have hb := other_root_side s y b (hmin b (by simp)) (Ne.symm hab) hbs
      have hc := other_root_side s y c (hmin c (by simp)) (Ne.symm hac) hcs
      convert deriv_sign3 sign s y b c hsy hb hc (by convert hf using 1; ring) using 1
      ring
    · subst hy
      have ha := other_root_side s y a (hmin a (by simp)) hab has
      have hc := other_root_side s y c (hmin c (by simp)) (Ne.symm hbc) hcs
      convert deriv_sign3 sign s y a c hsy ha hc (by convert hf using 1; ring) using 1
      ring
    · subst hy
      have ha := other_root_side s y a (hmin a (by simp)) hac has
      have hb := other_root_side s y b (hmin b (by simp)) hbc hbs
      convert deriv_sign3 sign s y a b hsy ha hb (by convert hf using 1; ring) using 1
      ring
  | _ :: _ :: _ :: _ :: _, hlen, _, _, _, _ =>
    simp at hlen

/-! ## The next event of a function with known roots -/

theorem roots_of_shifted (sign s : ℚ) (hsign : sign ≠ 0) (roots : List ℚ) (u : ℚ) :
    Poly.eval (Poly.shift_function (Poly.fromRoots sign roots) s) u = 0 ↔
      u ∈ roots.map (fun r => r - s) := by
  rw [Poly.eval_shift_function, Poly.eval_fromRoots, mul_eq_zero, List.prod_eq_zero_iff,
    List.mem_map, List.mem_map]
  constructor
  · rintro (h | ⟨r, hr, h⟩)
    · exact absurd h hsign
    · exact ⟨r, hr, by linarith⟩
  · rintro ⟨r, hr, h⟩
    exact Or.inr ⟨r, hr, by linarith⟩

/-- C16, as the model has it. Let `f` be `(t - r1) ... (t - rn) * sign` with
`sign` not zero (linear, quadratic, cubic or of any other degree), shifted by
any offset `s`, with `f(0) >= 0`. `nextEvent` gives a result, never an error.
When `f` has a strictly positive root at which it is decreasing (`f' < 0`, or
`f' = 0` and `f'' < 0`), the result is the smallest strictly positive root of
`f`; when `f` has no such root, the result is `HUGE_VAL`. The result passes
`test_solution` for every tolerance that is not negative, so within each of
the tolerances of the tests. When moreover `f(0) > 0` and `f` has at most
three roots, pairwise distinct, the result is `nextroot` and `f` is
decreasing at a finite result. -/
theorem nextEvent_first_approach (sign s : ℚ) (roots : List ℚ) (f : Poly) (known : List ℚ)
    (hsign : sign ≠ 0) (hf : f = Poly.shift_function (Poly.fromRoots sign roots) s)
    (hk : known = roots.map (fun r => r - s)) (h0 : 0 ≤ f.eval 0) :
    ∃ r, nextEvent f known = some r ∧
      ((∃ u, 0 < u ∧ f.eval u = 0 ∧ f.approaching u = true) →
        ∃ t, r = SysTime.finite t ∧ 0 < t ∧ f.eval t = 0 ∧
          ∀ u, 0 < u → f.eval u = 0 → t ≤ u) ∧
      ((∀ u, 0 < u → f.eval u = 0 → f.approaching u = false) → r = SysTime.HUGE_VAL) ∧
      (∀ (precision : Poly → ℚ → ℚ) (droots : List ℚ) (tol : ℚ), 0 ≤ tol →
        test_solution precision f known droots r tol = true) ∧
      (0 < f.eval 0 → roots.Nodup → roots.length ≤ 3 →
        r = nextroot known ∧ ∀ t, r = SysTime.finite t → f.approaching t = true) := by
  have hroot : ∀ u, f.eval u = 0 ↔ u ∈ known := by
    intro u
    rw [hf, hk]
    exact roots_of_shifted sign s hsign roots u
  have hmemP : ∀ u, u ∈ known.filter (fun r => decide (0 < r)) ↔ (0 < u ∧ f.eval u = 0) := by
    intro u
    rw [List.mem_filter, decide_eq_true_eq, hroot u]
    exact and_comm
  have hfilt : known.filter (fun r => decide (0 < r ∧ f.eval r = 0)) =
      known.filter (fun r => decide (0 < r)) := by
    apply List.filter_congr
    intro x hx
    have hx0 : f.eval x = 0 := (hroot x).mpr hx
    simp [hx0]
  have hany : known.any (fun r => decide (0 < r ∧ f.eval r = 0) && f.approaching r) = true ↔
      ∃ u, 0 < u ∧ f.eval u = 0 ∧ f.approaching u = true := by
    rw [List.any_eq_true]
    constructor
    · rintro ⟨u, _, h⟩
      simp only [Bool.and_eq_true, decide_eq_true_eq] at h
      exact ⟨u, h.1.1, h.1.2, h.2⟩
    · rintro ⟨u, h1, h2, h3⟩
      refine ⟨u, (hroot u).mp h2, ?_⟩
      simp only [Bool.and_eq_true, decide_eq_true_eq]
      exact ⟨⟨h1, h2⟩, h3⟩
  have hfirst : 0 < f.eval 0 → roots.Nodup → roots.length ≤ 3 →
      ∀ m, m ∈ known.filter (fun r => decide (0 < r)) →
        (∀ x ∈ known.filter (fun r => decide (0 < r)), m ≤ x) → f.approaching m = true := by
    intro hpos hnd hlen m hm hmin
    have hfs : 0 < Poly.eval (Poly.fromRoots sign roots) s := by
      have := hpos
      rw [hf, Poly.eval_shift_function, zero_add] at this
      exact this
    obtain ⟨hm1, hm2⟩ := (hmemP m).mp hm
    have hmk : m ∈ known := (hroot m).mp hm2
    rw [hk, List.mem_map] at hmk
    obtain ⟨y, hy, hym⟩ := hmk
    have hd := first_root_derivative sign s roots hlen hnd y hy (by linarith)
      (fun x hx hsx => by
        have hx' : x - s ∈ known.filter (fun r => decide (0 < r)) := by
          rw [List.mem_filter, decide_eq_true_eq]
          exact ⟨by rw [hk]; exact List.mem_map.mpr ⟨x, hx, rfl⟩, by linarith⟩
        have := hmin _ hx'
        linarith) hfs
    unfold Poly.approaching
    rw [decide_eq_true_eq]
    left
    rw [hf, Poly.eval_derivative_shift_function]
    have hmy : m + s = y := by linarith
    rw [hmy]
    exact hd
  by_cases ha : known.any (fun r => decide (0 < r ∧ f.eval r = 0) && f.approaching r) = true
  · obtain ⟨u, hu1, hu2, _⟩ := hany.mp ha
    obtain ⟨m, hm⟩ := earliest_of_mem _ u ((hmemP u).mpr ⟨hu1, hu2⟩)
    obtain ⟨hm1, hm2⟩ := earliest_finite _ m hm
    obtain ⟨hm3, hm4⟩ := (hmemP m).mp hm1
    have hnr : nextroot known = SysTime.finite m := hm
    refine ⟨SysTime.finite m, ?_, ?_, ?_, ?_, ?_⟩
    · unfold nextEvent
      rw [if_neg (not_lt.mpr h0), if_pos ha, hfilt, hm]
    · intro _
      exact ⟨m, rfl, hm3, hm4, fun v hv1 hv2 => hm2 v ((hmemP v).mpr ⟨hv1, hv2⟩)⟩
    · intro h
      obtain ⟨v, hv1, hv2, hv3⟩ := hany.mp ha
      rw [h v hv1 hv2] at hv3
      cases hv3
    · intro precision droots tol htol
      have hclose : check_is_close m m tol = true := by
        unfold check_is_close
        rw [decide_eq_true_eq, sub_self, abs_zero]
        exact ⟨mul_nonneg (div_nonneg htol (by norm_num)) (abs_nonneg m),
          mul_nonneg (div_nonneg htol (by norm_num)) (abs_nonneg m)⟩
      simp only [test_solution]
      rw [if_neg (ne_of_gt hm3), if_pos h0, hnr]
      exact hclose
    · intro hpos hnd hlen
      refine ⟨hnr.symm, ?_⟩
      intro t ht
      simp only [SysTime.finite.injEq] at ht
      rw [← ht]
      exact hfirst hpos hnd hlen m hm1 hm2
  · have hnone : ∀ u, 0 < u → f.eval u = 0 → f.approaching u = false := by
      intro u hu1 hu2
      cases hap : f.approaching u with
      | false => rfl
      | true => exact absurd (hany.mpr ⟨u, hu1, hu2, hap⟩) ha
    refine ⟨SysTime.HUGE_VAL, ?_, ?_, ?_, ?_, ?_⟩
    · unfold nextEvent
      rw [if_neg (not_lt.mpr h0), if_neg ha]
    · intro h
      exact absurd (hany.mpr h) ha
    · intro _
      rfl
    · intro precision droots tol _
      simp only [test_solution]
      rw [List.all_eq_true]
      intro x hx
      by_cases hx0 : 0 < x
      · rw [hnone x hx0 ((hroot x).mpr hx)]
        simp
      · simp [hx0]
    · intro hpos hnd hlen
      have hnil : known.filter (fun r => decide (0 < r)) = [] := by
        rw [List.eq_nil_iff_forall_not_mem]
        intro u hu
        obtain ⟨v, hv⟩ := earliest_of_mem _ u hu
        obtain ⟨hv1, hv2⟩ := earliest_finite _ v hv
        obtain ⟨hv3, hv4⟩ := (hmemP v).mp hv1
        have := hfirst hpos hnd hlen v hv1 hv2
        rw [hnone v hv3 hv4] at this
        cases this
      refine ⟨?_, ?_⟩
      · unfold nextroot
        rw [hnil]
        rfl
      · intro t ht
        cases ht

theorem fromRoots_scenario : Poly.fromRoots 4 [1 / 2, 3 / 2] = [3, -8, 4] := by
  norm_num [Poly.fromRoots, Poly.mul, Poly.add, Poly.scale]

theorem fromRoots_separating : Poly.fromRoots 4 [0, -1] = [0, 4, 4] := by
  norm_num [Poly.fromRoots, Poly.mul, Poly.add, Poly.scale]

theorem fromRoots_grazing : Poly.fromRoots (-1) [1, 1, 3] = [3, -7, 5, -1] := by
  norm_num [Poly.fromRoots, Poly.mul, Poly.add, Poly.scale]

theorem shift_scenario :
    Poly.shift_function (Poly.fromRoots 4 [1 / 2, 3 / 2]) (1 / 4) = [5 / 4, -6, 4, 0] := by
  rw [fromRoots_scenario]
  norm_num [Poly.shift_function, Poly.mul, Poly.add, Poly.scale]

/-- The spec's scenario: the separation function `(2 - 2t)^2 - 1`, that is
`4 (t - 1/2) (t - 3/2)`, has its next event at `1/2`; after the collision the
function is `(1 + 2t)^2 - 1`, that is `4 t (t + 1)`, and there is no event. -/
theorem nextEvent_scenario :
    Poly.fromRoots 4 [1 / 2, 3 / 2] = [3, -8, 4] ∧
      nextEvent (Poly.fromRoots 4 [1 / 2, 3 / 2]) [1 / 2, 3 / 2] =
        some (SysTime.finite (1 / 2)) ∧
      Poly.fromRoots 4 [0, -1] = [0, 4, 4] ∧
      nextEvent (Poly.fromRoots 4 [0, -1]) [0, -1] = some SysTime.HUGE_VAL := by
  refine ⟨fromRoots_scenario, ?_, fromRoots_separating, ?_⟩
  · rw [fromRoots_scenario]
    norm_num [nextEvent, Poly.eval, Poly.approaching, Poly.derivative, Poly.derivativeFrom,
      earliest, List.filter]
  · rw [fromRoots_separating]
    norm_num [nextEvent, Poly.eval, Poly.approaching, Poly.derivative, Poly.derivativeFrom,
      earliest, List.filter]

/-- A grazing contact before the first crossing: `f = -(t - 1)^2 (t - 3)` has
`f(0) = 3` and the strictly positive roots 1 and 3; at 1 it only touches zero
(`f' = 0`, `f'' = 4`) and at 3 it is decreasing (`f' = -4`). It has a positive
root at which it is decreasing, the result is the smallest strictly positive
root 1, and `test_solution` accepts 1 and rejects 3 at the tolerance of the
cubic test. -/
theorem nextEvent_grazing (precision : Poly → ℚ → ℚ) (droots : List ℚ) :
    (Poly.fromRoots (-1) [1, 1, 3]).eval 0 = 3 ∧
      (Poly.fromRoots (-1) [1, 1, 3]).derivative.eval 3 = -4 ∧
      (Poly.fromRoots (-1) [1, 1, 3]).derivative.eval 1 = 0 ∧
      (Poly.fromRoots (-1) [1, 1, 3]).derivative.derivative.eval 1 = 4 ∧
      nextEvent (Poly.fromRoots (-1) [1, 1, 3]) [1, 1, 3] = some (SysTime.finite 1) ∧
      test_solution precision (Poly.fromRoots (-1) [1, 1, 3]) [1, 1, 3] droots
        (SysTime.finite 1) (1 / 10000) = true ∧
      test_solution precision (Poly.fromRoots (-1) [1, 1, 3]) [1, 1, 3] droots
        (SysTime.finite 3) (1 / 10000) = false := by
  rw [fromRoots_grazing]
  refine ⟨?_, ?_, ?_, ?_, ?_, ?_, ?_⟩
  · norm_num [Poly.eval]
  · norm_num [Poly.eval, Poly.derivative, Poly.derivativeFrom]
  · norm_num [Poly.eval, Poly.derivative, Poly.derivativeFrom]
  · norm_num [Poly.eval, Poly.derivative, Poly.derivativeFrom]
  · norm_num [nextEvent, Poly.eval, Poly.approaching, Poly.derivative, Poly.derivativeFrom,
      earliest, List.filter]
  · norm_num [test_solution, nextroot, check_is_close, Poly.eval, earliest, List.filter]
  · norm_num [test_solution, nextroot, check_is_close, Poly.eval, earliest, List.filter]

/-- Witness of C16: the spec's scenario, shifted by the offset `1/4`: the
function has the strictly positive roots `1/4` and `5/4` and is decreasing at
`1/4`; the next event is at `1/4`, the smallest strictly positive root, and
`test_solution` accepts it at the tolerance of the quadratic test. -/
theorem nextEvent_first_approach_witness :
    (0 : ℚ) ≤ (Poly.shift_function (Poly.fromRoots 4 [1 / 2, 3 / 2]) (1 / 4)).eval 0 ∧
      ∃ r, nextEvent (Poly.shift_function (Poly.fromRoots 4 [1 / 2, 3 / 2]) (1 / 4))
          ([1 / 2, 3 / 2].map (fun r => r - 1 / 4)) = some r ∧
        r = nextroot ([1 / 2, 3 / 2].map (fun r => r - 1 / 4)) ∧
        nextroot ([1 / 2, 3 / 2].map (fun r => r - 1 / 4)) = SysTime.finite (1 / 4) ∧
        test_solution (fun _ _ => 0)
          (Poly.shift_function (Poly.fromRoots 4 [1 / 2, 3 / 2]) (1 / 4))
          ([1 / 2, 3 / 2].map (fun r => r - 1 / 4)) [3 / 4] r (1 / 100000000) = true := by
  have hpos : (0 : ℚ) <
      (Poly.shift_function (Poly.fromRoots 4 [1 / 2, 3 / 2]) (1 / 4)).eval 0 := by
    rw [shift_scenario]
    norm_num [Poly.eval]
  obtain ⟨r, h1, _, _, h3, h4⟩ := nextEvent_first_approach 4 (1 / 4) [1 / 2, 3 / 2]
    (Poly.shift_function (Poly.fromRoots 4 [1 / 2, 3 / 2]) (1 / 4))
    ([1 / 2, 3 / 2].map (fun r => r - 1 / 4)) (by norm_num) rfl rfl hpos.le
  refine ⟨hpos.le, r, h1, (h4 hpos (by norm_num) (by norm_num)).1, ?_,
    h3 _ _ _ (by norm_num)⟩
  norm_num [nextroot, earliest, List.filter]

/-! ## Pairs after a `break` -/

/-- A pair whose loop body ends in `break` ends the loop: the pairs after it
are not examined, whatever they are. -/
theorem pairLoop_brk (E : SleepEnv) (sv : ℚ) (pdat : PairEventData)
    (rest : List PairEventData) (m m' : StateMap)
    (h : pairStep E sv pdat m = (m', Flow.brk)) :
    pairLoop E sv (pdat :: rest) m = (m', Outcome.ok) := by
  simp only [pairLoop, h]

/-- After a pair whose loop body ends in `break`, `particlesUpdated` returns
with the pending map that pair produced, whatever pairs follow in the list. -/
theorem particlesUpdated_brk (E : SleepEnv) (s : SleepSim) (l1 : List ParticleEventData)
    (pdat : PairEventData) (rest : List PairEventData) (m' : StateMap)
    (h : pairStep E s.sleepVelocity pdat s.stateChange = (m', Flow.brk)) :
    (particlesUpdated E ⟨l1, pdat :: rest⟩ s).1.stateChange = m' ∧
      (particlesUpdated E ⟨l1, pdat :: rest⟩ s).2 = Outcome.ok := by
  have hloop : pairLoop E s.sleepVelocity (NEventData.mk l1 (pdat :: rest)).L2partChanges
      s.stateChange = (m', Outcome.ok) := pairLoop_brk E s.sleepVelocity pdat rest _ _ h
  obtain ⟨h1, h2, _⟩ := particlesUpdated_of_loop E ⟨l1, pdat :: rest⟩ s _ hloop
  exact ⟨h2, h1⟩

theorem pairStep_outOfRange :
    pairStep exampleEnv 2 ⟨pairData dynamicTwo, pairData fixedThree⟩ [] = ([], Flow.brk) := by
  simp [pairStep, exampleEnv, pairData, dynamicTwo, fixedThree]

theorem pairStep_bothDynamic :
    pairStep exampleEnv 2 ⟨pairData dynamicOne, pairData dynamicTwo⟩ [] = ([], Flow.brk) := by
  simp [pairStep, exampleEnv, pairData, dynamicOne, dynamicTwo, Particle.testStateDynamic]

theorem pairStep_sleepDecision :
    pairStep exampleEnv 2 ⟨pairData dynamicSlow, pairData fixedTwo⟩ [] =
      ([(1, Vector.zero)], Flow.brk) := by
  have hc : sleepCondition 2 dynamicSlow.vel ⟨0, 0, -1⟩ = true := by
    simp [sleepCondition, Vector.nrmLt, Vector.nrm2, dynamicSlow]
    norm_num
  simp [pairStep, exampleEnv, pairData, dynamicSlow, fixedTwo, Particle.testStateDynamic,
    StateMap.assign]
  simpa [dynamicSlow] using hc

theorem pairStep_wake (p : Particle) (m : StateMap) (hp : p.ID = 1) (hd : p.dynamic = true) :
    pairStep exampleEnv 2 ⟨pairData p, pairData restingFast⟩ m =
      (m.assign 0 ⟨1, 1, 1⟩, Flow.next) := by
  have hc : sleepCondition 2 (Vector.scale (1 / 10) restingFast.vel) ⟨0, 0, -1⟩ = false := by
    simp [sleepCondition, Vector.nrmLt, Vector.nrm2, Vector.scale, restingFast]
    norm_num
  simp [pairStep, exampleEnv, pairData, restingFast, Particle.testStateDynamic, hp, hd]
  simpa [restingFast] using hc

/-- C21, as the code has it. The loop of `particlesUpdated` leaves with `break`
after a pair of which neither particle is in the monitored range, after a pair
of two Dynamic particles and after a sleep decision, so a pair that follows in
the same list is not examined. In each of the three lists below the second
pair is a Dynamic particle hitting the resting particle 0 hard enough to wake
it: applying the per-pair rules to every pair records the wake-up `(1,1,1)`
for particle 0, and `particlesUpdated` does not record it. -/
theorem later_pairs_not_examined :
    ((particlesUpdated exampleEnv
        ⟨[], [⟨pairData dynamicTwo, pairData fixedThree⟩,
          ⟨pairData dynamicOne, pairData restingFast⟩]⟩
        (exampleSim [restingFast, dynamicOne, dynamicTwo, fixedThree] [])).1.stateChange = [] ∧
      pairLoopEveryPair exampleEnv 2
        [⟨pairData dynamicTwo, pairData fixedThree⟩,
          ⟨pairData dynamicOne, pairData restingFast⟩] [] =
        ([(0, ⟨1, 1, 1⟩)], Outcome.ok)) ∧
    ((particlesUpdated exampleEnv
        ⟨[], [⟨pairData dynamicOne, pairData dynamicTwo⟩,
          ⟨pairData dynamicOne, pairData restingFast⟩]⟩
        (exampleSim [restingFast, dynamicOne, dynamicTwo, fixedThree] [])).1.stateChange = [] ∧
      pairLoopEveryPair exampleEnv 2
        [⟨pairData dynamicOne, pairData dynamicTwo⟩,
          ⟨pairData dynamicOne, pairData restingFast⟩] [] =
        ([(0, ⟨1, 1, 1⟩)], Outcome.ok)) ∧
    ((particlesUpdated exampleEnv
        ⟨[], [⟨pairData dynamicSlow, pairData fixedTwo⟩,
          ⟨pairData dynamicSlow, pairData restingFast⟩]⟩
        (exampleSim [restingFast, dynamicSlow, fixedTwo] [])).1.stateChange = [(1, Vector.zero)] ∧
      pairLoopEveryPair exampleEnv 2
        [⟨pairData dynamicSlow, pairData fixedTwo⟩,
          ⟨pairData dynamicSlow, pairData restingFast⟩] [] =
        ([(0, ⟨1, 1, 1⟩), (1, Vector.zero)], Outcome.ok)) := by
  refine ⟨⟨?_, ?_⟩, ⟨?_, ?_⟩, ⟨?_, ?_⟩⟩
  · exact (particlesUpdated_brk exampleEnv
      (exampleSim [restingFast, dynamicOne, dynamicTwo, fixedThree] []) [] _ _ []
      pairStep_outOfRange).1
  · simp only [pairLoopEveryPair, pairStep_outOfRange, pairStep_wake dynamicOne [] rfl rfl]
    rfl
  · exact (particlesUpdated_brk exampleEnv
      (exampleSim [restingFast, dynamicOne, dynamicTwo, fixedThree] []) [] _ _ []
      pairStep_bothDynamic).1
  · simp only [pairLoopEveryPair, pairStep_bothDynamic, pairStep_wake dynamicOne [] rfl rfl]
    rfl
  · exact (particlesUpdated_brk exampleEnv
      (exampleSim [restingFast, dynamicSlow, fixedTwo] []) [] _ _ [(1, Vector.zero)]
      pairStep_sleepDecision).1
  · simp only [pairLoopEveryPair, pairStep_sleepDecision,
      pairStep_wake dynamicSlow [(1, Vector.zero)] rfl rfl]
    rfl

/-! ## The Dynamic/resting pair in which the resting particle re-sleeps -/

/-- The loop body for a Dynamic particle `dp` and a resting particle `sp`, both
in the monitored range, when the sleep condition holds for one tenth of the
velocity of `sp`: `sp` is assigned the zero vector, `dp` the impulse
`-v_sp * m_sp`, replaced by the zero vector when the sleep condition holds for
the corrected velocity of `dp`; the loop then breaks. -/
theorem pairStep_resleep (E : SleepEnv) (sv : ℚ) (pdat : PairEventData) (dp sp : Particle)
    (m : StateMap)
    (hpair : (pdat.particle1_.particle = dp ∧ pdat.particle2_.particle = sp) ∨
      (pdat.particle1_.particle = sp ∧ pdat.particle2_.particle = dp))
    (hdp : dp.testStateDynamic = true) (hdpr : E.isInRange dp = true)
    (hsp : sp.testStateDynamic = false) (hspr : E.isInRange sp = true)
    (hslow : sleepCondition sv (Vector.scale (1 / 10) sp.vel) E.getGravityVector = true) :
    pairStep E sv pdat m =
      ((if sleepCondition sv (Vector.add dp.vel (Vector.divScalar
            (Vector.scale (E.getMass sp) (Vector.neg sp.vel)) (E.getMass dp)))
            E.getGravityVector = true
        then ((m.assign sp.ID Vector.zero).assign dp.ID
            (Vector.scale (E.getMass sp) (Vector.neg sp.vel))).assign dp.ID Vector.zero
        else (m.assign sp.ID Vector.zero).assign dp.ID
            (Vector.scale (E.getMass sp) (Vector.neg sp.vel))), Flow.brk) := by
  have hread : StateMap.read ((m.assign sp.ID Vector.zero).assign dp.ID
      (Vector.scale (E.getMass sp) (Vector.neg sp.vel))) dp.ID =
      Vector.scale (E.getMass sp) (Vector.neg sp.vel) := by
    simp [StateMap.read, StateMap.find_assign_self]
  have hslow' : sleepCondition sv (Vector.scale (1 / 10) sp.vel) E.getGravityVector = true :=
    hslow
  unfold pairStep
  rcases hpair with ⟨ha, hb⟩ | ⟨ha, hb⟩
  · simp only [ha, hb, hdp, hdpr, hsp, hspr, hread, hslow', Bool.not_true, Bool.and_false,
      Bool.false_and, Bool.and_self, Bool.false_eq_true, if_false, if_true, Bool.not_false,
      Bool.and_true]
  · simp only [ha, hb, hdp, hdpr, hsp, hspr, hread, hslow', Bool.not_true, Bool.and_false,
      Bool.false_and, Bool.and_self, Bool.false_eq_true, if_false, if_true, Bool.not_false,
      Bool.and_true]

theorem StateMap.mem_of_find (m : StateMap) (k : Nat) (v : Vector)
    (h : m.find k = some v) : (k, v) ∈ m := by
  induction m with
  | nil => simp [StateMap.find] at h
  | cons e rest ih =>
    unfold StateMap.find at h
    by_cases he : e.1 = k
    · rw [if_pos he] at h
      have hv : e.2 = v := Option.some.inj h
      have : e = (k, v) := by rw [← he, ← hv]
      rw [this]
      exact List.mem_cons_self _ _
    · rw [if_neg he] at h
      exact List.mem_cons_of_mem _ (ih h)

/-- The state that `particlesUpdated` leaves for a single Dynamic/resting
pair of the monitored range in which the resting particle re-sleeps: the call
returns, the particles are untouched, the data stay well formed, the resting
particle has the pending change zero, and the Dynamic particle has the zero
vector when the sleep condition holds for its corrected velocity and the
impulse `-v_sp * m_sp` otherwise. -/
theorem resleep_pair_state (E : SleepEnv) (s : SleepSim) (hs : s.WF)
    (l1 : List ParticleEventData) (pdat : PairEventData) (dp sp : Particle)
    (hpair : (pdat.particle1_.particle = dp ∧ pdat.particle2_.particle = sp) ∨
      (pdat.particle1_.particle = sp ∧ pdat.particle2_.particle = dp))
    (hdp : dp.testStateDynamic = true) (hdpr : E.isInRange dp = true)
    (hsp : sp.testStateDynamic = false) (hspr : E.isInRange sp = true)
    (hid : dp.ID ≠ sp.ID)
    (hldp : s.particleList[dp.ID]? = some dp) (hlsp : s.particleList[sp.ID]? = some sp)
    (hslow : sleepCondition s.sleepVelocity (Vector.scale (1 / 10) sp.vel)
      E.getGravityVector = true) :
    (particlesUpdated E ⟨l1, [pdat]⟩ s).2 = Outcome.ok ∧
      (particlesUpdated E ⟨l1, [pdat]⟩ s).1.WF ∧
      (particlesUpdated E ⟨l1, [pdat]⟩ s).1.particleList = s.particleList ∧
      (sp.ID, Vector.zero) ∈ (particlesUpdated E ⟨l1, [pdat]⟩ s).1.stateChange ∧
      (dp.ID, (if sleepCondition s.sleepVelocity (Vector.add dp.vel (Vector.divScalar
            (Vector.scale (E.getMass sp) (Vector.neg sp.vel)) (E.getMass dp)))
            E.getGravityVector = true
          then Vector.zero else Vector.scale (E.getMass sp) (Vector.neg sp.vel))) ∈
        (particlesUpdated E ⟨l1, [pdat]⟩ s).1.stateChange := by
  have hstep := pairStep_resleep E s.sleepVelocity pdat dp sp s.stateChange hpair hdp hdpr
    hsp hspr hslow
  obtain ⟨h1, h2, h3, _⟩ := particlesUpdated_of_loop E ⟨l1, [pdat]⟩ s _
    (pairLoop_brk E s.sleepVelocity pdat [] _ _ hstep)
  have ho1 : StateMap.Ordered (s.stateChange.assign sp.ID Vector.zero) :=
    StateMap.ordered_assign _ _ _ hs.1
  have ho2 : StateMap.Ordered ((s.stateChange.assign sp.ID Vector.zero).assign dp.ID
      (Vector.scale (E.getMass sp) (Vector.neg sp.vel))) :=
    StateMap.ordered_assign _ _ _ ho1
  have hidx1 : ∀ e ∈ s.stateChange.assign sp.ID Vector.zero,
      ∃ p, s.particleList[e.1]? = some p ∧ p.ID = e.1 := by
    intro e he
    rcases StateMap.mem_assign _ _ _ _ he with he | he
    · rw [he]; exact ⟨sp, hlsp, rfl⟩
    · exact hs.2 e he
  have hidx2 : ∀ e ∈ (s.stateChange.assign sp.ID Vector.zero).assign dp.ID
      (Vector.scale (E.getMass sp) (Vector.neg sp.vel)),
      ∃ p, s.particleList[e.1]? = some p ∧ p.ID = e.1 := by
    intro e he
    rcases StateMap.mem_assign _ _ _ _ he with he | he
    · rw [he]; exact ⟨dp, hldp, rfl⟩
    · exact hidx1 e he
  have hsp2 : StateMap.find ((s.stateChange.assign sp.ID Vector.zero).assign dp.ID
      (Vector.scale (E.getMass sp) (Vector.neg sp.vel))) sp.ID = some Vector.zero := by
    rw [StateMap.find_assign_ne _ _ _ _ (Ne.symm hid)]
    exact StateMap.find_assign_self _ _ _
  by_cases hc : sleepCondition s.sleepVelocity (Vector.add dp.vel (Vector.divScalar
      (Vector.scale (E.getMass sp) (Vector.neg sp.vel)) (E.getMass dp)))
      E.getGravityVector = true
  · rw [if_pos hc] at h2
    rw [if_pos hc]
    refine ⟨h1, ⟨?_, ?_⟩, h3, ?_, ?_⟩
    · rw [h2]; exact StateMap.ordered_assign _ _ _ ho2
    · intro e he
      rw [h2] at he
      rw [h3]
      rcases StateMap.mem_assign _ _ _ _ he with he | he
      · rw [he]; exact ⟨dp, hldp, rfl⟩
      · exact hidx2 e he
    · rw [h2]
      apply StateMap.mem_of_find
      rw [StateMap.find_assign_ne _ _ _ _ (Ne.symm hid)]
      exact hsp2
    · rw [h2]; exact StateMap.mem_assign_self _ _ _
  · rw [if_neg hc] at h2
    rw [if_neg hc]
    refine ⟨h1, ⟨?_, ?_⟩, h3, ?_, ?_⟩
    · rw [h2]; exact ho2
    · intro e he
      rw [h2] at he
      rw [h3]
      exact hidx2 e he
    · rw [h2]; exact StateMap.mem_of_find _ _ _ hsp2
    · rw [h2]; exact StateMap.mem_assign_self _ _ _

/-- C22, as the code has it. A Dynamic particle `dp` and a resting particle
`sp` of the monitored range, where the velocity of `sp` is exactly zero (and
the sleep velocity is positive, so that `sp` re-sleeps): the impulse
`-v_sp * m_sp` recorded for `dp` is the zero vector, which `runEvent` reads as
the decision to sleep. `particlesUpdated` followed by `runEvent` returns, the
event datum of `dp` has type `SLEEP`, and `dp` loses its Dynamic flag and its
velocity, whatever its speed: the sleep condition is not required to hold for
its velocity. -/
theorem still_partner_sleeps_dynamic (E : SleepEnv) (hE : E.KeepsState)
    (s : SleepSim) (hs : s.WF)
    (l1 : List ParticleEventData) (pdat : PairEventData) (dp sp : Particle)
    (hpair : (pdat.particle1_.particle = dp ∧ pdat.particle2_.particle = sp) ∨
      (pdat.particle1_.particle = sp ∧ pdat.particle2_.particle = dp))
    (hdp : dp.testStateDynamic = true) (hdpr : E.isInRange dp = true)
    (hsp : sp.testStateDynamic = false) (hspr : E.isInRange sp = true)
    (hid : dp.ID ≠ sp.ID)
    (hldp : s.particleList[dp.ID]? = some dp) (hlsp : s.particleList[sp.ID]? = some sp)
    (hsv : 0 < s.sleepVelocity) (hv : sp.vel = Vector.zero) :
    ∃ s2 sdat p' d,
      (particlesUpdated E ⟨l1, [pdat]⟩ s).2 = Outcome.ok ∧
      (dp.ID, Vector.zero) ∈ (particlesUpdated E ⟨l1, [pdat]⟩ s).1.stateChange ∧
      runEvent E (particlesUpdated E ⟨l1, [pdat]⟩ s).1 = some (s2, Outcome.ok) ∧
      s2.pluginUpdates = (particlesUpdated E ⟨l1, [pdat]⟩ s).1.pluginUpdates ++
        [(⟨sdat, []⟩, 0 + (particlesUpdated E ⟨l1, [pdat]⟩ s).1.freestreamAcc)] ∧
      d ∈ sdat ∧ d.particle = p' ∧ d.type = EEventType.SLEEP ∧
      s2.particleList[dp.ID]? = some p' ∧
      p'.testStateDynamic = false ∧ p'.vel = Vector.zero := by
  have hslow : sleepCondition s.sleepVelocity (Vector.scale (1 / 10) sp.vel)
      E.getGravityVector = true := by
    rw [hv]
    simp only [sleepCondition, Vector.nrmLt, Vector.nrm2, Vector.scale, Vector.zero,
      mul_zero, add_zero, decide_eq_true_eq]
    exact ⟨hsv, mul_pos hsv hsv⟩
  obtain ⟨h1, hwf, h3, _, h5⟩ := resleep_pair_state E s hs l1 pdat dp sp hpair hdp hdpr
    hsp hspr hid hldp hlsp hslow
  have hJ : Vector.scale (E.getMass sp) (Vector.neg sp.vel) = Vector.zero := by
    rw [hv]
    simp [Vector.scale, Vector.neg, Vector.zero]
  rw [hJ, ite_self] at h5
  have hl : (particlesUpdated E ⟨l1, [pdat]⟩ s).1.particleList[dp.ID]? = some dp := by
    rw [h3]; exact hldp
  obtain ⟨s2, r1, _, _, r4, _, r6, _⟩ :=
    runEvent_spec E hE (particlesUpdated E ⟨l1, [pdat]⟩ s).1 hwf
  have hu : (E.updateParticle dp).dynamic = true := by rw [(hE dp).2]; exact hdp
  have hcl : classify Vector.zero (E.updateParticle dp) = EEventType.SLEEP := by
    simp [classify, Vector.isZero, Vector.zero, Particle.testStateDynamic, hu]
  have hone : runEventParticle E Vector.zero dp =
      (E.updateParticle dp).clearStateDynamic.setVelocity Vector.zero := by
    simp [runEventParticle, hcl, applyType]
  refine ⟨s2, collectedData E (particlesUpdated E ⟨l1, [pdat]⟩ s).1.stateChange
      (particlesUpdated E ⟨l1, [pdat]⟩ s).1.particleList,
    runEventParticle E Vector.zero dp, runEventData E Vector.zero dp, h1, h5, r1, r6,
    mem_collectedData E _ _ (dp.ID, Vector.zero) h5 dp hl, rfl, ?_,
    r4 _ h5 dp hl, ?_, ?_⟩
  · simp [runEventData, eventData, hcl]
  · rw [hone]; rfl
  · rw [hone]; rfl

/-- Witness of C22 as the code has it: the Dynamic particle 1, of speed 5 with
sleep velocity 2, against the resting particle 0 whose velocity is zero. The
sleep condition fails for the velocity of particle 1, with and without the
pending correction, and the particle is put to sleep all the same. -/
theorem still_partner_sleeps_dynamic_witness :
    (exampleSim [restingStill, dynamicOne] []).WF ∧
      restingStill.vel = Vector.zero ∧
      sleepCondition 2 dynamicOne.vel exampleEnv.getGravityVector = false ∧
      sleepCondition 2 (Vector.add dynamicOne.vel (Vector.divScalar
        (Vector.scale (exampleEnv.getMass restingStill) (Vector.neg restingStill.vel))
        (exampleEnv.getMass dynamicOne))) exampleEnv.getGravityVector = false ∧
      ∃ s2 p',
        runEvent exampleEnv
          (particlesUpdated exampleEnv ⟨[], [⟨pairData dynamicOne, pairData restingStill⟩]⟩
            (exampleSim [restingStill, dynamicOne] [])).1 = some (s2, Outcome.ok) ∧
        s2.particleList[1]? = some p' ∧ p'.testStateDynamic = false ∧
        p'.vel = Vector.zero := by
  have hwf : (exampleSim [restingStill, dynamicOne] []).WF :=
    ⟨by simp [exampleSim, StateMap.Ordered], by simp [exampleSim]⟩
  have hc1 : sleepCondition 2 dynamicOne.vel exampleEnv.getGravityVector = false := by
    simp [sleepCondition, Vector.nrmLt, Vector.nrm2, dynamicOne]
    norm_num
  have hc2 : sleepCondition 2 (Vector.add dynamicOne.vel (Vector.divScalar
      (Vector.scale (exampleEnv.getMass restingStill) (Vector.neg restingStill.vel))
      (exampleEnv.getMass dynamicOne))) exampleEnv.getGravityVector = false := by
    simp [sleepCondition, Vector.nrmLt, Vector.nrm2, Vector.add, Vector.divScalar,
      Vector.scale, Vector.neg, dynamicOne, restingStill, exampleEnv]
    norm_num
  refine ⟨hwf, rfl, hc1, hc2, ?_⟩
  obtain ⟨s2, _, p', _, _, _, h3, _, _, _, _, h8, h9, h10⟩ :=
    still_partner_sleeps_dynamic exampleEnv exampleEnv_keepsState
      (exampleSim [restingStill, dynamicOne] []) hwf []
      ⟨pairData dynamicOne, pairData restingStill⟩ dynamicOne restingStill
      (Or.inl ⟨rfl, rfl⟩) rfl (by simp [exampleEnv, dynamicOne]) rfl
      (by simp [exampleEnv, restingStill]) (by simp [dynamicOne, restingStill]) rfl rfl
      (by simp [exampleSim]) rfl
  exact ⟨s2, p', h3, h8, h9, h10⟩

theorem Vector.ne_of_x_ne (a b : Vector) (h : a.x ≠ b.x) : a ≠ b := by
  intro hab
  exact h (by rw [hab])

/-- C23, as the code has it. A single Dynamic/resting pair of the monitored
range in which the resting particle `sp` re-sleeps and the Dynamic particle
`dp` stays Dynamic with a non-zero correction (`CORRECT`), both particles being
up to date at the event. `particlesUpdated` followed by `runEvent` returns;
`sp` is left resting with velocity zero and `dp` Dynamic with velocity
`v_dp - (m_sp / m_dp) v_sp`: the impulse recorded for `dp` is `-m_sp v_sp`.
The total momentum of the pair after the event is the total before minus
`2 m_sp v_sp`, and it is never the total before. -/
theorem resleep_momentum (E : SleepEnv) (hE : E.KeepsState)
    (s : SleepSim) (hs : s.WF)
    (l1 : List ParticleEventData) (pdat : PairEventData) (dp sp : Particle)
    (hpair : (pdat.particle1_.particle = dp ∧ pdat.particle2_.particle = sp) ∨
      (pdat.particle1_.particle = sp ∧ pdat.particle2_.particle = dp))
    (hdp : dp.testStateDynamic = true) (hdpr : E.isInRange dp = true)
    (hsp : sp.testStateDynamic = false) (hspr : E.isInRange sp = true)
    (hid : dp.ID ≠ sp.ID)
    (hldp : s.particleList[dp.ID]? = some dp) (hlsp : s.particleList[sp.ID]? = some sp)
    (hupd : E.updateParticle dp = dp) (hups : E.updateParticle sp = sp)
    (hm : E.getMass dp ≠ 0)
    (hslow : sleepCondition s.sleepVelocity (Vector.scale (1 / 10) sp.vel)
      E.getGravityVector = true)
    (hfast : sleepCondition s.sleepVelocity (Vector.add dp.vel (Vector.divScalar
      (Vector.scale (E.getMass sp) (Vector.neg sp.vel)) (E.getMass dp)))
      E.getGravityVector = false)
    (hJ : Vector.scale (E.getMass sp) (Vector.neg sp.vel) ≠ Vector.zero) :
    ∃ s2 sdat dp' sp' d,
      (particlesUpdated E ⟨l1, [pdat]⟩ s).2 = Outcome.ok ∧
      runEvent E (particlesUpdated E ⟨l1, [pdat]⟩ s).1 = some (s2, Outcome.ok) ∧
      s2.pluginUpdates = (particlesUpdated E ⟨l1, [pdat]⟩ s).1.pluginUpdates ++
        [(⟨sdat, []⟩, 0 + (particlesUpdated E ⟨l1, [pdat]⟩ s).1.freestreamAcc)] ∧
      d ∈ sdat ∧ d.particle = dp' ∧ d.type = EEventType.CORRECT ∧
      s2.particleList[dp.ID]? = some dp' ∧ s2.particleList[sp.ID]? = some sp' ∧
      sp'.testStateDynamic = false ∧ sp'.vel = Vector.zero ∧
      dp'.testStateDynamic = true ∧
      dp'.vel = Vector.add dp.vel (Vector.divScalar
        (Vector.scale (E.getMass sp) (Vector.neg sp.vel)) (E.getMass dp)) ∧
      pairMomentum (E.getMass dp) (E.getMass sp) dp'.vel sp'.vel =
        Vector.add (pairMomentum (E.getMass dp) (E.getMass sp) dp.vel sp.vel)
          (Vector.scale (-2) (Vector.scale (E.getMass sp) sp.vel)) ∧
      pairMomentum (E.getMass dp) (E.getMass sp) dp'.vel sp'.vel ≠
        pairMomentum (E.getMass dp) (E.getMass sp) dp.vel sp.vel := by
  obtain ⟨h1, hwf, h3, h4, h5⟩ := resleep_pair_state E s hs l1 pdat dp sp hpair hdp hdpr
    hsp hspr hid hldp hlsp hslow
  have hfast' : ¬ sleepCondition s.sleepVelocity (Vector.add dp.vel (Vector.divScalar
      (Vector.scale (E.getMass sp) (Vector.neg sp.vel)) (E.getMass dp)))
      E.getGravityVector = true := by
    rw [hfast]; exact Bool.false_ne_true
  rw [if_neg hfast'] at h5
  have hld : (particlesUpdated E ⟨l1, [pdat]⟩ s).1.particleList[dp.ID]? = some dp := by
    rw [h3]; exact hldp
  have hls : (particlesUpdated E ⟨l1, [pdat]⟩ s).1.particleList[sp.ID]? = some sp := by
    rw [h3]; exact hlsp
  obtain ⟨s2, r1, _, _, r4, _, r6, _⟩ :=
    runEvent_spec E hE (particlesUpdated E ⟨l1, [pdat]⟩ s).1 hwf
  have hz : (Vector.scale (E.getMass sp) (Vector.neg sp.vel)).isZero = false := by
    cases h : (Vector.scale (E.getMass sp) (Vector.neg sp.vel)).isZero with
    | false => rfl
    | true => exact absurd ((Vector.isZero_iff _).mp h) hJ
  have hcld : classify (Vector.scale (E.getMass sp) (Vector.neg sp.vel)) dp =
      EEventType.CORRECT := by
    simp [classify, hz, hdp]
  have hcls : classify Vector.zero sp = EEventType.RESLEEP := by
    simp [classify, Vector.isZero, Vector.zero, hsp]
  have hdp' : runEventParticle E (Vector.scale (E.getMass sp) (Vector.neg sp.vel)) dp =
      (dp.setVelocity (Vector.add dp.vel (Vector.divScalar
        (Vector.scale (E.getMass sp) (Vector.neg sp.vel)) (E.getMass dp)))).setStateDynamic := by
    simp only [runEventParticle, hupd, hcld, applyType, Option.getD_some]
  have hsp' : runEventParticle E Vector.zero sp = sp.setVelocity Vector.zero := by
    simp only [runEventParticle, hups, hcls, applyType, Option.getD_some]
  have hx : ∀ a b c : ℚ, c ≠ 0 → c * (a + b / c) = c * a + b := by
    intro a b c hc
    field_simp
    ring
  have hmom : pairMomentum (E.getMass dp) (E.getMass sp)
      (Vector.add dp.vel (Vector.divScalar
        (Vector.scale (E.getMass sp) (Vector.neg sp.vel)) (E.getMass dp))) Vector.zero =
      Vector.add (pairMomentum (E.getMass dp) (E.getMass sp) dp.vel sp.vel)
        (Vector.scale (-2) (Vector.scale (E.getMass sp) sp.vel)) := by
    simp only [pairMomentum, Vector.add, Vector.scale, Vector.divScalar, Vector.neg,
      Vector.zero, hx _ _ _ hm, Vector.mk.injEq]
    refine ⟨?_, ?_, ?_⟩ <;> ring
  refine ⟨s2, collectedData E (particlesUpdated E ⟨l1, [pdat]⟩ s).1.stateChange
      (particlesUpdated E ⟨l1, [pdat]⟩ s).1.particleList,
    runEventParticle E (Vector.scale (E.getMass sp) (Vector.neg sp.vel)) dp,
    runEventParticle E Vector.zero sp,
    runEventData E (Vector.scale (E.getMass sp) (Vector.neg sp.vel)) dp,
    h1, r1, r6, mem_collectedData E _ _ _ h5 dp hld, rfl, ?_,
    r4 _ h5 dp hld, r4 _ h4 sp hls, ?_, ?_, ?_, ?_, ?_, ?_⟩
  · simp [runEventData, eventData, hupd, hcld]
  · rw [hsp']; exact hsp
  · rw [hsp']; rfl
  · rw [hdp']; rfl
  · rw [hdp']; rfl
  · rw [hdp', hsp']
    exact hmom
  · rw [hdp', hsp']
    show pairMomentum (E.getMass dp) (E.getMass sp)
      (Vector.add dp.vel (Vector.divScalar
        (Vector.scale (E.getMass sp) (Vector.neg sp.vel)) (E.getMass dp))) Vector.zero ≠ _
    rw [hmom]
    intro heq
    apply hJ
    have e1 := congrArg Vector.x heq
    have e2 := congrArg Vector.y heq
    have e3 := congrArg Vector.z heq
    simp only [pairMomentum, Vector.add, Vector.scale] at e1 e2 e3
    simp only [Vector.scale, Vector.neg, Vector.zero, Vector.mk.injEq]
    refine ⟨?_, ?_, ?_⟩ <;> linarith

theorem exampleSim_wf_empty (pl : List Particle) : (exampleSim pl []).WF :=
  ⟨by simp [exampleSim, StateMap.Ordered], by simp [exampleSim]⟩

theorem sleepCondition_restingSlow :
    sleepCondition 2 (Vector.scale (1 / 10) restingSlow.vel) exampleEnv.getGravityVector
      = true := by
  simp [sleepCondition, Vector.nrmLt, Vector.nrm2, Vector.scale, restingSlow]
  norm_num

theorem sleepCondition_corrected :
    sleepCondition 2 (Vector.add dynamicOne.vel (Vector.divScalar
      (Vector.scale (exampleEnv.getMass restingSlow) (Vector.neg restingSlow.vel))
      (exampleEnv.getMass dynamicOne))) exampleEnv.getGravityVector = false := by
  simp [sleepCondition, Vector.nrmLt, Vector.nrm2, Vector.add, Vector.divScalar,
    Vector.scale, Vector.neg, dynamicOne, restingSlow, exampleEnv]
  norm_num

/-- Witness of C23 as the code has it: the Dynamic particle 1 (velocity
`(3,4,0)`) and the resting particle 0 that the hit left with velocity
`(1,0,0)`, both of mass 2, with sleep velocity 2. Particle 0 re-sleeps and
particle 1 is corrected to the velocity `(2,4,0)`; the total momentum goes
from `(8,8,0)` to `(4,8,0)`. -/
theorem resleep_momentum_witness :
    (exampleSim [restingSlow, dynamicOne] []).WF ∧
      Vector.scale (exampleEnv.getMass restingSlow) (Vector.neg restingSlow.vel) ≠
        Vector.zero ∧
      ∃ s2 dp' sp',
        runEvent exampleEnv
          (particlesUpdated exampleEnv ⟨[], [⟨pairData dynamicOne, pairData restingSlow⟩]⟩
            (exampleSim [restingSlow, dynamicOne] [])).1 = some (s2, Outcome.ok) ∧
        s2.particleList[1]? = some dp' ∧ s2.particleList[0]? = some sp' ∧
        sp'.vel = Vector.zero ∧ dp'.testStateDynamic = true ∧ dp'.vel = ⟨2, 4, 0⟩ ∧
        pairMomentum 2 2 dynamicOne.vel restingSlow.vel = ⟨8, 8, 0⟩ ∧
        pairMomentum 2 2 dp'.vel sp'.vel = ⟨4, 8, 0⟩ := by
  have hJ : Vector.scale (exampleEnv.getMass restingSlow) (Vector.neg restingSlow.vel) ≠
      Vector.zero := by
    apply Vector.ne_of_x_ne
    simp [Vector.scale, Vector.neg, Vector.zero, restingSlow, exampleEnv]
  refine ⟨exampleSim_wf_empty _, hJ, ?_⟩
  obtain ⟨s2, _, dp', sp', _, _, h2, _, _, _, _, h7, h8, _, h10, h11, h12, _, _⟩ :=
    resleep_momentum exampleEnv exampleEnv_keepsState
      (exampleSim [restingSlow, dynamicOne] []) (exampleSim_wf_empty _) []
      ⟨pairData dynamicOne, pairData restingSlow⟩ dynamicOne restingSlow
      (Or.inl ⟨rfl, rfl⟩) rfl (by simp [exampleEnv, dynamicOne]) rfl
      (by simp [exampleEnv, restingSlow]) (by simp [dynamicOne, restingSlow]) rfl rfl
      rfl rfl (by simp [exampleEnv]) sleepCondition_restingSlow sleepCondition_corrected hJ
  have hv : dp'.vel = ⟨2, 4, 0⟩ := by
    rw [h12]
    simp [Vector.add, Vector.divScalar, Vector.scale, Vector.neg, dynamicOne, restingSlow,
      exampleEnv]
    norm_num
  refine ⟨s2, dp', sp', h2, h7, h8, h10, h11, hv, ?_, ?_⟩
  · simp [pairMomentum, Vector.add, Vector.scale, dynamicOne, restingSlow]
    norm_num
  · rw [hv, h10]
    simp [pairMomentum, Vector.add, Vector.scale, Vector.zero]
    norm_num

/-- Counterexample to C23 as stated: for the Dynamic particle 1 (velocity
`(3,4,0)`) and the resting particle 0 (velocity `(1,0,0)`), of mass 2 and in
the monitored range, particle 0 re-sleeps and particle 1 stays Dynamic, and
the total momentum of the pair after `runEvent` differs from the total before:
particle 1 does not gain the momentum `(2,0,0)` taken from particle 0, it
loses as much. -/
theorem momentum_resleep_counterexample :
    ∃ s2 dp' sp',
      runEvent exampleEnv
        (particlesUpdated exampleEnv ⟨[], [⟨pairData dynamicOne, pairData restingSlow⟩]⟩
          (exampleSim [restingSlow, dynamicOne] [])).1 = some (s2, Outcome.ok) ∧
      s2.particleList[1]? = some dp' ∧ s2.particleList[0]? = some sp' ∧
      sp'.testStateDynamic = false ∧ sp'.vel = Vector.zero ∧
      dp'.testStateDynamic = true ∧
      Vector.scale 2 dp'.vel = ⟨4, 8, 0⟩ ∧ Vector.scale 2 dynamicOne.vel = ⟨6, 8, 0⟩ ∧
      Vector.scale 2 restingSlow.vel = ⟨2, 0, 0⟩ ∧
      pairMomentum 2 2 dp'.vel sp'.vel ≠ pairMomentum 2 2 dynamicOne.vel restingSlow.vel := by
  obtain ⟨_, hwf, h3, h4, h5⟩ := resleep_pair_state exampleEnv
    (exampleSim [restingSlow, dynamicOne] []) (exampleSim_wf_empty _) []
    ⟨pairData dynamicOne, pairData restingSlow⟩ dynamicOne restingSlow
    (Or.inl ⟨rfl, rfl⟩) rfl (by simp [exampleEnv, dynamicOne]) rfl
    (by simp [exampleEnv, restingSlow]) (by simp [dynamicOne, restingSlow]) rfl rfl
    sleepCondition_restingSlow
  have hc : ¬ sleepCondition (exampleSim [restingSlow, dynamicOne] []).sleepVelocity
      (Vector.add dynamicOne.vel (Vector.divScalar
        (Vector.scale (exampleEnv.getMass restingSlow) (Vector.neg restingSlow.vel))
        (exampleEnv.getMass dynamicOne))) exampleEnv.getGravityVector = true := by
    show ¬ sleepCondition 2 _ _ = true
    rw [sleepCondition_corrected]; exact Bool.false_ne_true
  rw [if_neg hc] at h5
  obtain ⟨s2, r1, _, _, r4, _⟩ := runEvent_spec exampleEnv exampleEnv_keepsState _ hwf
  have e1 := r4 _ h5 dynamicOne (by rw [h3]; rfl)
  have e0 := r4 _ h4 restingSlow (by rw [h3]; rfl)
  have hdp : runEventParticle exampleEnv
      (Vector.scale (exampleEnv.getMass restingSlow) (Vector.neg restingSlow.vel)) dynamicOne =
      ⟨1, ⟨1, 0, 0⟩, ⟨2, 4, 0⟩, true⟩ := by
    simp [runEventParticle, exampleEnv, classify, Vector.isZero, Vector.scale, Vector.neg,
      restingSlow, dynamicOne, Particle.testStateDynamic, applyType, Particle.setVelocity,
      Particle.setStateDynamic, Vector.add, Vector.divScalar]
    norm_num
  have hsp : runEventParticle exampleEnv Vector.zero restingSlow =
      ⟨0, ⟨0, 0, 0⟩, ⟨0, 0, 0⟩, false⟩ := by
    simp [runEventParticle, exampleEnv, classify, Vector.isZero, Vector.zero, restingSlow,
      Particle.testStateDynamic, applyType, Particle.setVelocity]
  rw [hdp] at e1
  rw [hsp] at e0
  refine ⟨s2, _, _, r1, e1, e0, rfl, rfl, rfl, ?_, ?_, ?_, ?_⟩
  · simp [Vector.scale]; norm_num
  · simp [Vector.scale, dynamicOne]; norm_num
  · simp [Vector.scale, restingSlow]
  · apply Vector.ne_of_x_ne
    simp [pairMomentum, Vector.add, Vector.scale, dynamicOne, restingSlow]
    norm_num

/-! ## The time of the sleep event -/

/-- After `SSleep::initialise` the scheduling invariant holds. -/
theorem initialise_scheduled (nID : Nat) (s : SleepSim) :
    (SleepSim.initialise nID s).Scheduled := by
  unfold SleepSim.initialise recalculateTime SleepSim.Scheduled
  cases hm : s.stateChange with
  | nil => simp
  | cons e rest => simp

theorem StateMap.assign_ne_nil_list (m : StateMap) (k : Nat) (v : Vector) :
    m.assign k v ≠ [] := by
  intro h
  have h1 := StateMap.assign_ne_nil m k v
  rw [h] at h1
  simp at h1

theorem pairStep_ne_nil (E : SleepEnv) (sv : ℚ) (pdat : PairEventData) (m : StateMap)
    (h : (pairStep E sv pdat m).1 = []) : m = [] := by
  unfold pairStep at h
  simp only at h
  split_ifs at h <;>
    first
      | exact h
      | exact absurd h (StateMap.assign_ne_nil_list _ _ _)

theorem pairLoop_ne_nil (E : SleepEnv) (sv : ℚ) (l : List PairEventData) :
    ∀ m : StateMap, (pairLoop E sv l m).1 = [] → m = [] := by
  induction l with
  | nil => intro m h; exact h
  | cons pdat rest ih =>
    intro m h
    unfold pairLoop at h
    have hstep := pairStep_ne_nil E sv pdat m
    rcases hp : pairStep E sv pdat m with ⟨m', f⟩
    rw [hp] at h hstep
    cases f with
    | next => exact hstep (ih m' h)
    | brk => exact hstep h
    | thrown msg => exact hstep h

/-- A call of `particlesUpdated` that returns keeps the scheduling invariant. -/
theorem particlesUpdated_scheduled (E : SleepEnv) (PDat : NEventData) (s : SleepSim)
    (hs : s.Scheduled) (hok : (particlesUpdated E PDat s).2 = Outcome.ok) :
    (particlesUpdated E PDat s).1.Scheduled := by
  have hnil := pairLoop_ne_nil E s.sleepVelocity PDat.L2partChanges s.stateChange
  unfold particlesUpdated at hok ⊢
  rcases hp : pairLoop E s.sleepVelocity PDat.L2partChanges s.stateChange with ⟨m, o⟩
  rw [hp] at hok hnil
  cases o with
  | thrown msg => simp at hok
  | ok =>
    cases m with
    | nil =>
      have h0 : s.stateChange = [] := hnil rfl
      have hdt : s.dt = SysTime.HUGE_VAL := hs.1.mpr h0
      simp [SleepSim.Scheduled, hdt]
    | cons e rest => simp [SleepSim.Scheduled, recalculateTime]

/-- A `runEvent` that returns for a pending map that is not empty leaves the
map empty and the event time at `-FLT_MAX`: the `particlesUpdated` that
`Sim->signalParticleUpdate` reaches finds the map still filled and calls
`recalculateTime()`. -/
theorem runEvent_leaves_dt (E : SleepEnv) (s s' : SleepSim)
    (h : runEvent E s = some (s', Outcome.ok)) (hne : s.stateChange ≠ []) :
    s'.stateChange = [] ∧ s'.dt = SysTime.finite (-FLT_MAX) ∧
      s'.type = EEventType.SLEEP ∧
      s'.rebuildSystemEvents = s.rebuildSystemEvents + 1 ∧ ¬ s'.Scheduled := by
  have hem : s.stateChange.isEmpty = false := by
    cases hm : s.stateChange with
    | nil => exact absurd hm hne
    | cons e rest => rfl
  unfold runEvent at h
  simp only at h
  rcases hl : runEventLoop E s.stateChange s.stateChange s.particleList [] with _ | ⟨pl, sdat, o⟩
  · rw [hl] at h; simp at h
  · rw [hl] at h
    cases o with
    | thrown msg => simp at h
    | ok =>
      simp only [particlesUpdated, pairLoop, hem, Bool.not_false, if_true, recalculateTime,
        Bool.false_eq_true, if_false, Option.some.injEq, Prod.mk.injEq, and_true] at h
      subst h
      refine ⟨rfl, rfl, rfl, rfl, ?_⟩
      intro hsch
      have := hsch.1.mpr rfl
      simp at this

/-- C24, as the code has it. On well-formed data with a pending map that is
not empty, `runEvent` returns and leaves the map empty and the event time at
`-FLT_MAX`, not at `HUGE_VAL`: `runEvent` sets `dt = HUGE_VAL` on entry, but
the `particlesUpdated` that `Sim->signalParticleUpdate` reaches finds the map
still filled, calls `recalculateTime()` and has the scheduler rebuild its
system events, and the map is cleared only afterwards. The scheduling
invariant, which holds after `initialise` and is kept by `particlesUpdated`,
does not hold after `runEvent`. -/
theorem sleep_event_left_scheduled (E : SleepEnv) (hE : E.KeepsState) (s : SleepSim)
    (hs : s.WF) (hne : s.stateChange ≠ []) :
    ∃ s', runEvent E s = some (s', Outcome.ok) ∧
      s'.stateChange = [] ∧ s'.dt = SysTime.finite (-FLT_MAX) ∧
      s'.type = EEventType.SLEEP ∧
      s'.rebuildSystemEvents = s.rebuildSystemEvents + 1 ∧ ¬ s'.Scheduled := by
  obtain ⟨s', r1, _⟩ := runEvent_spec E hE s hs
  exact ⟨s', r1, runEvent_leaves_dt E s s' r1 hne⟩

/-- Witness of C24 as the code has it: the sleep system initialised with the
pending change zero for the Dynamic particle 1. The invariant holds before
`runEvent`; afterwards the map is empty and `dt` is `-FLT_MAX`. -/
theorem sleep_event_left_scheduled_witness :
    (SleepSim.initialise 0 (exampleSim [restingSlow, dynamicOne] [(1, Vector.zero)])).Scheduled ∧
      (SleepSim.initialise 0
        (exampleSim [restingSlow, dynamicOne] [(1, Vector.zero)])).stateChange ≠ [] ∧
      ∃ s', runEvent exampleEnv
          (SleepSim.initialise 0 (exampleSim [restingSlow, dynamicOne] [(1, Vector.zero)])) =
          some (s', Outcome.ok) ∧
        s'.stateChange = [] ∧ s'.dt = SysTime.finite (-FLT_MAX) ∧ ¬ s'.Scheduled := by
  have hwf : (SleepSim.initialise 0
      (exampleSim [restingSlow, dynamicOne] [(1, Vector.zero)])).WF := by
    refine ⟨by simp [SleepSim.initialise, recalculateTime, exampleSim, StateMap.Ordered], ?_⟩
    intro e he
    simp only [SleepSim.initialise, recalculateTime, exampleSim, List.mem_singleton] at he
    subst he
    exact ⟨dynamicOne, rfl, rfl⟩
  have hne : (SleepSim.initialise 0
      (exampleSim [restingSlow, dynamicOne] [(1, Vector.zero)])).stateChange ≠ [] := by
    simp [SleepSim.initialise, recalculateTime, exampleSim]
  obtain ⟨s', r1, h1, h2, _, _, h5⟩ :=
    sleep_event_left_scheduled exampleEnv exampleEnv_keepsState _ hwf hne
  exact ⟨initialise_scheduled 0 _, hne, s', r1, h1, h2, h5⟩

/-! ## The status of the simulation -/

/-- A call of `initialise` either returns, from `CONFIG_LOADED`, with the
status `INITIALISED`, or throws and leaves the status as it was. -/
theorem initialise_status (X : SimEnv) (s : CSimulation) :
    ((initialise X s).2 = Outcome.ok ∧ s.status = ESimulationStatus.CONFIG_LOADED ∧
        (initialise X s).1.status = ESimulationStatus.INITIALISED) ∨
      ((∃ msg, (initialise X s).2 = Outcome.thrown msg) ∧
        (initialise X s).1.status = s.status) := by
  unfold initialise
  simp only
  split
  · right; exact ⟨⟨_, rfl⟩, rfl⟩
  · split
    · right; exact ⟨⟨_, rfl⟩, rfl⟩
    · rename_i hst
      have hst' : s.status = ESimulationStatus.CONFIG_LOADED := not_not.mp hst
      split
      · right; exact ⟨⟨_, rfl⟩, rfl⟩
      · split
        · right; exact ⟨⟨_, rfl⟩, rfl⟩
        · split
          · right; exact ⟨⟨_, rfl⟩, rfl⟩
          · split
            · rename_i s6 msg heq
              right
              refine ⟨⟨_, rfl⟩, ?_⟩
              split at heq
              · split at heq
                · simp only [Prod.mk.injEq] at heq
                  rw [← heq.1]
                · simp only [Prod.mk.injEq] at heq
                  rw [← heq.1]
              · simp only [Prod.mk.injEq] at heq
                rw [← heq.1]
            · rename_i s6 heq
              have h6 : s6.status = s.status := by
                split at heq
                · split at heq
                  · simp only [Prod.mk.injEq] at heq
                    rw [← heq.1]
                  · simp only [Prod.mk.injEq] at heq
                    rw [← heq.1]
                · simp only [Prod.mk.injEq] at heq
                  rw [← heq.1]
              split
              · right; exact ⟨⟨_, rfl⟩, h6⟩
              · left; exact ⟨rfl, hst', rfl⟩

theorem callRunNextEvent_status (X : SimEnv) (hX : X.KeepsStatus) (s : CSimulation) :
    (callRunNextEvent X s).1.status = s.status := hX s

theorem silentLoop_status (X : SimEnv) (hX : X.KeepsStatus) :
    ∀ (fuel : Nat) (s s' : CSimulation) (o : Outcome),
      silentLoop X fuel s = some (s', o) → s'.status = s.status := by
  intro fuel
  induction fuel with
  | zero => intro s s' o h; simp [silentLoop] at h
  | succ n ih =>
    intro s s' o h
    rw [silentLoop] at h
    have hs := callRunNextEvent_status X hX s
    by_cases hg : s.lNColl < s.lMaxNColl
    · rw [if_pos hg] at h
      rcases hc : callRunNextEvent X s with ⟨s1, o1⟩
      rw [hc] at h hs
      cases o1 with
      | ok => rw [ih s1 s' o h]; exact hs
      | thrown w =>
        simp only [Option.some.injEq, Prod.mk.injEq] at h
        rw [← h.1]; exact hs
    · rw [if_neg hg] at h
      simp only [Option.some.injEq, Prod.mk.injEq] at h
      rw [← h.1]

theorem printLoop_status (X : SimEnv) (hX : X.KeepsStatus) :
    ∀ (fuel : Nat) (s s' : CSimulation) (o : Outcome),
      printLoop X fuel s = some (s', o) → s'.status = s.status := by
  intro fuel
  induction fuel with
  | zero => intro s s' o h; simp [printLoop] at h
  | succ n ih =>
    intro s s' o h
    rw [printLoop] at h
    have hs := callRunNextEvent_status X hX s
    by_cases hg : s.lNColl < s.lPrintLimiter
    · rw [if_pos hg] at h
      rcases hc : callRunNextEvent X s with ⟨s1, o1⟩
      rw [hc] at h hs
      cases o1 with
      | ok => rw [ih s1 s' o h]; exact hs
      | thrown w =>
        simp only [Option.some.injEq, Prod.mk.injEq] at h
        rw [← h.1]; exact hs
    · rw [if_neg hg] at h
      simp only [Option.some.injEq, Prod.mk.injEq] at h
      rw [← h.1]

theorem outputLoop_status (X : SimEnv) (hX : X.KeepsStatus) :
    ∀ (fuel : Nat) (s s' : CSimulation) (o : Outcome),
      outputLoop X fuel s = some (s', o) → s'.status = s.status := by
  intro fuel
  induction fuel with
  | zero => intro s s' o h; simp [outputLoop] at h
  | succ n ih =>
    intro s s' o h
    rw [outputLoop] at h
    by_cases hg : s.lNColl < s.lMaxNColl
    · rw [if_pos hg] at h
      cases hc : printLoop X n s with
      | none => rw [hc] at h; simp at h
      | some q =>
        rw [hc] at h
        rcases q with ⟨s1, o1⟩
        have hs := printLoop_status X hX n s s1 o1 hc
        cases o1 with
        | ok =>
          have := ih _ s' o h
          rw [this]
          exact hs
        | thrown w =>
          simp only [Option.some.injEq, Prod.mk.injEq] at h
          rw [← h.1]; exact hs
    · rw [if_neg hg] at h
      simp only [Option.some.injEq, Prod.mk.injEq] at h
      rw [← h.1]

/-- A call of `runSimulation` that ends either throws its status error and
changes nothing, or was made in the status `INITIALISED` or `PRODUCTION` and
leaves the status `PRODUCTION`, also when it ends by throwing. -/
theorem runSimulation_status (X : SimEnv) (hX : X.KeepsStatus) (fuel : Nat)
    (silentMode : Bool) (s s' : CSimulation) (o : Outcome)
    (h : runSimulation X fuel silentMode s = some (s', o)) :
    (s' = s ∧ o = Outcome.thrown "Bad state for runSimulation()" ∧
        s.status ≠ ESimulationStatus.INITIALISED ∧ s.status ≠ ESimulationStatus.PRODUCTION) ∨
      ((s.status = ESimulationStatus.INITIALISED ∨ s.status = ESimulationStatus.PRODUCTION) ∧
        s'.status = ESimulationStatus.PRODUCTION) := by
  unfold runSimulation at h
  by_cases hst : s.status ≠ ESimulationStatus.INITIALISED ∧
      s.status ≠ ESimulationStatus.PRODUCTION
  · rw [if_pos hst] at h
    simp only [Option.some.injEq, Prod.mk.injEq] at h
    exact Or.inl ⟨h.1.symm, h.2.symm, hst.1, hst.2⟩
  · rw [if_neg hst] at h
    right
    have hst' : s.status = ESimulationStatus.INITIALISED ∨
        s.status = ESimulationStatus.PRODUCTION := by
      by_cases h1 : s.status = ESimulationStatus.INITIALISED
      · exact Or.inl h1
      · by_cases h2 : s.status = ESimulationStatus.PRODUCTION
        · exact Or.inr h2
        · exact absurd ⟨h1, h2⟩ hst
    refine ⟨hst', ?_⟩
    cases silentMode with
    | true =>
      simp only [if_true] at h
      cases hc : silentLoop X fuel { s with status := ESimulationStatus.PRODUCTION } with
      | none => rw [hc] at h; simp at h
      | some q =>
        rw [hc] at h
        rcases q with ⟨s1, o1⟩
        have hs := silentLoop_status X hX fuel _ s1 o1 hc
        cases o1 with
        | ok =>
          simp only [Option.some.injEq, Prod.mk.injEq] at h
          rw [← h.1]; exact hs
        | thrown w =>
          simp only [Option.some.injEq, Prod.mk.injEq] at h
          rw [← h.1]; exact hs
    | false =>
      simp only [Bool.false_eq_true, if_false] at h
      exact outputLoop_status X hX fuel _ s' o h

theorem loadPluginNodes_status (L : LifeEnv) (l : List String) :
    ∀ w : SimWorld, (SimWorld.loadPluginNodes L l w).1.sim.status = w.sim.status := by
  induction l with
  | nil => intro w; rfl
  | cons n rest ih =>
    intro w
    unfold SimWorld.loadPluginNodes
    split
    · rfl
    · rw [ih]

/-- The step of the status in one call of a public operation: the status
stays, or goes from `START` to `CONFIG_LOADED` in a `configLoaded` or
`loadXMLfile` that returns, or from `CONFIG_LOADED` to `INITIALISED` in an
`initialise` that returns, or from `INITIALISED` to `PRODUCTION` in a
`runSimulation`. -/
theorem perform_status (X : SimEnv) (hX : X.KeepsStatus) (L : LifeEnv) (hL : L.WF)
    (fuel : Nat) (c : Call) (w w' : SimWorld) (o : Outcome)
    (h : perform X L fuel c w = some (w', o)) :
    w'.sim.status = w.sim.status ∨
      (w.sim.status = ESimulationStatus.START ∧
        w'.sim.status = ESimulationStatus.CONFIG_LOADED ∧ o = Outcome.ok ∧
        (c = Call.configLoaded ∨ ∃ f, c = Call.loadXMLfile f)) ∨
      (w.sim.status = ESimulationStatus.CONFIG_LOADED ∧
        w'.sim.status = ESimulationStatus.INITIALISED ∧ o = Outcome.ok ∧
        c = Call.initialise) ∨
      (w.sim.status = ESimulationStatus.INITIALISED ∧
        w'.sim.status = ESimulationStatus.PRODUCTION ∧ ∃ b, c = Call.runSimulation b) := by
  cases c with
  | configLoaded =>
    simp only [perform, SimWorld.configLoaded, Option.some.injEq] at h
    split_ifs at h with hst
    · simp only [Prod.mk.injEq] at h
      left; rw [← h.1]
    · simp only [Prod.mk.injEq] at h
      right; left
      exact ⟨not_not.mp hst, by rw [← h.1], h.2.symm, Or.inl rfl⟩
  | loadXMLfile f =>
    simp only [perform, SimWorld.loadXMLfile, Option.some.injEq] at h
    split_ifs at h with hst
    · simp only [Prod.mk.injEq] at h
      left; rw [← h.1]
    · have hk := hL.1 f w.sim
      rcases hc : L.loadConfig f w.sim with ⟨s1, o1⟩
      rw [hc] at h hk
      cases o1 with
      | thrown msg =>
        simp only [Prod.mk.injEq] at h
        left; rw [← h.1]; exact hk
      | ok =>
        simp only [Prod.mk.injEq] at h
        right; left
        exact ⟨not_not.mp hst, by rw [← h.1], h.2.symm, Or.inr ⟨f, rfl⟩⟩
  | addGlobal tmp =>
    left
    simp only [perform, SimWorld.addGlobal, Option.some.injEq] at h
    split at h
    · simp only [Prod.mk.injEq] at h; rw [← h.1]
    · split_ifs at h <;> simp only [Prod.mk.injEq] at h <;> rw [← h.1]
  | addSystem tmp =>
    left
    simp only [perform, SimWorld.addSystem, Option.some.injEq] at h
    split at h
    · simp only [Prod.mk.injEq] at h; rw [← h.1]
    · split_ifs at h <;> simp only [Prod.mk.injEq] at h <;> rw [← h.1]
  | addOutputPlugin n =>
    left
    simp only [perform, SimWorld.addOutputPlugin, Option.some.injEq] at h
    split_ifs at h
    · simp only [Prod.mk.injEq] at h; rw [← h.1]
    · split at h <;> simp only [Prod.mk.injEq] at h <;> rw [← h.1]
  | loadPlugins f =>
    left
    simp only [perform, SimWorld.loadPlugins] at h
    split_ifs at h
    · simp only [Option.some.injEq, Prod.mk.injEq] at h; rw [← h.1]
    · simp only [Option.some.injEq, Prod.mk.injEq] at h; rw [← h.1]
    · simp only [Option.some.injEq] at h
      have := loadPluginNodes_status L (L.pluginNodes f) w
      rw [h] at this
      exact this
    · simp only [Option.some.injEq, Prod.mk.injEq] at h; rw [← h.1]
  | initialise =>
    simp only [perform, Option.some.injEq, Prod.mk.injEq] at h
    rcases initialise_status X w.sim with ⟨h1, h2, h3⟩ | ⟨_, h2⟩
    · right; right; left
      exact ⟨h2, by rw [← h.1]; exact h3, by rw [← h.2]; exact h1, rfl⟩
    · left; rw [← h.1]; exact h2
  | runSimulation b =>
    simp only [perform, Option.map_eq_some'] at h
    obtain ⟨r, hr, hw⟩ := h
    rcases r with ⟨s1, o1⟩
    simp only [Prod.mk.injEq] at hw
    rcases runSimulation_status X hX fuel b w.sim s1 o1 hr with ⟨h1, _⟩ | ⟨h1, h2⟩
    · left; rw [← hw.1, h1]
    · rcases h1 with h1 | h1
      · right; right; right
        exact ⟨h1, by rw [← hw.1]; exact h2, b, rfl⟩
      · left; rw [← hw.1]; show s1.status = _; rw [h2, h1]
  | writeXMLfile f r u =>
    left
    simp only [perform, SimWorld.writeXMLfile, Option.some.injEq] at h
    split_ifs at h
    · simp only [Prod.mk.injEq] at h; rw [← h.1]
    · split at h <;> simp only [Prod.mk.injEq] at h <;> rw [← h.1]
  | outputData f u =>
    left
    simp only [perform, SimWorld.outputData, Option.some.injEq] at h
    split_ifs at h <;> simp only [Prod.mk.injEq] at h <;> rw [← h.1]
  | simShutdown =>
    left
    simp only [perform, Option.some.injEq, Prod.mk.injEq] at h
    rw [← h.1]
    rfl

theorem quietEnv_keepsStatus : quietEnv.KeepsStatus := fun _ => rfl

theorem quietLife_wf : quietLife.WF :=
  ⟨fun _ _ => rfl, by decide, by decide, by decide⟩

/-- C25, as the code has it. Over the public operations of `CSimulation`,
when the events and the loading of a configuration leave the status alone:
in every call the status stays as it is or takes one of the steps
`START -> CONFIG_LOADED` (a `configLoaded` or `loadXMLfile` that returns),
`CONFIG_LOADED -> INITIALISED` (an `initialise` that returns) and
`INITIALISED -> PRODUCTION` (`runSimulation`); a call that throws leaves the
status unchanged, except a `runSimulation` called in the status `INITIALISED`
in which an event throws: it has set the status to `PRODUCTION` before the
first event and leaves it so; and over every sequence of calls the status
never decreases. -/
theorem lifecycle_order (X : SimEnv) (hX : X.KeepsStatus) (L : LifeEnv) (hL : L.WF)
    (fuel : Nat) :
    (∀ (c : Call) (w w' : SimWorld) (o : Outcome), perform X L fuel c w = some (w', o) →
      (w'.sim.status = w.sim.status ∨
        (w.sim.status = ESimulationStatus.START ∧
          w'.sim.status = ESimulationStatus.CONFIG_LOADED ∧ o = Outcome.ok ∧
          (c = Call.configLoaded ∨ ∃ f, c = Call.loadXMLfile f)) ∨
        (w.sim.status = ESimulationStatus.CONFIG_LOADED ∧
          w'.sim.status = ESimulationStatus.INITIALISED ∧ o = Outcome.ok ∧
          c = Call.initialise) ∨
        (w.sim.status = ESimulationStatus.INITIALISED ∧
          w'.sim.status = ESimulationStatus.PRODUCTION ∧ ∃ b, c = Call.runSimulation b))) ∧
    (∀ (c : Call) (w w' : SimWorld) (msg : String),
      perform X L fuel c w = some (w', Outcome.thrown msg) →
      (w'.sim.status = w.sim.status ∨
        (w.sim.status = ESimulationStatus.INITIALISED ∧
          w'.sim.status = ESimulationStatus.PRODUCTION ∧
          ∃ b t what, c = Call.runSimulation b ∧
            (X.runNextEvent t).2 = Outcome.thrown what ∧
            msg = collisionMessage w'.sim.lNColl what))) ∧
    (∀ (cs : List Call) (w w' : SimWorld), performAll X L fuel cs w = some w' →
      L.statusValue w.sim.status ≤ L.statusValue w'.sim.status) := by
  refine ⟨fun c w w' o h => perform_status X hX L hL fuel c w w' o h, ?_, ?_⟩
  · intro c w w' msg h
    rcases perform_status X hX L hL fuel c w w' _ h with h1 | ⟨_, _, h3, _⟩ | ⟨_, _, h3, _⟩ |
      ⟨h1, h2, b, hb⟩
    · exact Or.inl h1
    · cases h3
    · cases h3
    · right
      subst hb
      simp only [perform, Option.map_eq_some'] at h
      obtain ⟨r, hr, hw⟩ := h
      rcases r with ⟨s1, o1⟩
      simp only [Prod.mk.injEq] at hw
      have ho : o1 = Outcome.thrown msg := hw.2
      subst ho
      have hs1 : w'.sim = s1 := by rw [← hw.1]
      rcases runSimulation_thrown_inv X fuel b w.sim s1 msg hr with ⟨_, h5⟩ | ⟨t, what, h4, _, h6⟩
      · rw [hs1, h5, h1] at h2
        cases h2
      · refine ⟨h1, h2, b, t, what, rfl, h4, ?_⟩
        rw [hs1]; exact h6
  · intro cs
    induction cs with
    | nil =>
      intro w w' h
      simp only [performAll, Option.some.injEq] at h
      rw [h]
    | cons c cs ih =>
      intro w w' h
      unfold performAll at h
      cases hp : perform X L fuel c w with
      | none => rw [hp] at h; simp at h
      | some q =>
        rw [hp] at h
        rcases q with ⟨w1, o⟩
        have h2 := ih w1 w' h
        have h1 : L.statusValue w.sim.status ≤ L.statusValue w1.sim.status := by
          rcases perform_status X hX L hL fuel c w w1 o hp with e | ⟨e1, e2, _⟩ | ⟨e1, e2, _⟩ |
            ⟨e1, e2, _⟩
          · rw [e]
          · rw [e1, e2]; exact le_of_lt hL.2.1
          · rw [e1, e2]; exact le_of_lt hL.2.2.1
          · rw [e1, e2]; exact le_of_lt hL.2.2.2
        exact le_trans h1 h2

/-- Witness of C25 as the code has it: a run through the life cycle, with an
out-of-phase `configLoaded` at the end, from `START` to `PRODUCTION`. -/
theorem lifecycle_order_witness :
    quietEnv.KeepsStatus ∧ quietLife.WF ∧
      ∃ w', performAll quietEnv quietLife 10
          [Call.configLoaded, Call.addGlobal (some "Cells"), Call.addOutputPlugin "Misc",
            Call.initialise, Call.runSimulation true, Call.outputData "output.xml" true,
            Call.simShutdown, Call.configLoaded]
          (exampleWorld (exampleSimulation ESimulationStatus.START 0 3 1 [] (some ⟨0⟩))) =
          some w' ∧
        w'.sim.status = ESimulationStatus.PRODUCTION ∧ w'.sim.lNColl = 3 ∧
        w'.files = ["output.xml"] ∧
        quietLife.statusValue ESimulationStatus.START ≤ quietLife.statusValue w'.sim.status := by
  refine ⟨quietEnv_keepsStatus, quietLife_wf, ?_⟩
  have h : ∃ w', performAll quietEnv quietLife 10
      [Call.configLoaded, Call.addGlobal (some "Cells"), Call.addOutputPlugin "Misc",
        Call.initialise, Call.runSimulation true, Call.outputData "output.xml" true,
        Call.simShutdown, Call.configLoaded]
      (exampleWorld (exampleSimulation ESimulationStatus.START 0 3 1 [] (some ⟨0⟩))) =
      some w' ∧ w'.sim.status = ESimulationStatus.PRODUCTION ∧ w'.sim.lNColl = 3 ∧
      w'.files = ["output.xml"] := ⟨_, rfl, rfl, rfl, rfl⟩
  obtain ⟨w', h1, h2, h3, h4⟩ := h
  exact ⟨w', h1, h2, h3, h4,
    (lifecycle_order quietEnv quietEnv_keepsStatus quietLife quietLife_wf 10).2.2 _ _ w' h1⟩

/-- Counterexample to C25 as stated: `runSimulation` called in the status
`INITIALISED` when the next event throws. The call throws, and the status is
`PRODUCTION` afterwards. -/
theorem lifecycle_counterexample :
    ∃ w', perform failingEnv quietLife 5 (Call.runSimulation true)
        (exampleWorld (exampleSimulation ESimulationStatus.INITIALISED 2 5 1 [] (some ⟨1⟩))) =
        some (w', Outcome.thrown (collisionMessage 2 " reverse time")) ∧
      (exampleWorld (exampleSimulation ESimulationStatus.INITIALISED 2 5 1 []
        (some ⟨1⟩))).sim.status = ESimulationStatus.INITIALISED ∧
      w'.sim.status = ESimulationStatus.PRODUCTION ∧ w'.sim.eventsRun = 1 :=
  ⟨_, rfl, rfl, rfl, rfl⟩

/-! ## Calls out of phase -/

/-- C26. Out-of-phase calls are rejected without effect, whatever the other
components do and whatever the integer values of the status enumeration are:
each of the calls below throws and leaves the simulation, the global events,
the system events, the plugins and the files written exactly as they were.
`addGlobal` and `addSystem` with a `NULL` argument or a status other than
`CONFIG_LOADED`; `addOutputPlugin` and `loadPlugins` with
`status >= INITIALISED`; `configLoaded` and `loadXMLfile` with a status other
than `START`; `runSimulation` with a status that is neither `INITIALISED` nor
`PRODUCTION` (no event is run); `writeXMLfile` and `outputData` with
`status < INITIALISED` or `status == ERROR`. -/
theorem out_of_phase_rejected (X : SimEnv) (L : LifeEnv) (fuel : Nat) (w : SimWorld) :
    (∀ tmp : Option String, tmp = none ∨ w.sim.status ≠ ESimulationStatus.CONFIG_LOADED →
      (∃ msg, perform X L fuel (Call.addGlobal tmp) w = some (w, Outcome.thrown msg)) ∧
      (∃ msg, perform X L fuel (Call.addSystem tmp) w = some (w, Outcome.thrown msg))) ∧
    (L.statusValue ESimulationStatus.INITIALISED ≤ L.statusValue w.sim.status →
      ∀ name : String,
        perform X L fuel (Call.addOutputPlugin name) w =
          some (w, Outcome.thrown "Cannot add plugins now") ∧
        perform X L fuel (Call.loadPlugins name) w =
          some (w, Outcome.thrown "Cannot add plugins now")) ∧
    (w.sim.status ≠ ESimulationStatus.START →
      perform X L fuel Call.configLoaded w =
        some (w, Outcome.thrown "Loading config at wrong time") ∧
      ∀ name : String, perform X L fuel (Call.loadXMLfile name) w =
        some (w, Outcome.thrown "Loading config at wrong time")) ∧
    (w.sim.status ≠ ESimulationStatus.INITIALISED ∧
        w.sim.status ≠ ESimulationStatus.PRODUCTION →
      ∀ silentMode : Bool, perform X L fuel (Call.runSimulation silentMode) w =
        some (w, Outcome.thrown "Bad state for runSimulation()")) ∧
    (L.statusValue w.sim.status < L.statusValue ESimulationStatus.INITIALISED ∨
        w.sim.status = ESimulationStatus.ERROR →
      ∀ (name : String) (round uncompressed : Bool),
        perform X L fuel (Call.writeXMLfile name round uncompressed) w =
          some (w, Outcome.thrown "Cannot write out configuration in this state") ∧
        perform X L fuel (Call.outputData name uncompressed) w =
          some (w, Outcome.thrown "Cannot output data when not initialised!")) := by
  refine ⟨?_, ?_, ?_, ?_, ?_⟩
  · intro tmp h
    cases tmp with
    | none =>
      exact ⟨⟨_, rfl⟩, ⟨_, rfl⟩⟩
    | some g =>
      rcases h with h | h
      · cases h
      · refine ⟨⟨"Cannot add global events now its initialised", ?_⟩,
          ⟨"Cannot add system events now it is initialised", ?_⟩⟩
        · simp only [perform, SimWorld.addGlobal]
          rw [if_pos h]
        · simp only [perform, SimWorld.addSystem]
          rw [if_pos h]
  · intro h name
    refine ⟨?_, ?_⟩
    · simp only [perform, SimWorld.addOutputPlugin]
      rw [if_pos h]
    · simp only [perform, SimWorld.loadPlugins]
      rw [if_pos h]
  · intro h
    refine ⟨?_, fun name => ?_⟩
    · simp only [perform, SimWorld.configLoaded]
      rw [if_pos h]
    · simp only [perform, SimWorld.loadXMLfile]
      rw [if_pos h]
  · intro h silentMode
    simp only [perform, runSimulation]
    rw [if_pos h]
    rfl
  · intro h name round uncompressed
    refine ⟨?_, ?_⟩
    · simp only [perform, SimWorld.writeXMLfile]
      rw [if_pos h]
    · simp only [perform, SimWorld.outputData]
      rw [if_pos h]

/-- Witness of C26: the calls out of phase on a simulation in the status
`START` (nothing can be added, run or written), on an initialised simulation
(no plugin can be added and no configuration loaded) and on a simulation in
the status `ERROR`. -/
theorem out_of_phase_rejected_witness :
    (∃ msg, perform quietEnv quietLife 5 (Call.addGlobal (some "Cells"))
        (exampleWorld (exampleSimulation ESimulationStatus.START 0 3 1 [] (some ⟨0⟩))) =
        some (exampleWorld (exampleSimulation ESimulationStatus.START 0 3 1 [] (some ⟨0⟩)),
          Outcome.thrown msg)) ∧
      perform quietEnv quietLife 5 (Call.runSimulation false)
        (exampleWorld (exampleSimulation ESimulationStatus.START 0 3 1 [] (some ⟨0⟩))) =
        some (exampleWorld (exampleSimulation ESimulationStatus.START 0 3 1 [] (some ⟨0⟩)),
          Outcome.thrown "Bad state for runSimulation()") ∧
      perform quietEnv quietLife 5 (Call.outputData "output.xml" true)
        (exampleWorld (exampleSimulation ESimulationStatus.START 0 3 1 [] (some ⟨0⟩))) =
        some (exampleWorld (exampleSimulation ESimulationStatus.START 0 3 1 [] (some ⟨0⟩)),
          Outcome.thrown "Cannot output data when not initialised!") ∧
      perform quietEnv quietLife 5 (Call.loadPlugins "plugins.xml")
        (exampleWorld (exampleSimulation ESimulationStatus.INITIALISED 0 3 1 [] (some ⟨1⟩))) =
        some (exampleWorld (exampleSimulation ESimulationStatus.INITIALISED 0 3 1 []
          (some ⟨1⟩)), Outcome.thrown "Cannot add plugins now") ∧
      perform quietEnv quietLife 5 Call.configLoaded
        (exampleWorld (exampleSimulation ESimulationStatus.INITIALISED 0 3 1 [] (some ⟨1⟩))) =
        some (exampleWorld (exampleSimulation ESimulationStatus.INITIALISED 0 3 1 []
          (some ⟨1⟩)), Outcome.thrown "Loading config at wrong time") ∧
      perform quietEnv quietLife 5 (Call.writeXMLfile "config.xml" false false)
        (exampleWorld (exampleSimulation ESimulationStatus.ERROR 0 3 1 [] (some ⟨1⟩))) =
        some (exampleWorld (exampleSimulation ESimulationStatus.ERROR 0 3 1 [] (some ⟨1⟩)),
          Outcome.thrown "Cannot write out configuration in this state") :=
  ⟨((out_of_phase_rejected quietEnv quietLife 5
      (exampleWorld (exampleSimulation ESimulationStatus.START 0 3 1 [] (some ⟨0⟩)))).1
      (some "Cells") (Or.inr (by decide))).1,
    (out_of_phase_rejected quietEnv quietLife 5
      (exampleWorld (exampleSimulation ESimulationStatus.START 0 3 1 [] (some ⟨0⟩)))).2.2.2.1
      ⟨by decide, by decide⟩ false,
    ((out_of_phase_rejected quietEnv quietLife 5
      (exampleWorld (exampleSimulation ESimulationStatus.START 0 3 1 [] (some ⟨0⟩)))).2.2.2.2
      (Or.inl (by decide)) "output.xml" false true).2,
    ((out_of_phase_rejected quietEnv quietLife 5
      (exampleWorld (exampleSimulation ESimulationStatus.INITIALISED 0 3 1 []
        (some ⟨1⟩)))).2.1 (by decide) "plugins.xml").2,
    ((out_of_phase_rejected quietEnv quietLife 5
      (exampleWorld (exampleSimulation ESimulationStatus.INITIALISED 0 3 1 []
        (some ⟨1⟩)))).2.2.1 (by decide)).1,
    ((out_of_phase_rejected quietEnv quietLife 5
      (exampleWorld (exampleSimulation ESimulationStatus.ERROR 0 3 1 [] (some ⟨1⟩)))).2.2.2.2
      (Or.inr rfl) "config.xml" false false).1⟩

/-! ## The conversion from RGB to YUV -/

theorem shift8_eq_div (x : Int) : x >>> (8 : Nat) = x / 256 := by
  rw [Int.shiftRight_eq_div_pow]
  norm_num

theorem floor_div_256 (x : Int) : ⌊((x : ℚ) / 256)⌋ = x / 256 := by
  have := Rat.floor_intCast_div_natCast x 256
  simpa using this

/-- Casting a value to `uint8_t`, adding a constant and storing the sum into a
`uint8_t` gives the plain sum whenever that sum is a byte. -/
theorem toUint8_add (x c : Int) (h0 : 0 ≤ x + c) (h1 : x + c < 256) (hc0 : 0 ≤ c)
    (hc : c < 256) (hx : -256 < x) (hx1 : x < 256) :
    ((toUint8 ((toUint8 x : Nat) + c) : Nat) : Int) = x + c := by
  unfold toUint8
  omega

/-- C27. For all 8-bit `R`, `G`, `B`: the byte `addFrame` stores for luma is
`floor((66R + 129G + 25B + 128) / 256) + 16` and lies in `[16, 235]`; the
bytes stored for the two chroma samples are
`floor((-38R - 74G + 112B + 128) / 256) + 128` and
`floor((112R - 94G - 18B + 128) / 256) + 128` and lie in `[16, 240]`. The
left-hand sides go through the cast of the shifted value to `uint8_t`, the
addition in `int` and the store modulo 256; the right-hand sides are the
integers themselves. -/
theorem yuv_video_range (R G B : Nat) (hR : R < 256) (hG : G < 256) (hB : B < 256) :
    (((lumaByte R G B : Nat) : Int) =
        ⌊(((66 * (R : Int) + 129 * (G : Int) + 25 * (B : Int) + 128 : Int) : ℚ) / 256)⌋ + 16 ∧
      16 ≤ lumaByte R G B ∧ lumaByte R G B ≤ 235) ∧
    (((chromaUByte R G B : Nat) : Int) =
        ⌊(((-38 * (R : Int) - 74 * (G : Int) + 112 * (B : Int) + 128 : Int) : ℚ) / 256)⌋ + 128 ∧
      16 ≤ chromaUByte R G B ∧ chromaUByte R G B ≤ 240) ∧
    (((chromaVByte R G B : Nat) : Int) =
        ⌊(((112 * (R : Int) - 94 * (G : Int) - 18 * (B : Int) + 128 : Int) : ℚ) / 256)⌋ + 128 ∧
      16 ≤ chromaVByte R G B ∧ chromaVByte R G B ≤ 240) := by
  simp only [floor_div_256]
  have hy : 0 ≤ (66 * (R : Int) + 129 * (G : Int) + 25 * (B : Int) + 128) / 256 ∧
      (66 * (R : Int) + 129 * (G : Int) + 25 * (B : Int) + 128) / 256 ≤ 219 := by omega
  have hu : -112 ≤ (-38 * (R : Int) - 74 * (G : Int) + 112 * (B : Int) + 128) / 256 ∧
      (-38 * (R : Int) - 74 * (G : Int) + 112 * (B : Int) + 128) / 256 ≤ 112 := by omega
  have hv : -112 ≤ (112 * (R : Int) - 94 * (G : Int) - 18 * (B : Int) + 128) / 256 ∧
      (112 * (R : Int) - 94 * (G : Int) - 18 * (B : Int) + 128) / 256 ≤ 112 := by omega
  have h1 := toUint8_add ((66 * (R : Int) + 129 * (G : Int) + 25 * (B : Int) + 128) / 256) 16
    (by omega) (by omega) (by omega) (by omega) (by omega) (by omega)
  have h2 := toUint8_add ((-38 * (R : Int) - 74 * (G : Int) + 112 * (B : Int) + 128) / 256) 128
    (by omega) (by omega) (by omega) (by omega) (by omega) (by omega)
  have h3 := toUint8_add ((112 * (R : Int) - 94 * (G : Int) - 18 * (B : Int) + 128) / 256) 128
    (by omega) (by omega) (by omega) (by omega) (by omega) (by omega)
  unfold lumaByte chromaUByte chromaVByte
  simp only [shift8_eq_div]
  refine ⟨⟨h1, ?_, ?_⟩, ⟨h2, ?_, ?_⟩, ⟨h3, ?_, ?_⟩⟩ <;> omega

/-- Witness of C27: white gives luma 235; `R = G = 255, B = 0` gives the
lowest U, 16, through a negative shifted value; `R = 255, G = B = 0` gives the
highest V, 240. -/
theorem yuv_video_range_witness :
    lumaByte 255 255 255 = 235 ∧ chromaUByte 255 255 0 = 16 ∧ chromaVByte 255 0 0 = 240 ∧
      (-38 * (255 : Int) - 74 * 255 + 112 * 0 + 128) >>> (8 : Nat) = -112 ∧
      ((chromaUByte 255 255 0 : Nat) : Int) =
        ⌊(((-38 * ((255 : Nat) : Int) - 74 * ((255 : Nat) : Int) + 112 * ((0 : Nat) : Int)
          + 128 : Int) : ℚ) / 256)⌋ + 128 :=
  ⟨by decide, by decide, by decide, by decide,
    (yuv_video_range 255 255 0 (by decide) (by decide) (by decide)).2.1.1⟩

/-! ## The conversion loops of `addFrame` -/

theorem size_t_of_lt (n : Nat) (h : n < 2 ^ 64) : size_t n = n := Nat.mod_eq_of_lt h

/-- A loop over `0 .. n-1` in which every step is defined and keeps an
invariant is defined and ends with the invariant. -/
theorem foldlM_range_inv {σ : Type} (f : σ → Nat → Option σ) (P : Nat → σ → Prop) :
    ∀ (n : Nat) (s0 : σ), P 0 s0 →
      (∀ k, k < n → ∀ s, P k s → ∃ s', f s k = some s' ∧ P (k + 1) s') →
      ∃ s', (List.range n).foldlM f s0 = some s' ∧ P n s' := by
  intro n
  induction n with
  | zero => intro s0 h0 _; exact ⟨s0, rfl, h0⟩
  | succ n ih =>
    intro s0 h0 hstep
    obtain ⟨s1, h1, hp1⟩ := ih s0 h0 (fun k hk s hs => hstep k (Nat.lt_succ_of_lt hk) s hs)
    obtain ⟨s2, h2, hp2⟩ := hstep n (Nat.lt_succ_self n) s1 hp1
    refine ⟨s2, ?_, hp2⟩
    rw [List.range_succ, List.foldlM_append, h1]
    simp [h2]

theorem pixelBody_step (iw : Nat) (frame : List Nat) (j L vw : Nat) (st0 : FrameLoop)
    (hL : L < 2 ^ 64)
    (hread : ∀ k, k < vw → (k + j * iw) * 3 + 2 < frame.length)
    (hwrap : (vw + j * iw) * 3 + 2 < 2 ^ 64)
    (hi : st0.i + vw ≤ L)
    (hu : j % 2 = 0 → st0.ui + (vw + 1) / 2 ≤ L ∧ st0.vi + (vw + 1) / 2 ≤ L)
    (k : Nat) (hk : k < vw) (st : FrameLoop) (hst : RowInv j L st0 k st) :
    ∃ st', pixelBody iw frame j k st = some st' ∧ RowInv j L st0 (k + 1) st' := by
  obtain ⟨h1, h2, h3, h4, h5, h6, h7⟩ := hst
  have hr := hread k hk
  have hmono : j * iw ≤ vw + j * iw := Nat.le_add_left _ _
  have e1 : size_t (j * iw) = j * iw := size_t_of_lt _ (by omega)
  have e2 : size_t (k + j * iw) = k + j * iw := size_t_of_lt _ (by omega)
  have e3 : size_t ((k + j * iw) * 3) = (k + j * iw) * 3 := size_t_of_lt _ (by omega)
  have e4 : size_t ((k + j * iw) * 3 + 1) = (k + j * iw) * 3 + 1 := size_t_of_lt _ (by omega)
  have e5 : size_t ((k + j * iw) * 3 + 2) = (k + j * iw) * 3 + 2 := size_t_of_lt _ (by omega)
  obtain ⟨R, hR⟩ : ∃ R, frame[(k + j * iw) * 3]? = some R :=
    ⟨_, List.getElem?_eq_getElem (by omega)⟩
  obtain ⟨G, hG⟩ : ∃ G, frame[(k + j * iw) * 3 + 1]? = some G :=
    ⟨_, List.getElem?_eq_getElem (by omega)⟩
  obtain ⟨B, hB⟩ : ∃ B, frame[(k + j * iw) * 3 + 2]? = some B :=
    ⟨_, List.getElem?_eq_getElem (by omega)⟩
  have hi' : st.i < st._pictureBuffer.length := by omega
  have ei : size_t (st.i + 1) = st.i + 1 := size_t_of_lt _ (by omega)
  unfold pixelBody
  simp only [e1, e2, e3, e4, e5, hR, hG, hB]
  rw [if_pos hi']
  by_cases hjk : j % 2 = 0 ∧ k % 2 = 0
  · have hu' := hu hjk.1
    rw [if_pos hjk.1] at h4 h5 h6 h7
    have hkk : (k + 1) / 2 < (vw + 1) / 2 := by omega
    have hui : st.ui < L := by omega
    have hvi : st.vi < L := by omega
    have eu : size_t (st.ui + 1) = st.ui + 1 := size_t_of_lt _ (by omega)
    have ev : size_t (st.vi + 1) = st.vi + 1 := size_t_of_lt _ (by omega)
    rw [if_pos hjk]
    simp only [List.length_set, h2]
    rw [if_pos ⟨hui, hvi⟩]
    refine ⟨_, rfl, ?_⟩
    have hc : (k + 1 + 1) / 2 = (k + 1) / 2 + 1 := by omega
    refine ⟨?_, ?_, ?_, ?_, ?_, ?_, ?_⟩
    · simp only [ei]; omega
    · simp only [List.length_set]; exact h2
    · simp only [h3, h1, List.range'_concat, List.append_assoc, Nat.one_mul]
    · simp only [eu, if_pos hjk.1, hc]; omega
    · simp only [if_pos hjk.1, hc, h5, h4, List.range'_concat, List.append_assoc, Nat.one_mul]
    · simp only [ev, if_pos hjk.1, hc]; omega
    · simp only [if_pos hjk.1, hc, h7, h6, List.range'_concat, List.append_assoc, Nat.one_mul]
  · rw [if_neg hjk]
    refine ⟨_, rfl, ?_⟩
    have hc : (if j % 2 = 0 then (k + 1 + 1) / 2 else 0) =
        (if j % 2 = 0 then (k + 1) / 2 else 0) := by
      by_cases hj : j % 2 = 0
      · rw [if_pos hj, if_pos hj]
        have : ¬ k % 2 = 0 := fun hk2 => hjk ⟨hj, hk2⟩
        omega
      · rw [if_neg hj, if_neg hj]
    refine ⟨?_, ?_, ?_, ?_, ?_, ?_, ?_⟩
    · simp only [ei]; omega
    · simp only [List.length_set]; exact h2
    · simp only [h3, h1, List.range'_concat, List.append_assoc, Nat.one_mul]
    · rw [hc]; exact h4
    · rw [hc]; exact h5
    · rw [hc]; exact h6
    · rw [hc]; exact h7

theorem rowLoop_spec (iw : Nat) (frame : List Nat) (j L vw : Nat) (st0 : FrameLoop)
    (hL : L < 2 ^ 64) (hL0 : st0._pictureBuffer.length = L)
    (hread : ∀ k, k < vw → (k + j * iw) * 3 + 2 < frame.length)
    (hwrap : (vw + j * iw) * 3 + 2 < 2 ^ 64)
    (hi : st0.i + vw ≤ L)
    (hu : j % 2 = 0 → st0.ui + (vw + 1) / 2 ≤ L ∧ st0.vi + (vw + 1) / 2 ≤ L) :
    ∃ st', (List.range vw).foldlM (fun st k => pixelBody iw frame j k st) st0 = some st' ∧
      RowInv j L st0 vw st' := by
  apply foldlM_range_inv (fun st k => pixelBody iw frame j k st) (RowInv j L st0) vw st0
  · refine ⟨rfl, hL0, ?_, ?_, ?_, ?_, ?_⟩ <;> simp
  · intro k hk s hs
    exact pixelBody_step iw frame j L vw st0 hL hread hwrap hi hu k hk s hs

theorem frameLoop_step (iw : Nat) (frame : List Nat) (a b : Nat)
    (hiw : 2 * a ≤ iw) (hsmall : iw * (2 * b) < 2 ^ 31)
    (hframe : 3 * iw * (2 * b) ≤ frame.length)
    (m : Nat) (hm : m < 2 * b) (st : FrameLoop) (hst : FrameInv a b (6 * (a * b)) m st) :
    ∃ st', (List.range (2 * a)).foldlM (fun st k => pixelBody iw frame m k st) st = some st' ∧
      FrameInv a b (6 * (a * b)) (m + 1) st' := by
  obtain ⟨h1, h2, h3, h4, h5, h6, h7⟩ := hst
  have hm1 : (m + 1) * iw ≤ (2 * b) * iw := Nat.mul_le_mul_right _ hm
  have hm2 : (m + 1) * iw = m * iw + iw := Nat.succ_mul _ _
  have hm3 : (2 * b) * iw = iw * (2 * b) := Nat.mul_comm _ _
  have hm4 : 3 * iw * (2 * b) = 3 * (iw * (2 * b)) := Nat.mul_assoc _ _ _
  have ha1 : (m + 1) * (2 * a) ≤ (2 * b) * (2 * a) := Nat.mul_le_mul_right _ hm
  have ha2 : (m + 1) * (2 * a) = m * (2 * a) + 2 * a := Nat.succ_mul _ _
  have ha3 : (2 * b) * (2 * a) = 4 * (a * b) := by ring
  have hab : (2 * a) * (2 * b) ≤ iw * (2 * b) := Nat.mul_le_mul_right _ hiw
  have hab2 : (2 * a) * (2 * b) = 4 * (a * b) := by ring
  have hb1 : m % 2 = 0 → ((m + 1) / 2 + 1) * a ≤ b * a := by
    intro hj
    exact Nat.mul_le_mul_right _ (by omega)
  have hb2 : ((m + 1) / 2 + 1) * a = ((m + 1) / 2) * a + a := Nat.succ_mul _ _
  have hb3 : b * a = a * b := Nat.mul_comm _ _
  obtain ⟨st', hrow, r1, r2, r3, r4, r5, r6, r7⟩ :=
    rowLoop_spec iw frame m (6 * (a * b)) (2 * a) st (by omega) h2
      (by intro k hk; omega) (by omega) (by omega)
      (by
        intro hj
        have := hb1 hj
        constructor <;> omega)
  refine ⟨st', hrow, ?_⟩
  have hc : (if m % 2 = 0 then (2 * a + 1) / 2 else 0) + ((m + 1) / 2) * a =
      ((m + 1 + 1) / 2) * a := by
    by_cases hj : m % 2 = 0
    · rw [if_pos hj]
      have e1 : (m + 1 + 1) / 2 = (m + 1) / 2 + 1 := by omega
      rw [e1, hb2]
      omega
    · rw [if_neg hj]
      have e1 : (m + 1 + 1) / 2 = (m + 1) / 2 := by omega
      rw [e1]
      omega
  refine ⟨?_, r2, ?_, ?_, ?_, ?_, ?_⟩
  · rw [r1, h1, ha2]
  · rw [r3, h3, h1, ha2]
    have := List.range'_append_1 0 (m * (2 * a)) (2 * a)
    simp only [Nat.zero_add] at this
    rw [this, Nat.add_comm]
  · rw [r4, h4, ← hc]; omega
  · rw [r5, h5, h4, ← hc]
    rw [List.range'_append_1]
  · rw [r6, h6, ← hc]; omega
  · rw [r7, h7, h6, ← hc]
    rw [List.range'_append_1]

theorem toInt32_of_lt (n : Nat) (h : n < 2 ^ 31) : toInt32 n = (n : Int) := by
  have h1 : n % 2 ^ 32 = n := Nat.mod_eq_of_lt (by omega)
  unfold toInt32
  rw [h1, if_pos h]

/-- The conversion loop on an encoder whose video has `2 a` columns and `2 b`
rows, cut from frames of `iw` columns, and whose picture buffer has
`6 a b` bytes: for a frame of at least `3 * iw * 2 b` bytes every access is in
bounds, and luma, U and V are written to consecutive indices from 0, from
`4 a b` and from `5 a b`. -/
theorem convert_spec (enc : VideoEncoder) (a b : Nat) (frame : List Nat)
    (hvw : enc.contextWidth = ((2 * a : Nat) : Int))
    (hvh : enc.contextHeight = ((2 * b : Nat) : Int))
    (hiw : 2 * a ≤ enc._inputWidth) (hsmall : enc._inputWidth * (2 * b) < 2 ^ 31)
    (hbuf : enc._pictureBuffer.length = 6 * (a * b))
    (hframe : 3 * enc._inputWidth * (2 * b) ≤ frame.length) :
    ∃ st, enc.convert frame = some st ∧
      st._pictureBuffer.length = 6 * (a * b) ∧
      st.lumaWrites = List.range' 0 (4 * (a * b)) ∧
      st.uWrites = List.range' (4 * (a * b)) (a * b) ∧
      st.vWrites = List.range' (5 * (a * b)) (a * b) := by
  have hab : (2 * a) * (2 * b) ≤ enc._inputWidth * (2 * b) := Nat.mul_le_mul_right _ hiw
  have hab2 : (2 * a) * (2 * b) = 4 * (a * b) := by ring
  have hprod : enc.contextHeight * enc.contextWidth = ((4 * (a * b) : Nat) : Int) := by
    rw [hvw, hvh]
    push_cast
    ring
  have hnp : ((((4 * (a * b) : Nat) : Int)) % 2 ^ 64).toNat = 4 * (a * b) := by omega
  have hvi : size_t (4 * (a * b) + 4 * (a * b) / 4) = 4 * (a * b) + a * b := by
    have : 4 * (a * b) / 4 = a * b := by omega
    rw [this]
    exact size_t_of_lt _ (by omega)
  obtain ⟨st, hst, hinv⟩ := foldlM_range_inv
    (fun st j => (List.range (2 * a)).foldlM
      (fun st k => pixelBody enc._inputWidth frame j k st) st)
    (FrameInv a b (6 * (a * b))) (2 * b)
    { i := 0, ui := 4 * (a * b), vi := 4 * (a * b) + a * b,
      _pictureBuffer := enc._pictureBuffer, lumaWrites := [], uWrites := [], vWrites := [] }
    (by refine ⟨?_, hbuf, ?_, ?_, ?_, ?_, ?_⟩ <;> simp)
    (fun m hm s hs => frameLoop_step enc._inputWidth frame a b hiw hsmall hframe m hm s hs)
  obtain ⟨_, h2, h3, _, h5, _, h7⟩ := hinv
  have hb : (2 * b + 1) / 2 * a = a * b := by
    have : (2 * b + 1) / 2 = b := by omega
    rw [this, Nat.mul_comm]
  have h4ab : 2 * b * (2 * a) = 4 * (a * b) := by ring
  refine ⟨st, ?_, h2, ?_, ?_, ?_⟩
  · unfold VideoEncoder.convert
    simp only [hprod, hnp, hvi]
    rw [if_neg (by omega)]
    simp only [hvw, hvh, Int.toNat_ofNat]
    exact hst
  · rw [h3, h4ab]
  · rw [h5, hb]
  · rw [h7, hb]
    have : 4 * (a * b) + a * b = 5 * (a * b) := by omega
    rw [this]

/-- C28, as the code has it. For every input width and height of at least 2
with `width * height < 2^31` (so that the sizes fit the `int` fields of the
codec context and no size computation wraps), and with the library calls
succeeding, the constructor returns an encoder whose picture buffer has
`(videoWidth * videoHeight * 3) / 2` bytes. On that encoder a frame of fewer
than `3 * inputWidth * videoHeight` bytes is rejected with an error before any
access; for a frame of at least that many bytes `addFrame` returns, which in
this model means that every read of the frame and every write of the picture
buffer is in bounds, and the luma, U and V writes go, in order and each index
once, to `[0, size)`, `[size, size + size/4)` and
`[size + size/4, size + size/2)`, which together are the whole buffer. The
last two parts say the same of the indices themselves: the frame index of
every pixel of the video, with the two that follow it, is below the length of
the frame, and every index written is below the size of the picture buffer. -/
theorem frame_indexing (width height fps : Nat) (hw : 2 ≤ width) (hh : 2 ≤ height)
    (hsize : width * height < 2 ^ 31) (hfps : 0 < fps) :
    ∃ enc, VideoEncoder.construct width height fps true true true = Except.ok enc ∧
      enc._inputWidth = width ∧ enc._videoWidth = width - width % 2 ∧
      enc._videoHeight = height - height % 2 ∧
      enc._pictureBuffer.length = (enc._videoWidth * enc._videoHeight * 3) / 2 ∧
      ∀ RGB24Frame : List Nat,
        (RGB24Frame.length < 3 * enc._inputWidth * enc._videoHeight →
          enc.addFrame RGB24Frame =
            some (enc, Outcome.thrown "The image is too small for the video size!")) ∧
        (3 * enc._inputWidth * enc._videoHeight ≤ RGB24Frame.length →
          ∃ st enc', enc.convert RGB24Frame = some st ∧
            enc.addFrame RGB24Frame = some (enc', Outcome.ok) ∧
            enc'._pictureBuffer = st._pictureBuffer ∧
            st._pictureBuffer.length = enc._pictureBuffer.length ∧
            st.lumaWrites = List.range' 0 (enc._videoWidth * enc._videoHeight) ∧
            st.uWrites = List.range' (enc._videoWidth * enc._videoHeight)
              (enc._videoWidth * enc._videoHeight / 4) ∧
            st.vWrites = List.range'
              (enc._videoWidth * enc._videoHeight + enc._videoWidth * enc._videoHeight / 4)
              (enc._videoWidth * enc._videoHeight / 4) ∧
            enc._videoWidth * enc._videoHeight + enc._videoWidth * enc._videoHeight / 4 +
              enc._videoWidth * enc._videoHeight / 4 = enc._pictureBuffer.length ∧
            (∀ j k, j < enc._videoHeight → k < enc._videoWidth →
              (k + j * enc._inputWidth) * 3 + 2 < RGB24Frame.length) ∧
            (∀ idx, idx ∈ st.lumaWrites ++ (st.uWrites ++ st.vWrites) →
              idx < enc._pictureBuffer.length)) := by
  obtain ⟨a, ha⟩ : ∃ a, width - width % 2 = 2 * a := ⟨width / 2, by omega⟩
  obtain ⟨b, hb⟩ : ∃ b, height - height % 2 = 2 * b := ⟨height / 2, by omega⟩
  have ha1 : 1 ≤ a := by omega
  have hb1 : 1 ≤ b := by omega
  have haw : 2 * a ≤ width := by omega
  have hbh : 2 * b ≤ height := by omega
  have h1 : width * (2 * b) ≤ width * height := Nat.mul_le_mul_left _ hbh
  have h2 : (2 * a) * (2 * b) ≤ width * (2 * b) := Nat.mul_le_mul_right _ haw
  have h3 : (2 * a) * (2 * b) = 4 * (a * b) := by ring
  have hw31 : width * 2 ≤ width * height := Nat.mul_le_mul_left _ hh
  have hh31 : 2 * height ≤ width * height := Nat.mul_le_mul_right _ hw
  have h4 : 3 * width * (2 * b) = 3 * (width * (2 * b)) := Nat.mul_assoc _ _ _
  have es : size_t (2 * a * (2 * b)) = 4 * (a * b) := by
    rw [h3]; exact size_t_of_lt _ (by omega)
  have es3 : size_t (4 * (a * b) * 3) / 2 = 6 * (a * b) := by
    rw [size_t_of_lt _ (by omega)]
    omega
  refine ⟨VideoEncoder.mk width (2 * a) (2 * b) (toInt32 (2 * a)) (toInt32 (2 * b))
      (List.replicate (6 * (a * b)) 0) 0 fps,
    ?_, rfl, ha.symm, hb.symm, ?_, ?_⟩
  · unfold VideoEncoder.construct
    simp only [ha, hb, es, es3]
    rw [if_neg (by omega)]
    rfl
  · simp only [List.length_replicate, h3]
    omega
  · intro frame
    have e3 : size_t (size_t (3 * width) * (2 * b)) = 3 * width * (2 * b) := by
      rw [size_t_of_lt (3 * width) (by omega)]
      exact size_t_of_lt _ (by omega)
    refine ⟨?_, ?_⟩
    · intro hlt
      have hlt' : frame.length < 3 * width * (2 * b) := hlt
      unfold VideoEncoder.addFrame
      simp only [e3]
      rw [if_pos hlt']
    · intro hge
      have hge' : 3 * width * (2 * b) ≤ frame.length := hge
      obtain ⟨st, hst, r1, r2, r3, r4⟩ := convert_spec
        (VideoEncoder.mk width (2 * a) (2 * b) (toInt32 (2 * a)) (toInt32 (2 * b))
          (List.replicate (6 * (a * b)) 0) 0 fps)
        a b frame (toInt32_of_lt _ (by omega)) (toInt32_of_lt _ (by omega)) haw
        (show width * (2 * b) < 2 ^ 31 by omega)
        (by simp) hge'
      have hq : 4 * (a * b) / 4 = a * b := by omega
      refine ⟨st, VideoEncoder.mk width (2 * a) (2 * b) (toInt32 (2 * a)) (toInt32 (2 * b))
        st._pictureBuffer (size_t (0 + 1)) fps, hst, ?_, rfl, ?_, ?_, ?_, ?_, ?_, ?_, ?_⟩
      · unfold VideoEncoder.addFrame
        simp only [e3]
        rw [if_neg (by omega), hst]
        simp only
        rw [if_neg (by omega)]
      · rw [r1]; simp
      · simp only [h3]; exact r2
      · simp only [h3, hq]; exact r3
      · simp only [h3, hq]
        have : 4 * (a * b) + a * b = 5 * (a * b) := by omega
        rw [this]; exact r4
      · simp only [h3, hq, List.length_replicate]
        omega
      · intro j k hj hk
        have hj' : j < 2 * b := hj
        have hk' : k < 2 * a := hk
        have e1 : (j + 1) * width ≤ (2 * b) * width := Nat.mul_le_mul_right _ hj'
        have e2 : (j + 1) * width = j * width + width := Nat.succ_mul _ _
        have e3' : (2 * b) * width = width * (2 * b) := Nat.mul_comm _ _
        show (k + j * width) * 3 + 2 < frame.length
        omega
      · intro idx hidx
        rw [r2, r3, r4] at hidx
        simp only [List.mem_append, List.mem_range'_1] at hidx
        simp only [List.length_replicate]
        omega

/-- Witness of C28 as the code has it: frames of 3 columns and 2 rows, of which
the video keeps 2 columns. Luma is written to the indices 0 to 3, U to 4 and
V to 5 of the 6 bytes of the picture buffer. -/
theorem frame_indexing_witness :
    ∃ enc st, VideoEncoder.construct 3 2 25 true true true = Except.ok enc ∧
      enc._pictureBuffer.length = 6 ∧
      enc.convert (List.replicate 18 100) = some st ∧
      st.lumaWrites = [0, 1, 2, 3] ∧ st.uWrites = [4] ∧ st.vWrites = [5] ∧
      enc.addFrame (List.replicate 17 100) =
        some (enc, Outcome.thrown "The image is too small for the video size!") := by
  obtain ⟨enc, h1, h2, h3, h4, h5, h6⟩ :=
    frame_indexing 3 2 25 (by decide) (by decide) (by decide) (by decide)
  have e2 : enc._inputWidth = 3 := h2
  have e3 : enc._videoWidth = 2 := h3
  have e4 : enc._videoHeight = 2 := h4
  obtain ⟨st, _, hst, _, _, _, r1, r2, r3, _⟩ :=
    (h6 (List.replicate 18 100)).2 (by rw [e2, e4]; decide)
  have hthrow := (h6 (List.replicate 17 100)).1 (by rw [e2, e4]; decide)
  rw [e3, e4] at r1 r2 r3 h5
  exact ⟨enc, st, h1, h5, hst, r1, r2, r3, hthrow⟩

/-- Counterexample to C28 as stated: input width `2^63 + 2` and height 2. The
constructor returns, with a video of 2 by 2 pixels for the codec and a picture
buffer of 6 bytes. A frame of 12 bytes is shorter than
`3 * inputWidth * videoHeight`; it is not rejected, because that product
wraps to 12, and the conversion reads the frame far outside its 12 bytes (the
second row starts at the index `2^63 + 6`): the behaviour of `addFrame` is
undefined. -/
theorem frame_size_wrap_counterexample :
    ∃ enc, VideoEncoder.construct (2 ^ 63 + 2) 2 25 true true true = Except.ok enc ∧
      enc.contextWidth = 2 ∧ enc.contextHeight = 2 ∧ enc._pictureBuffer.length = 6 ∧
      (List.replicate 12 0).length < 3 * enc._inputWidth * enc._videoHeight ∧
      size_t (size_t (3 * enc._inputWidth) * enc._videoHeight) = 12 ∧
      size_t (size_t (0 + size_t (1 * enc._inputWidth)) * 3) = 2 ^ 63 + 6 ∧
      enc.addFrame (List.replicate 12 0) = none :=
  ⟨_, rfl, by decide, by decide, by decide, by decide, by decide, by decide, by rfl⟩


/-! ## The shape of an attribute -/

theorem writeComponents_inBounds (c N : Nat) (value : Nat → Nat → ℚ) (data : List ℚ)
    (h : ∀ i j, i < N → j < c → c * i + j < data.length) :
    ∃ d, writeComponents c N value data = some d ∧ d.length = data.length := by
  unfold writeComponents
  apply foldlM_range_inv _ (fun _ d => d.length = data.length) N data rfl
  intro i hi d hd
  apply foldlM_range_inv _ (fun _ d => d.length = data.length) c d hd
  intro j hj d' hd'
  have hlt : c * i + j < d'.length := by rw [hd']; exact h i j hi hj
  exact ⟨_, if_pos hlt, by rw [List.length_set]; exact hd'⟩

/-- C29, as the code has it. For every element count `N` and component count
`c` with `1 <= c <= 4` whose product `N * c` is below `2^64` (it is computed
in `size_t`) and can be allocated, the constructor returns an attribute whose
host data are exactly `N * c` values, with `size() == N` and
`components() == c`; every index `c * i + j` with `i < N` and `j < c` is in
bounds, and the writes of the particle example to all these indices are
defined. For more than 4 components the constructor throws, whatever `N`. -/
theorem attribute_shape (canAllocate : Nat → Bool) (N : Nat) (type : AttributeType)
    (c : Nat) :
    (1 ≤ c → c ≤ 4 → N * c < 2 ^ 64 → canAllocate (N * c) = true →
      ∃ A, Attribute.construct canAllocate N type c = Except.ok A ∧
        A.getData.length = N * c ∧ A.size = some N ∧ A.components = c ∧
        (∀ i j, i < N → j < c → c * i + j < A.getData.length) ∧
        ∀ value : Nat → Nat → ℚ, ∃ d, writeComponents c N value A.getData = some d ∧
          d.length = N * c) ∧
    (4 < c → ∃ msg, Attribute.construct canAllocate N type c = Except.error msg) := by
  refine ⟨?_, ?_⟩
  · intro h1 h4 hlt halloc
    have es : size_t (N * c) = N * c := size_t_of_lt _ hlt
    have hb : ∀ i j, i < N → j < c → c * i + j < N * c := by
      intro i j hi hj
      have h5 : c * (i + 1) ≤ c * N := Nat.mul_le_mul_left _ hi
      have h6 : c * (i + 1) = c * i + c := Nat.mul_succ _ _
      have h7 : c * N = N * c := Nat.mul_comm _ _
      omega
    refine ⟨⟨0, List.replicate (N * c) 0, c, type, 0⟩, ?_, ?_, ?_, rfl, ?_, ?_⟩
    · unfold Attribute.construct
      simp only [es, halloc, Bool.not_true, Bool.false_eq_true, if_false]
      rw [if_neg (by omega)]
    · simp [Attribute.getData]
    · unfold Attribute.size
      simp only [List.length_replicate]
      rw [if_neg (by omega)]
      congr 1
      exact Nat.mul_div_cancel _ (by omega)
    · intro i j hi hj
      simp only [Attribute.getData, List.length_replicate]
      exact hb i j hi hj
    · intro value
      obtain ⟨d, hd1, hd2⟩ := writeComponents_inBounds c N value (List.replicate (N * c) 0)
        (by simpa using hb)
      exact ⟨d, hd1, by simpa using hd2⟩
  · intro h4
    unfold Attribute.construct
    by_cases ha : canAllocate (size_t (N * c)) = true
    · simp only [ha, Bool.not_true, Bool.false_eq_true, if_false]
      rw [if_pos h4]
      exact ⟨_, rfl⟩
    · simp only [ha, Bool.not_false, if_true]
      exact ⟨_, rfl⟩

/-- Witness of C29 as the code has it: the attributes of the particle example,
`N = 10` with 3 components, and an attribute with 5 components. -/
theorem attribute_shape_witness :
    (∃ A, Attribute.construct (fun _ => true) 10 AttributeType.COORDINATE 3 = Except.ok A ∧
      A.getData.length = 30 ∧ A.size = some 10 ∧
      ∃ d, writeComponents 3 10 (fun i j => (i : ℚ) + (j : ℚ)) A.getData = some d ∧
        d.length = 30) ∧
    ∃ msg, Attribute.construct (fun _ => true) 10 AttributeType.INTENSIVE 5 =
      Except.error msg := by
  obtain ⟨A, h1, h2, h3, _, _, h6⟩ :=
    (attribute_shape (fun _ => true) 10 AttributeType.COORDINATE 3).1
      (by decide) (by decide) (by decide) rfl
  obtain ⟨d, hd1, hd2⟩ := h6 (fun i j => (i : ℚ) + (j : ℚ))
  exact ⟨⟨A, h1, h2, h3, d, hd1, hd2⟩,
    (attribute_shape (fun _ => true) 10 AttributeType.INTENSIVE 5).2 (by decide)⟩

/-- Counterexample to C29 as stated: `N = 2^62` elements of 4 components. The
product `N * 4` wraps to 0 in `size_t`: the constructor returns an attribute
with no host data at all, `size()` is 0 and not `N`, and the index
`4 * 0 + 0` is out of bounds. -/
theorem attribute_wrap_counterexample :
    ∃ A, Attribute.construct (fun n => decide (n ≤ 1000)) (2 ^ 62) AttributeType.INTENSIVE 4 =
        Except.ok A ∧
      A.getData = [] ∧ A.size = some 0 ∧ ¬ (4 * 0 + 0 < A.getData.length) ∧
      writeComponents 4 1 (fun _ _ => 1) A.getData = none :=
  ⟨_, rfl, rfl, rfl, by decide, rfl⟩


/-! ## Radix sort -/

theorem radixDigit_lt (sb bits key : Nat) : radixDigit sb bits key < 2 ^ bits :=
  Nat.mod_lt _ (by positivity)

theorem radixDigit_four (k key : Nat) : radixDigit (4 * k) 4 key = key / 16 ^ k % 16 := by
  unfold radixDigit
  rw [Nat.shiftRight_eq_div_pow, Nat.pow_mul]
  norm_num

theorem filter_lt_succ_perm (f : Nat → Nat) (n : Nat) (l : List Nat) :
    List.Perm (l.filter (fun x => decide (f x < n)) ++ l.filter (fun x => decide (f x = n)))
      (l.filter (fun x => decide (f x < n + 1))) := by
  induction l with
  | nil => simp
  | cons x l ih =>
    rcases Nat.lt_trichotomy (f x) n with h | h | h
    · have b1 : decide (f x < n) = true := decide_eq_true h
      have b2 : decide (f x = n) = false := decide_eq_false (by omega)
      have b3 : decide (f x < n + 1) = true := decide_eq_true (by omega)
      simp only [List.filter_cons, b1, b2, b3, if_true, Bool.false_eq_true, if_false,
        List.cons_append]
      exact ih.cons x
    · have b1 : decide (f x < n) = false := decide_eq_false (by omega)
      have b2 : decide (f x = n) = true := decide_eq_true h
      have b3 : decide (f x < n + 1) = true := decide_eq_true (by omega)
      simp only [List.filter_cons, b1, b2, b3, if_true, Bool.false_eq_true, if_false]
      exact List.perm_middle.trans (ih.cons x)
    · have b1 : decide (f x < n) = false := decide_eq_false (by omega)
      have b2 : decide (f x = n) = false := decide_eq_false (by omega)
      have b3 : decide (f x < n + 1) = false := decide_eq_false (by omega)
      simp only [List.filter_cons, b1, b2, b3, Bool.false_eq_true, if_false]
      exact ih

theorem buckets_perm (f : Nat → Nat) (l : List Nat) :
    ∀ n, List.Perm ((List.range n).flatMap (fun d => l.filter (fun x => decide (f x = d))))
      (l.filter (fun x => decide (f x < n))) := by
  intro n
  induction n with
  | zero => simp
  | succ n ih =>
    rw [List.range_succ, List.flatMap_append]
    simp only [List.flatMap_cons, List.flatMap_nil, List.append_nil]
    exact (List.Perm.append_right _ ih).trans (filter_lt_succ_perm f n l)

/-- A pass permutes the keys. -/
theorem radixPass_perm (sb bits : Nat) (l : List Nat) : List.Perm (radixPass sb bits l) l := by
  have h := buckets_perm (radixDigit sb bits) l (2 ^ bits)
  have hall : l.filter (fun x => decide (radixDigit sb bits x < 2 ^ bits)) = l := by
    rw [List.filter_eq_self]
    intro a _
    simp [radixDigit_lt]
  rw [hall] at h
  exact h

theorem low_digits_succ (k x : Nat) :
    x % 16 ^ (k + 1) = x % 16 ^ k + 16 ^ k * radixDigit (4 * k) 4 x := by
  rw [radixDigit_four]
  exact Nat.mod_pow_succ

/-- A pass on the digit `k` of keys that are in the order of their `k` lowest
digits leaves them in the order of their `k + 1` lowest digits. -/
theorem radixPass_sorted (k : Nat) (l : List Nat)
    (h : l.Pairwise (fun x y => x % 16 ^ k ≤ y % 16 ^ k)) :
    (radixPass (4 * k) 4 l).Pairwise (fun x y => x % 16 ^ (k + 1) ≤ y % 16 ^ (k + 1)) := by
  unfold radixPass
  rw [List.pairwise_flatMap]
  refine ⟨?_, ?_⟩
  · intro d _
    have hsub : (l.filter (fun key => decide (radixDigit (4 * k) 4 key = d))).Pairwise
        (fun x y => x % 16 ^ k ≤ y % 16 ^ k) := h.sublist (List.filter_sublist _)
    have hd : ∀ x ∈ l.filter (fun key => decide (radixDigit (4 * k) 4 key = d)),
        radixDigit (4 * k) 4 x = d := by
      intro x hx
      simpa using (List.mem_filter.mp hx).2
    rw [List.pairwise_iff_forall_sublist] at hsub ⊢
    intro x y hxy
    have hx : x ∈ l.filter (fun key => decide (radixDigit (4 * k) 4 key = d)) :=
      hxy.subset (by simp)
    have hy : y ∈ l.filter (fun key => decide (radixDigit (4 * k) 4 key = d)) :=
      hxy.subset (by simp)
    rw [low_digits_succ, low_digits_succ, hd x hx, hd y hy]
    exact Nat.add_le_add_right (hsub hxy) _
  · apply List.Pairwise.imp _ (List.pairwise_lt_range _)
    intro d1 d2 hlt x hx y hy
    have h1 : radixDigit (4 * k) 4 x = d1 := by simpa using (List.mem_filter.mp hx).2
    have h2 : radixDigit (4 * k) 4 y = d2 := by simpa using (List.mem_filter.mp hy).2
    rw [low_digits_succ, low_digits_succ, h1, h2]
    have hlow : x % 16 ^ k < 16 ^ k := Nat.mod_lt _ (by positivity)
    have hmul : 16 ^ k * (d1 + 1) ≤ 16 ^ k * d2 := Nat.mul_le_mul_left _ hlt
    have hexp : 16 ^ k * (d1 + 1) = 16 ^ k * d1 + 16 ^ k := Nat.mul_succ _ _
    omega

/-- The loop on one and the same buffer, entered with `n` passes to go and
keys in the order of their `k` lowest digits: it ends, with a permutation of
the keys in the order of all their `k + n` lowest digits in both buffers. -/
theorem radixLoop_inPlace (sizeofT : Nat) :
    ∀ (n k : Nat) (l : List Nat), k + n = 2 * sizeofT →
      l.Pairwise (fun x y => x % 16 ^ k ≤ y % 16 ^ k) →
      ∃ out, radixLoop sizeofT (n + 1) (4 * k) ⟨true, l, l⟩ = some ⟨true, out, out⟩ ∧
        out.Pairwise (fun x y => x % 16 ^ (2 * sizeofT) ≤ y % 16 ^ (2 * sizeofT)) ∧
        List.Perm out l := by
  intro n
  induction n with
  | zero =>
    intro k l hk hl
    refine ⟨l, ?_, ?_, List.Perm.refl _⟩
    · unfold radixLoop
      rw [if_neg (by omega)]
    · rw [← hk]; exact hl
  | succ n ih =>
    intro k l hk hl
    obtain ⟨out, h1, h2, h3⟩ := ih (k + 1) (radixPass (4 * k) 4 l) (by omega)
      (radixPass_sorted k l hl)
    refine ⟨out, ?_, h2, h3.trans (radixPass_perm _ _ l)⟩
    rw [radixLoop, if_pos (by omega)]
    simp only [radixIteration, if_true]
    exact h1

/-- The loop on two different buffers, entered with `n` passes to go: it
ends; `input` is as it was, and `output` holds the keys of `input` sorted by
the digit of the last pass alone (or is as it was when no pass is left). -/
theorem radixLoop_separate (sizeofT : Nat) :
    ∀ (n k : Nat) (input out : List Nat), k + n = 2 * sizeofT →
      radixLoop sizeofT (n + 1) (4 * k) ⟨false, input, out⟩ =
        some ⟨false, input, if n = 0 then out else radixPass (sizeofT * 8 - 4) 4 input⟩ := by
  intro n
  induction n with
  | zero =>
    intro k input out hk
    unfold radixLoop
    rw [if_neg (by omega)]
    rfl
  | succ n ih =>
    intro k input out hk
    rw [radixLoop, if_pos (by omega)]
    simp only [radixIteration, Bool.false_eq_true, if_false]
    have h := ih (k + 1) input (radixPass (4 * k) 4 input) (by omega)
    rw [show 4 * (k + 1) = 4 * k + 4 by ring] at h
    rw [h]
    by_cases hn : n = 0
    · have e : 4 * k = sizeofT * 8 - 4 := by omega
      simp [hn, e]
    · simp [hn]

theorem radixPass_of_digit_zero (sb : Nat) (l : List Nat)
    (h : ∀ key ∈ l, radixDigit sb 4 key = 0) : radixPass sb 4 l = l := by
  unfold radixPass
  have h0 : l.filter (fun key => decide (radixDigit sb 4 key = 0)) = l := by
    rw [List.filter_eq_self]
    intro a ha
    simp [h a ha]
  have hd : ∀ d, d ≠ 0 → l.filter (fun key => decide (radixDigit sb 4 key = d)) = [] := by
    intro d hd
    rw [List.filter_eq_nil_iff]
    intro a ha
    simp only [decide_eq_true_eq]
    rw [h a ha]
    exact fun e => hd e.symm
  have hr : List.range (2 ^ 4) = 0 :: (List.range 15).map (· + 1) := by decide
  rw [hr, List.flatMap_cons, h0]
  have hrest : ((List.range 15).map (· + 1)).flatMap
      (fun d => l.filter (fun key => decide (radixDigit sb 4 key = d))) = [] := by
    rw [List.flatMap_eq_nil_iff]
    intro d hd'
    apply hd
    simp only [List.mem_map] at hd'
    obtain ⟨a, _, ha⟩ := hd'
    omega
  rw [hrest, List.append_nil]

/-- C30, as the code has it. For keys of `sizeofT >= 1` bytes and a key array
whose size is a multiple of 1024, with one pass taken as a stable sort of its
source buffer by the 4-bit digit at `startBit`: the `2 * sizeofT` passes end.
When `input` and `output` are the same buffer, it then holds a permutation of
the keys in non-decreasing order. When they are different buffers, every pass
sorts the keys of `input`, which no pass changes, and `output` ends as the
keys of `input` sorted by their most significant digit alone. -/
theorem radix_sort_buffers (sizeofT : Nat) (input out0 : List Nat) (hT : 1 ≤ sizeofT)
    (_hsize : input.length % 1024 = 0) (hkeys : ∀ key ∈ input, key < 2 ^ (8 * sizeofT)) :
    (∃ out, radixSort sizeofT (2 * sizeofT + 1) ⟨true, input, input⟩ = some ⟨true, out, out⟩ ∧
      out.Pairwise (fun x y => x ≤ y) ∧ List.Perm out input) ∧
    radixSort sizeofT (2 * sizeofT + 1) ⟨false, input, out0⟩ =
      some ⟨false, input, radixPass (sizeofT * 8 - 4) 4 input⟩ := by
  refine ⟨?_, ?_⟩
  · obtain ⟨out, h1, h2, h3⟩ := radixLoop_inPlace sizeofT (2 * sizeofT) 0 input (by omega)
      (List.pairwise_of_forall (fun x y => by simp [Nat.mod_one]))
    refine ⟨out, h1, ?_, h3⟩
    have hpow : (2 : Nat) ^ (8 * sizeofT) = 16 ^ (2 * sizeofT) := by
      rw [show 8 * sizeofT = 4 * (2 * sizeofT) by ring, Nat.pow_mul]
    have hb : ∀ key ∈ out, key % 16 ^ (2 * sizeofT) = key := by
      intro key hk
      apply Nat.mod_eq_of_lt
      rw [← hpow]
      exact hkeys key (h3.subset hk)
    rw [List.pairwise_iff_forall_sublist] at h2 ⊢
    intro x y hxy
    have hx : x ∈ out := hxy.subset (by simp)
    have hy : y ∈ out := hxy.subset (by simp)
    have := h2 hxy
    rw [hb x hx, hb y hy] at this
    exact this
  · have h := radixLoop_separate sizeofT (2 * sizeofT) 0 input out0 (by omega)
    rw [if_neg (by omega)] at h
    exact h

/-- Witness of C30 as the code has it: 1024 keys of 4 bytes, the key 1
followed by 1023 keys 0. Sorting in place ends with the keys in order.
Sorting from `input` into a different buffer `output` ends with `output`
holding the keys in the order of `input`, the key 1 before the keys 0: not
sorted. -/
theorem radix_sort_buffers_witness :
    unsortedKeys.length % 1024 = 0 ∧ (∀ key ∈ unsortedKeys, key < 2 ^ (8 * 4)) ∧
      (∃ out, radixSort 4 9 ⟨true, unsortedKeys, unsortedKeys⟩ = some ⟨true, out, out⟩ ∧
        out.Pairwise (fun x y => x ≤ y) ∧ List.Perm out unsortedKeys) ∧
      radixSort 4 9 ⟨false, unsortedKeys, List.replicate 1024 0⟩ =
        some ⟨false, unsortedKeys, unsortedKeys⟩ ∧
      unsortedKeys.take 2 = [1, 0] ∧
      ¬ unsortedKeys.Pairwise (fun x y => x ≤ y) := by
  have hlen : unsortedKeys.length % 1024 = 0 := by
    simp only [unsortedKeys, List.length_cons, List.length_replicate]
  have hmem : ∀ key ∈ unsortedKeys, key = 1 ∨ key = 0 := by
    intro key hk
    simp only [unsortedKeys, List.mem_cons, List.mem_replicate] at hk
    rcases hk with h | h | h
    · exact Or.inl h
    · exact Or.inr h
    · exact Or.inr h.2
  have hkeys : ∀ key ∈ unsortedKeys, key < 2 ^ (8 * 4) := by
    intro key hk
    rcases hmem key hk with h | h <;> rw [h] <;> decide
  have hdig : ∀ key ∈ unsortedKeys, radixDigit (4 * 8 - 4) 4 key = 0 := by
    intro key hk
    rcases hmem key hk with h | h <;> rw [h] <;> decide
  have h := radix_sort_buffers 4 unsortedKeys (List.replicate 1024 0) (by decide) hlen hkeys
  refine ⟨hlen, hkeys, h.1, ?_, rfl, ?_⟩
  · rw [h.2, radixPass_of_digit_zero _ _ hdig]
  · intro hp
    have : (1 : Nat) ≤ 0 := by
      simp only [unsortedKeys, List.pairwise_cons] at hp
      exact hp.1 0 (List.mem_cons_self _ _)
    omega

/-! ## Wake: the pairs before and after a waking pair -/

/-- The loop body writes the pending map only at the ids of the two particles
of its pair: what holds of the map and survives an assignment at either id
holds of the map the body leaves. -/
theorem pairStep_inv (E : SleepEnv) (sv : ℚ) (q : PairEventData) (m : StateMap)
    (P : StateMap → Prop) (hP : P m)
    (h1 : ∀ m' v, P m' → P (StateMap.assign m' q.particle1_.particle.ID v))
    (h2 : ∀ m' v, P m' → P (StateMap.assign m' q.particle2_.particle.ID v)) :
    P (pairStep E sv q m).1 := by
  unfold pairStep
  by_cases hd : q.particle1_.particle.testStateDynamic = true
  · simp only [hd, if_true]
    split_ifs
    all_goals first
      | exact hP
      | exact h1 _ _ hP
      | exact h2 _ _ hP
      | exact h1 _ _ (h2 _ _ hP)
      | exact h1 _ _ (h1 _ _ (h2 _ _ hP))
  · simp only [hd, if_false, Bool.false_eq_true]
    split_ifs
    all_goals first
      | exact hP
      | exact h1 _ _ hP
      | exact h2 _ _ hP
      | exact h2 _ _ (h1 _ _ hP)
      | exact h2 _ _ (h2 _ _ (h1 _ _ hP))

theorem pairLoop_inv (E : SleepEnv) (sv : ℚ) (P : StateMap → Prop) :
    ∀ (l : List PairEventData) (m : StateMap), P m →
      (∀ q ∈ l, ∀ m' v, P m' →
        P (StateMap.assign m' q.particle1_.particle.ID v) ∧
          P (StateMap.assign m' q.particle2_.particle.ID v)) →
      P (pairLoop E sv l m).1 := by
  intro l
  induction l with
  | nil => intro m hP _; exact hP
  | cons q rest ih =>
    intro m hP h
    have hq := pairStep_inv E sv q m P hP
      (fun m' v hm => (h q (List.mem_cons_self _ _) m' v hm).1)
      (fun m' v hm => (h q (List.mem_cons_self _ _) m' v hm).2)
    rw [pairLoop]
    rcases hstep : pairStep E sv q m with ⟨m', fl⟩
    rw [hstep] at hq
    cases fl with
    | next => exact ih m' hq (fun q' hq' => h q' (List.mem_cons_of_mem _ hq'))
    | brk => exact hq
    | thrown msg => exact hq

/-- The loop body throws only in a build with `DYNAMO_DEBUG`, and only for a
pair of two particles that are not Dynamic. -/
theorem pairStep_not_thrown (E : SleepEnv) (sv : ℚ) (q : PairEventData) (m : StateMap)
    (h : E.DYNAMO_DEBUG = false ∨ q.particle1_.particle.testStateDynamic = true ∨
      q.particle2_.particle.testStateDynamic = true) (msg : String) :
    (pairStep E sv q m).2 ≠ Flow.thrown msg := by
  unfold pairStep
  have hg : (E.DYNAMO_DEBUG && (!q.particle1_.particle.testStateDynamic &&
      !q.particle2_.particle.testStateDynamic)) = false := by
    rcases h with h | h | h <;> simp [h]
  simp only [hg, Bool.false_eq_true, if_false]
  split_ifs <;> simp

theorem pairLoop_ok (E : SleepEnv) (sv : ℚ) :
    ∀ (l : List PairEventData) (m : StateMap),
      (∀ q ∈ l, E.DYNAMO_DEBUG = false ∨ q.particle1_.particle.testStateDynamic = true ∨
        q.particle2_.particle.testStateDynamic = true) →
      (pairLoop E sv l m).2 = Outcome.ok := by
  intro l
  induction l with
  | nil => intro m _; rfl
  | cons q rest ih =>
    intro m h
    have hq := pairStep_not_thrown E sv q m (h q (List.mem_cons_self _ _))
    rw [pairLoop]
    rcases hstep : pairStep E sv q m with ⟨m', fl⟩
    rw [hstep] at hq
    cases fl with
    | next => exact ih m' (fun q' hq' => h q' (List.mem_cons_of_mem _ hq'))
    | brk => rfl
    | thrown msg => exact absurd rfl (hq msg)

/-- For a pair that `wakes`, the loop body records `(1,1,1)` for one of the
two particles, nothing else, and runs to its end. -/
theorem pairStep_wakes (E : SleepEnv) (sv : ℚ) (q : PairEventData) (m : StateMap)
    (h : wakes E sv q = true) :
    (pairStep E sv q m).2 = Flow.next ∧
      ((pairStep E sv q m).1 = m.assign q.particle1_.particle.ID ⟨1, 1, 1⟩ ∨
        (pairStep E sv q m).1 = m.assign q.particle2_.particle.ID ⟨1, 1, 1⟩) := by
  unfold wakes at h
  simp only [Bool.and_eq_true, Bool.not_eq_true', bne_iff_ne, ne_eq] at h
  obtain ⟨⟨⟨hr1, hr2⟩, hne⟩, hc⟩ := h
  unfold pairStep
  by_cases hd : q.particle1_.particle.testStateDynamic = true
  · have hd2 : q.particle2_.particle.testStateDynamic = false := by
      cases h2 : q.particle2_.particle.testStateDynamic with
      | false => rfl
      | true => rw [hd, h2] at hne; exact absurd rfl hne
    rw [if_pos hd] at hc
    have hc' : sleepCondition sv (Vector.scale 10⁻¹ q.particle2_.particle.vel)
        E.getGravityVector = false := by simpa using hc
    simp [hd, hd2, hr1, hr2, hc']
  · have hd1 : q.particle1_.particle.testStateDynamic = false := by
      simpa using hd
    have hd2 : q.particle2_.particle.testStateDynamic = true := by
      cases h2 : q.particle2_.particle.testStateDynamic with
      | true => rfl
      | false => rw [hd1, h2] at hne; exact absurd rfl hne
    rw [if_neg hd] at hc
    have hc' : sleepCondition sv (Vector.scale 10⁻¹ q.particle1_.particle.vel)
        E.getGravityVector = false := by simpa using hc
    simp [hd1, hd2, hr1, hr2, hc']

/-- The loop passes the pairs that wake and goes on with the pairs behind
them. -/
theorem pairLoop_append_wakes (E : SleepEnv) (sv : ℚ) (l : List PairEventData) :
    ∀ (pre : List PairEventData) (m : StateMap), (∀ q ∈ pre, wakes E sv q = true) →
      pairLoop E sv (pre ++ l) m = pairLoop E sv l (pairLoop E sv pre m).1 := by
  intro pre
  induction pre with
  | nil => intro m _; rfl
  | cons q rest ih =>
    intro m h
    have hq := (pairStep_wakes E sv q m (h q (List.mem_cons_self _ _))).1
    rw [List.cons_append, pairLoop, pairLoop]
    rcases hstep : pairStep E sv q m with ⟨m', fl⟩
    rw [hstep] at hq
    simp only at hq
    subst hq
    exact ih m' (fun q' hq' => h q' (List.mem_cons_of_mem _ hq'))

/-- C6 as amended. Wake: a pair `pdat`, in either order, of a Dynamic particle
`dp` and a resting particle `sp` that are both in the monitored range, where
the sleep condition fails for one tenth of the velocity of `sp`, the vector
the code tests. The loop body records the non-zero state change `(1,1,1)` for
`sp`, nothing for `dp`, and does not leave the loop. The pair can stand
anywhere in the pair list, provided the loop reaches it and nothing after it
undoes the record: every pair before it `wakes` (any other pair ends the
loop), no pair after it holds `sp`, no pair after it makes a debug build
throw, and the pairs hold particles of the particle list. Then
`particlesUpdated` returns with `(1,1,1)` pending for `sp`; the `runEvent`
that follows returns, the event datum handed to the plugins for `sp` has type
`WAKEUP`, and `sp` is Dynamic and moves with the velocity that the hit gave
it. -/
theorem wake_transition (E : SleepEnv) (hE : E.KeepsState) (s : SleepSim) (hs : s.WF)
    (l1 : List ParticleEventData) (pre : List PairEventData) (pdat : PairEventData)
    (rest : List PairEventData) (dp sp : Particle)
    (hpair : (pdat.particle1_.particle = dp ∧ pdat.particle2_.particle = sp) ∨
      (pdat.particle1_.particle = sp ∧ pdat.particle2_.particle = dp))
    (hdp : dp.testStateDynamic = true) (hdpr : E.isInRange dp = true)
    (hsp : sp.testStateDynamic = false) (hspr : E.isInRange sp = true)
    (hid : dp.ID ≠ sp.ID) (hlist : s.particleList[sp.ID]? = some sp)
    (hfast : sleepCondition s.sleepVelocity (Vector.scale (1 / 10) sp.vel)
      E.getGravityVector = false)
    (hpre : ∀ q ∈ pre, wakes E s.sleepVelocity q = true)
    (hrest : ∀ q ∈ rest, q.particle1_.particle.ID ≠ sp.ID ∧ q.particle2_.particle.ID ≠ sp.ID)
    (hdbg : ∀ q ∈ rest, E.DYNAMO_DEBUG = false ∨
      q.particle1_.particle.testStateDynamic = true ∨
      q.particle2_.particle.testStateDynamic = true)
    (hin : ∀ q ∈ pre ++ rest,
      s.particleList[q.particle1_.particle.ID]? = some q.particle1_.particle ∧
        s.particleList[q.particle2_.particle.ID]? = some q.particle2_.particle) :
    (∀ m, pairStep E s.sleepVelocity pdat m = (m.assign sp.ID ⟨1, 1, 1⟩, Flow.next)) ∧
      ∃ s1 s2 sdat p' d,
        particlesUpdated E ⟨l1, pre ++ pdat :: rest⟩ s = (s1, Outcome.ok) ∧
        s1.stateChange = (pairLoop E s.sleepVelocity rest
          ((pairLoop E s.sleepVelocity pre s.stateChange).1.assign sp.ID ⟨1, 1, 1⟩)).1 ∧
        s1.stateChange.find sp.ID = some ⟨1, 1, 1⟩ ∧
        (⟨1, 1, 1⟩ : Vector) ≠ Vector.zero ∧
        (pre = [] → rest = [] → s1.stateChange.find dp.ID = s.stateChange.find dp.ID) ∧
        runEvent E s1 = some (s2, Outcome.ok) ∧
        s2.pluginUpdates = s.pluginUpdates ++ [(⟨sdat, []⟩, 0 + s.freestreamAcc)] ∧
        d ∈ sdat ∧ d.particle = p' ∧ d.type = EEventType.WAKEUP ∧
        s2.particleList[sp.ID]? = some p' ∧
        p'.testStateDynamic = true ∧ p'.vel = (E.updateParticle sp).vel := by
  have hstep : ∀ m, pairStep E s.sleepVelocity pdat m =
      (m.assign sp.ID ⟨1, 1, 1⟩, Flow.next) := by
    intro m
    unfold pairStep
    rcases hpair with ⟨ha, hb⟩ | ⟨ha, hb⟩
    · simp [ha, hb, hdp, hdpr, hsp, hspr]
      simpa using hfast
    · simp [ha, hb, hdp, hdpr, hsp, hspr]
      simpa using hfast
  have hassign : ∀ p : Particle, s.particleList[p.ID]? = some p → ∀ (m' : StateMap) (v : Vector),
      (m'.Ordered ∧ ∀ e ∈ m', ∃ p, s.particleList[e.1]? = some p ∧ p.ID = e.1) →
      ((m'.assign p.ID v).Ordered ∧
        ∀ e ∈ m'.assign p.ID v, ∃ p, s.particleList[e.1]? = some p ∧ p.ID = e.1) := by
    intro p hp m' v hm
    refine ⟨StateMap.ordered_assign _ _ _ hm.1, ?_⟩
    intro e he
    rcases StateMap.mem_assign _ _ _ _ he with he | he
    · rw [he]; exact ⟨p, hp, rfl⟩
    · exact hm.2 e he
  have hV1 := pairLoop_inv E s.sleepVelocity
    (fun m => m.Ordered ∧ ∀ e ∈ m, ∃ p, s.particleList[e.1]? = some p ∧ p.ID = e.1)
    pre s.stateChange hs
    (fun q hq m' v hm =>
      ⟨hassign _ (hin q (List.mem_append_left _ hq)).1 m' v hm,
        hassign _ (hin q (List.mem_append_left _ hq)).2 m' v hm⟩)
  have hV2 := hassign sp hlist _ ⟨1, 1, 1⟩ hV1
  have hV3 := pairLoop_inv E s.sleepVelocity
    (fun m => (m.Ordered ∧ ∀ e ∈ m, ∃ p, s.particleList[e.1]? = some p ∧ p.ID = e.1) ∧
      m.find sp.ID = some ⟨1, 1, 1⟩)
    rest ((pairLoop E s.sleepVelocity pre s.stateChange).1.assign sp.ID ⟨1, 1, 1⟩)
    ⟨hV2, StateMap.find_assign_self _ _ _⟩
    (fun q hq m' v hm =>
      ⟨⟨hassign _ (hin q (List.mem_append_right _ hq)).1 m' v hm.1, by
          rw [StateMap.find_assign_ne _ _ _ _ (Ne.symm (hrest q hq).1)]; exact hm.2⟩,
        ⟨hassign _ (hin q (List.mem_append_right _ hq)).2 m' v hm.1, by
          rw [StateMap.find_assign_ne _ _ _ _ (Ne.symm (hrest q hq).2)]; exact hm.2⟩⟩)
  have hloop : pairLoop E s.sleepVelocity
      (NEventData.mk l1 (pre ++ pdat :: rest)).L2partChanges s.stateChange =
      ((pairLoop E s.sleepVelocity rest
        ((pairLoop E s.sleepVelocity pre s.stateChange).1.assign sp.ID ⟨1, 1, 1⟩)).1,
        Outcome.ok) := by
    show pairLoop E s.sleepVelocity (pre ++ pdat :: rest) s.stateChange = _
    rw [pairLoop_append_wakes E s.sleepVelocity (pdat :: rest) pre s.stateChange hpre,
      pairLoop, hstep]
    exact Prod.ext rfl (pairLoop_ok E s.sleepVelocity rest _ hdbg)
  obtain ⟨h1, h2, h3, _, h5, h6⟩ :=
    particlesUpdated_of_loop E ⟨l1, pre ++ pdat :: rest⟩ s _ hloop
  have hwf : (particlesUpdated E ⟨l1, pre ++ pdat :: rest⟩ s).1.WF := by
    refine ⟨?_, ?_⟩
    · rw [h2]; exact hV3.1.1
    · rw [h2, h3]; exact hV3.1.2
  have hmem : (sp.ID, (⟨1, 1, 1⟩ : Vector)) ∈
      (particlesUpdated E ⟨l1, pre ++ pdat :: rest⟩ s).1.stateChange := by
    rw [h2]; exact StateMap.mem_of_find _ _ _ hV3.2
  have hlist' : (particlesUpdated E ⟨l1, pre ++ pdat :: rest⟩ s).1.particleList[sp.ID]? =
      some sp := by
    rw [h3]; exact hlist
  obtain ⟨s2, r1, _, _, r4, _, r6, _⟩ :=
    runEvent_spec E hE (particlesUpdated E ⟨l1, pre ++ pdat :: rest⟩ s).1 hwf
  have hu : (E.updateParticle sp).dynamic = false := by rw [(hE sp).2]; exact hsp
  have hcl : classify ⟨1, 1, 1⟩ (E.updateParticle sp) = EEventType.WAKEUP := by
    simp [classify, Vector.isZero, Particle.testStateDynamic, hu]
  have hone : runEventParticle E ⟨1, 1, 1⟩ sp = (E.updateParticle sp).setStateDynamic := by
    simp [runEventParticle, hcl, applyType]
  refine ⟨hstep, (particlesUpdated E ⟨l1, pre ++ pdat :: rest⟩ s).1, s2,
    collectedData E (particlesUpdated E ⟨l1, pre ++ pdat :: rest⟩ s).1.stateChange
      (particlesUpdated E ⟨l1, pre ++ pdat :: rest⟩ s).1.particleList,
    runEventParticle E ⟨1, 1, 1⟩ sp, runEventData E ⟨1, 1, 1⟩ sp, ?_, h2, ?_, ?_, ?_, r1, ?_,
    mem_collectedData E _ _ (sp.ID, ⟨1, 1, 1⟩) hmem sp hlist', rfl, ?_,
    r4 _ hmem sp hlist', ?_, ?_⟩
  · rw [← h1]
  · rw [h2]; exact hV3.2
  · simp [Vector.zero]
  · intro hp hr
    subst hp hr
    rw [h2]
    exact StateMap.find_assign_ne _ _ _ _ hid
  · rw [r6, h5, h6]
  · simp [runEventData, eventData, hcl]
  · rw [hone]; rfl
  · rw [hone]; rfl

theorem restingFast_fast :
    sleepCondition 2 (Vector.scale (1 / 10) restingFast.vel) ⟨0, 0, -1⟩ = false := by
  simp [sleepCondition, Vector.nrmLt, Vector.nrm2, Vector.scale, restingFast]
  norm_num

/-- Witness of C6 as amended: the dynamic particle 1 against the resting
particle 0 that the hit left with velocity `(30,0,0)`, for the sleep velocity
2; the pair is the second of three: before it stands the same pair in the
other order, after it a pair of two Dynamic particles. -/
theorem wake_transition_witness :
    (exampleSim [restingFast, dynamicOne, dynamicTwo] []).WF ∧
      sleepCondition 2 (Vector.scale (1 / 10) restingFast.vel) ⟨0, 0, -1⟩ = false ∧
      wakes exampleEnv 2 ⟨pairData restingFast, pairData dynamicOne⟩ = true ∧
      ∃ s1 s2 p',
        particlesUpdated exampleEnv ⟨[], [⟨pairData restingFast, pairData dynamicOne⟩,
            ⟨pairData dynamicOne, pairData restingFast⟩,
            ⟨pairData dynamicOne, pairData dynamicTwo⟩]⟩
          (exampleSim [restingFast, dynamicOne, dynamicTwo] []) = (s1, Outcome.ok) ∧
        s1.stateChange.find 0 = some ⟨1, 1, 1⟩ ∧
        runEvent exampleEnv s1 = some (s2, Outcome.ok) ∧
        s2.particleList[0]? = some p' ∧ p'.testStateDynamic = true ∧
        p'.vel = ⟨30, 0, 0⟩ := by
  have hwf : (exampleSim [restingFast, dynamicOne, dynamicTwo] []).WF :=
    exampleSim_wf_empty _
  have hw : wakes exampleEnv 2 ⟨pairData restingFast, pairData dynamicOne⟩ = true := by
    simp [wakes, exampleEnv, pairData, restingFast, dynamicOne, Particle.testStateDynamic]
    simpa [restingFast] using restingFast_fast
  refine ⟨hwf, restingFast_fast, hw, ?_⟩
  obtain ⟨_, s1, s2, _, p', _, h1, _, h3, _, _, h6, _, _, _, _, h11, h12, h13⟩ :=
    wake_transition exampleEnv exampleEnv_keepsState
      (exampleSim [restingFast, dynamicOne, dynamicTwo] []) hwf []
      [⟨pairData restingFast, pairData dynamicOne⟩]
      ⟨pairData dynamicOne, pairData restingFast⟩
      [⟨pairData dynamicOne, pairData dynamicTwo⟩] dynamicOne restingFast
      (Or.inl ⟨rfl, rfl⟩) rfl (by simp [exampleEnv, dynamicOne]) rfl
      (by simp [exampleEnv, restingFast]) (by simp [dynamicOne, restingFast]) rfl
      restingFast_fast
      (fun q hq => by
        simp only [List.mem_singleton] at hq
        subst hq
        exact hw)
      (fun q hq => by
        simp only [List.mem_singleton] at hq
        subst hq
        simp [pairData, dynamicOne, dynamicTwo, restingFast])
      (fun q hq => by
        simp only [List.mem_singleton] at hq
        subst hq
        exact Or.inl rfl)
      (fun q hq => by
        simp only [List.singleton_append, List.mem_cons, List.mem_singleton,
          List.not_mem_nil, or_false] at hq
        rcases hq with hq | hq <;> subst hq <;>
          simp [exampleSim, pairData, restingFast, dynamicOne, dynamicTwo])
  exact ⟨s1, s2, p', h1, h3, h6, h11, h12, h13⟩

/-- The call `particlesUpdated` leaves the record of the plugin calls and the
accumulated free-streaming time as they are. -/
theorem particlesUpdated_plugins (E : SleepEnv) (PDat : NEventData) (s : SleepSim) :
    (particlesUpdated E PDat s).1.pluginUpdates = s.pluginUpdates ∧
      (particlesUpdated E PDat s).1.freestreamAcc = s.freestreamAcc := by
  unfold particlesUpdated
  rcases pairLoop E s.sleepVelocity PDat.L2partChanges s.stateChange with ⟨m, o⟩
  cases o with
  | thrown msg => exact ⟨rfl, rfl⟩
  | ok =>
    by_cases hem : m.isEmpty = true
    · simp [hem]
    · simp [hem, recalculateTime]

theorem restingModerate_slow :
    sleepCondition 2 (Vector.scale (1 / 10) restingModerate.vel) ⟨0, 0, -1⟩ = true := by
  simp [sleepCondition, Vector.nrmLt, Vector.nrm2, Vector.scale, restingModerate]
  norm_num

/-- Counterexample to C6 as stated: the sleep velocity is 2 and the hit has
left the resting particle 0 with the velocity `(5,0,0)`. The resting particle
does not satisfy the sleep condition, its speed 5 is not below 2; but the code
tests one tenth of its velocity, of norm 1/2, and re-sleeps it:
`particlesUpdated` records the zero state change for it, and the following
`runEvent` classifies it as `RESLEEP`, leaves it without the Dynamic flag and
sets its velocity to zero. -/
theorem moderate_hit_resleeps :
    sleepCondition 2 restingModerate.vel exampleEnv.getGravityVector = false ∧
      dynamicOne.testStateDynamic = true ∧ restingModerate.testStateDynamic = false ∧
      exampleEnv.isInRange dynamicOne = true ∧ exampleEnv.isInRange restingModerate = true ∧
      ∃ s1 s2 sdat p' d,
        particlesUpdated exampleEnv ⟨[], [⟨pairData dynamicOne, pairData restingModerate⟩]⟩
          (exampleSim [restingModerate, dynamicOne] []) = (s1, Outcome.ok) ∧
        s1.stateChange.find 0 = some Vector.zero ∧
        runEvent exampleEnv s1 = some (s2, Outcome.ok) ∧
        s2.pluginUpdates = [(⟨sdat, []⟩, 0 + 0)] ∧
        d ∈ sdat ∧ d.particle = p' ∧ d.type = EEventType.RESLEEP ∧
        s2.particleList[0]? = some p' ∧
        p'.testStateDynamic = false ∧ p'.vel = Vector.zero := by
  have hwf : (exampleSim [restingModerate, dynamicOne] []).WF := exampleSim_wf_empty _
  obtain ⟨h1, h2, h3, h4, _⟩ := resleep_pair_state exampleEnv
    (exampleSim [restingModerate, dynamicOne] []) hwf []
    ⟨pairData dynamicOne, pairData restingModerate⟩ dynamicOne restingModerate
    (Or.inl ⟨rfl, rfl⟩) rfl (by simp [exampleEnv, dynamicOne]) rfl
    (by simp [exampleEnv, restingModerate]) (by simp [dynamicOne, restingModerate]) rfl rfl
    restingModerate_slow
  obtain ⟨s2, r1, _, _, r4, _, r6, _⟩ := runEvent_spec exampleEnv exampleEnv_keepsState _ h2
  have hlist : (particlesUpdated exampleEnv
      ⟨[], [⟨pairData dynamicOne, pairData restingModerate⟩]⟩
      (exampleSim [restingModerate, dynamicOne] [])).1.particleList[0]? =
      some restingModerate := by
    rw [h3]; rfl
  have hcl : classify Vector.zero (exampleEnv.updateParticle restingModerate) =
      EEventType.RESLEEP := by
    simp [classify, Vector.isZero, Vector.zero, Particle.testStateDynamic, exampleEnv,
      restingModerate]
  have hone : runEventParticle exampleEnv Vector.zero restingModerate =
      restingModerate.setVelocity Vector.zero := by
    simp only [runEventParticle, hcl, applyType]
    rfl
  refine ⟨?_, rfl, rfl, by simp [exampleEnv, dynamicOne], by simp [exampleEnv, restingModerate],
    _, s2, _, runEventParticle exampleEnv Vector.zero restingModerate,
    runEventData exampleEnv Vector.zero restingModerate, ?_, ?_, r1, ?_,
    mem_collectedData exampleEnv _ _ (0, Vector.zero) h4 restingModerate hlist, rfl, ?_,
    r4 _ h4 restingModerate hlist, ?_, ?_⟩
  · simp [sleepCondition, Vector.nrmLt, Vector.nrm2, restingModerate]
    norm_num
  · rw [← h1]
  · exact StateMap.find_of_mem _ h2.1 _ h4
  · rw [r6, (particlesUpdated_plugins exampleEnv _ _).1,
      (particlesUpdated_plugins exampleEnv _ _).2]
    rfl
  · simp [runEventData, eventData, hcl]
  · rw [hone]; rfl
  · rw [hone]; rfl

end DynamO
